import Mathlib

/-!
The meme_bot trading core: strategy evaluator and risk manager.

A shallow embedding of the trading core of the repository:

* `pkg/config/config.go`            (the `Config` record),
* `pkg/models/events.go`            (the event records),
* `pkg/agents/strategy/strategy.go` (`StrategyEvaluatorAgent`),
* `pkg/agents/risk/risk.go`         (`RiskManagerAgent`),
* `pkg/agents/prefilter/prefilter.go` (`PreFilterAgent`),
* `pkg/agents/safety/safety.go`     (`OnChainSafetyAgent`),
* `pkg/agents/offchain/offchain.go` (`OffChainDataAgent`),
* `pkg/agents/listing/listing.go`   (`CandidateListingAgent`),
* `pkg/agents/telemetry/telemetry.go` (`TelemetryAgent`),
* `pkg/agents/execution/execution.go` (`ExecutionAgent`),
* `pkg/orchestrator/orchestrator.go` (`Orchestrator`),
* `pkg/config/config.go`            (`LoadConfig` and its helpers).

Conventions of the embedding.

* A Go `float64` is embedded twice.  In the first sections it is the rational
  number it holds and the arithmetic is exact: this keeps every comparison,
  branch and update of the source and is the layer of the statements about
  which branch is taken and which field is written; there the one place
  where the source divides by a quantity that may be zero (`liquidityRatio`)
  is modelled by its IEEE-754 outcome, see `liquidityImbalance`.  The type
  `Float64` is IEEE 754 binary64 bit for bit (signed zeros, subnormal
  numbers, infinities, NaN, round to nearest with ties to even); the methods
  whose result is a float64 sum, product, quotient or rounding are given a
  second time on it, in the namespace `IEEE`, and every statement that fixes
  the value such a method returns, or that ranges over NaN and infinite
  arguments, is made on that layer.
* A Go `int` is an `Int`; additions that may overflow are wrapped to 64 bits.
* A Go `string` is a `String`; the string-typed tags of the source
  (`"high"`, `"skip"`, `"confirmed"`, ...) stay strings.  The functions of
  Go's `strings` package are a parameter (`GoStrings`) of the code that calls
  them.  The transaction hash of an execution result is the list of the bytes
  of the Go string, the UTF-8 encoding of its text, because the source cuts
  it out of the token address at a byte offset.
* A run-time panic is the value `none` of a function that returns an
  `Option`.
* `time.Time` is an `Int` number of nanoseconds; a call of `time.Now()` is an
  explicit argument of the function that makes it.
* A method with a pointer receiver that mutates its receiver returns the new
  receiver; locks and log output are not modelled.
-/

namespace MemeBot

/-! ## Data model (`pkg/config/config.go`, `pkg/models/events.go`) -/

/-- Instants of `time.Time`, in nanoseconds. -/
abbrev Time := Int

/-- The string type `models.Chain`. -/
abbrev Chain := String

/-- The fields of `config.Config` read by the trading core. -/
structure Config where
  DryRun : Bool
  AutoExecute : Bool
  WinProbabilityThreshold : ℚ
  MinVolumeDEX : ℚ
  MinLiquidity : ℚ
  MaxHoneypotScore : ℚ
  MaxSlippage : ℚ
  SinglePositionPct : ℚ
  TotalExposurePct : ℚ
  DailyLossLimit : ℚ
  AccountBalance : ℚ
  BlacklistedTokens : List String
  BlacklistedCreators : List String
  WhitelistedTokens : List String
  deriving DecidableEq, Repr

/-- Record `models.InitialLiquidity`. -/
structure InitialLiquidity where
  Pair : String
  ReserveToken : ℚ
  ReserveNative : ℚ
  deriving DecidableEq, Repr

/-- Record `models.TokenFound`; the metadata map is an association list. -/
structure TokenFound where
  Chain : Chain
  TokenAddress : String
  FirstSeenTS : Int
  CreatorAddress : String
  InitialLiquidity : InitialLiquidity
  TxHash : String
  Metadata : List (String × String)
  deriving DecidableEq, Repr

/-- Record `models.PreFilteredToken`. -/
structure PreFilteredToken where
  Token : TokenFound
  Priority : String
  Dropped : Bool
  Reasons : List String
  deriving DecidableEq, Repr

/-- Record `models.OwnerControls`. -/
structure OwnerControls where
  Renounced : Bool
  HasBlacklist : Bool
  MaxTxLimit : ℚ
  TaxFee : ℚ
  HasTransferHook : Bool
  deriving DecidableEq, Repr

/-- Record `models.SimulatedSellResult`. -/
structure SimulatedSellResult where
  Success : Bool
  Slippage : ℚ
  GasUsed : Nat
  Error : String
  deriving DecidableEq, Repr

/-- Record `models.SafetyReport`. -/
structure SafetyReport where
  TokenAddress : String
  Chain : Chain
  CanBuy : Bool
  CanSell : Bool
  HoneypotScore : ℚ
  LiquidityLocked : Bool
  OwnerControls : OwnerControls
  SimulatedSell : SimulatedSellResult
  Reasons : List String
  EvaluatedAt : Time
  deriving DecidableEq, Repr

/-- Record `models.OffChainMetrics`; the mention map is an association list. -/
structure OffChainMetrics where
  TokenAddress : String
  Volume24hCEX : ℚ
  Volume24hDEX : ℚ
  SocialMentions : List (String × Int)
  Velocity : String
  PriceOnCEX : ℚ
  PriceOnDEX : ℚ
  MarketCap : ℚ
  EvaluatedAt : Time
  deriving DecidableEq, Repr

/-- Record `models.StrategyDecision`. -/
structure StrategyDecision where
  TokenAddress : String
  Chain : Chain
  WinProbability : ℚ
  ExpectedROI : ℚ
  ExpectedROIStd : ℚ
  Confidence : String
  Action : String
  SuggestedAmountUSD : ℚ
  StopLossPct : ℚ
  TakeProfitPct : ℚ
  TimeHorizonMinutes : Int
  EvaluatedAt : Time
  Rationale : List String
  deriving DecidableEq, Repr

/-- Record `models.ExecutionResult`.  The transaction hash is held as the
bytes of the Go string: `executeEVM` and `executeSolana` cut the token
address at a byte offset, which may fall inside a character. -/
structure ExecutionResult where
  TokenAddress : String
  Chain : Chain
  TxHash : List Nat
  Status : String
  GasUsed : Nat
  SlippageActual : ℚ
  AmountUSD : ℚ
  Timestamp : Time
  Error : String
  deriving DecidableEq, Repr

/-- Record `models.RiskControl`. -/
structure RiskControl where
  SinglePositionPct : ℚ
  TotalExposurePct : ℚ
  DailyLossLimit : ℚ
  CurrentExposure : ℚ
  DailyLoss : ℚ
  TradingHalted : Bool
  LastResetTime : Time
  deriving DecidableEq, Repr

/-! ## Strategy evaluator (`pkg/agents/strategy/strategy.go`) -/

/-- Two's-complement wrap of an integer to the range of a 64-bit Go `int`. -/
def wrapInt64 (x : Int) : Int :=
  (x + 2 ^ 63) % 2 ^ 64 - 2 ^ 63

/-- The loop `for _, count := range offchain.SocialMentions` of
`calculateWinProbability` (lines 111-114): the 64-bit sum of all counts. -/
def totalMentions (mentions : List (String × Int)) : Int :=
  mentions.foldl (fun acc kv => wrapInt64 (acc + kv.2)) 0

/-- The test `liquidityRatio < 0.3 || liquidityRatio > 0.7` of
`calculateWinProbability` (lines 129-130), where
`liquidityRatio = rN / (rN + rT)`.  With a zero denominator the float
quotient is NaN when `rN = 0` (both comparisons are false) and an infinity
otherwise (one comparison is true). -/
def liquidityImbalance (rN rT : ℚ) : Bool :=
  if rN + rT = 0 then decide (rN ≠ 0)
  else decide (rN / (rN + rT) < 3 / 10 ∨ rN / (rN + rT) > 7 / 10)

/-- Lines 71-140 of `calculateWinProbability` on the path where the token can
be traded: the value of `baseProb` before it is clamped.  The appends to
`token.Reasons` act on the by-value parameter and are not returned. -/
def winProbabilityScore (cfg : Config) (safety : SafetyReport)
    (offchain : OffChainMetrics) (token : PreFilteredToken) : ℚ :=
  let baseProb : ℚ := 5 / 10
  let baseProb := baseProb + 15 / 100
  let baseProb :=
    if safety.HoneypotScore < 1 / 10 then baseProb + 10 / 100
    else if safety.HoneypotScore > cfg.MaxHoneypotScore then baseProb - 20 / 100
    else baseProb
  let baseProb := if safety.LiquidityLocked then baseProb + 8 / 100 else baseProb
  let baseProb := if safety.OwnerControls.Renounced then baseProb + 7 / 100 else baseProb
  let baseProb :=
    if !safety.OwnerControls.HasBlacklist && !safety.OwnerControls.HasTransferHook
    then baseProb + 5 / 100 else baseProb
  let baseProb :=
    if offchain.Volume24hDEX ≥ cfg.MinVolumeDEX then baseProb + 10 / 100 else baseProb
  let baseProb :=
    if totalMentions offchain.SocialMentions > 50 then baseProb + 8 / 100 else baseProb
  let baseProb :=
    if offchain.Velocity = "rising" then baseProb + 7 / 100
    else if offchain.Velocity = "falling" then baseProb - 10 / 100
    else baseProb
  let baseProb :=
    if liquidityImbalance token.Token.InitialLiquidity.ReserveNative
        token.Token.InitialLiquidity.ReserveToken
    then baseProb - 5 / 100 else baseProb
  let baseProb :=
    if token.Priority = "high" then baseProb + 5 / 100
    else if token.Priority = "low" then baseProb - 5 / 100
    else baseProb
  baseProb

/-- Lines 142-148 of `calculateWinProbability`: clamp between 0 and 1. -/
def clampProbability (baseProb : ℚ) : ℚ :=
  let baseProb := if baseProb > 1 then 1 else baseProb
  let baseProb := if baseProb < 0 then 0 else baseProb
  baseProb

/-- Method `calculateWinProbability`. -/
def calculateWinProbability (cfg : Config) (safety : SafetyReport)
    (offchain : OffChainMetrics) (token : PreFilteredToken) : ℚ :=
  if safety.CanBuy && safety.CanSell then
    clampProbability (winProbabilityScore cfg safety offchain token)
  else
    0

/-- Method `calculateExpectedROI`: the pair (baseROI, stdDev). -/
def calculateExpectedROI (cfg : Config) (_safety : SafetyReport)
    (offchain : OffChainMetrics) (token : PreFilteredToken) : ℚ × ℚ :=
  let baseROI : ℚ := 15 / 100
  let baseROI :=
    if offchain.Volume24hDEX > cfg.MinVolumeDEX * 2 then baseROI + 10 / 100 else baseROI
  let baseROI :=
    if token.Token.InitialLiquidity.ReserveNative > cfg.MinLiquidity * 2
    then baseROI + 8 / 100 else baseROI
  let baseROI := if offchain.Velocity = "rising" then baseROI + 12 / 100 else baseROI
  let stdDev : ℚ := 25 / 100
  (baseROI, stdDev)

/-- Method `determineConfidence`. -/
def determineConfidence (cfg : Config) (safety : SafetyReport)
    (offchain : OffChainMetrics) (winProb : ℚ) : String :=
  if winProb ≥ 85 / 100 ∧ safety.HoneypotScore < 1 / 10 ∧
      offchain.Volume24hDEX > cfg.MinVolumeDEX then
    "high"
  else if winProb ≥ 70 / 100 ∧ safety.HoneypotScore < 2 / 10 then
    "medium"
  else
    "low"

/-- Method `determineAction`. -/
def determineAction (cfg : Config) (decision : StrategyDecision) : String :=
  if decision.WinProbability ≥ cfg.WinProbabilityThreshold ∧
      decision.Confidence ≠ "low" then
    if cfg.AutoExecute then "buy" else "list"
  else if decision.WinProbability ≥ 60 / 100 then
    "monitor"
  else
    "skip"

/-- Go `math.Round`: the nearest integer, halves away from zero. -/
def mathRound (x : ℚ) : ℚ :=
  if x < 0 then -((⌊-x + 1 / 2⌋ : Int) : ℚ) else ((⌊x + 1 / 2⌋ : Int) : ℚ)

/-- Method `calculatePositionSize`. -/
def calculatePositionSize (cfg : Config) (decision : StrategyDecision) : ℚ :=
  let maxPosition := cfg.AccountBalance * cfg.SinglePositionPct
  let multiplier : ℚ :=
    if decision.Confidence = "high" then 1
    else if decision.Confidence = "medium" then 7 / 10
    else if decision.Confidence = "low" then 4 / 10
    else 1
  let suggestedAmount := maxPosition * multiplier
  let suggestedAmount := if suggestedAmount < 100 then 100 else suggestedAmount
  mathRound (suggestedAmount * 100) / 100

/-- Method `calculateStopLoss`. -/
def calculateStopLoss (decision : StrategyDecision) : ℚ :=
  if decision.Confidence = "high" then 20 / 100
  else if decision.Confidence = "medium" then 15 / 100
  else if decision.Confidence = "low" then 10 / 100
  else 15 / 100

/-- Method `calculateTakeProfit`. -/
def calculateTakeProfit (decision : StrategyDecision) : ℚ :=
  let baseTP := decision.ExpectedROI * (15 / 10)
  let baseTP := if baseTP < 20 / 100 then 20 / 100 else baseTP
  let baseTP := if baseTP > 1 then 1 else baseTP
  mathRound (baseTP * 100) / 100

/-- Method `calculateTimeHorizon`. -/
def calculateTimeHorizon (decision : StrategyDecision) : Int :=
  if decision.Confidence = "high" then 60
  else if decision.Confidence = "medium" then 30
  else 15

/-- Method `Evaluate`.  `now` is the reading of `time.Now()`; the returned
error is always `nil` and is not modelled. -/
def Evaluate (cfg : Config) (now : Time) (safety : SafetyReport)
    (offchain : OffChainMetrics) (token : PreFilteredToken) : StrategyDecision :=
  let decision : StrategyDecision :=
    { TokenAddress := token.Token.TokenAddress
      Chain := token.Token.Chain
      WinProbability := 0
      ExpectedROI := 0
      ExpectedROIStd := 0
      Confidence := ""
      Action := ""
      SuggestedAmountUSD := 0
      StopLossPct := 0
      TakeProfitPct := 0
      TimeHorizonMinutes := 0
      EvaluatedAt := now
      Rationale := [] }
  let decision :=
    { decision with WinProbability := calculateWinProbability cfg safety offchain token }
  let roi := calculateExpectedROI cfg safety offchain token
  let decision := { decision with ExpectedROI := roi.1, ExpectedROIStd := roi.2 }
  let decision :=
    { decision with
      Confidence := determineConfidence cfg safety offchain decision.WinProbability }
  let decision := { decision with Action := determineAction cfg decision }
  let decision := { decision with SuggestedAmountUSD := calculatePositionSize cfg decision }
  let decision := { decision with StopLossPct := calculateStopLoss decision }
  let decision := { decision with TakeProfitPct := calculateTakeProfit decision }
  let decision := { decision with TimeHorizonMinutes := calculateTimeHorizon decision }
  decision

/-! ## Risk manager (`pkg/agents/risk/risk.go`) -/

/-- Record `RiskManagerAgent` without its lock. -/
structure RiskManagerAgent where
  config : Config
  control : RiskControl
  deriving DecidableEq, Repr

/-- Constructor `NewRiskManagerAgent`; `now` is the reading of `time.Now()`. -/
def NewRiskManagerAgent (cfg : Config) (now : Time) : RiskManagerAgent :=
  { config := cfg
    control :=
      { SinglePositionPct := cfg.SinglePositionPct
        TotalExposurePct := cfg.TotalExposurePct
        DailyLossLimit := cfg.DailyLossLimit
        CurrentExposure := 0
        DailyLoss := 0
        TradingHalted := false
        LastResetTime := now } }

/-- Method `haltTrading`. -/
def haltTrading (r : RiskManagerAgent) : RiskManagerAgent :=
  { r with control := { r.control with TradingHalted := true } }

/-- Method `CanExecute`: the risk manager after the call and the returned
pair (allowed, reason). -/
def CanExecute (r : RiskManagerAgent) (decision : StrategyDecision) :
    RiskManagerAgent × (Bool × String) :=
  if r.control.TradingHalted then
    (r, (false, "trading_halted"))
  else
    let maxSinglePosition := r.config.AccountBalance * r.config.SinglePositionPct
    if decision.SuggestedAmountUSD > maxSinglePosition then
      (r, (false, "exceeds_single_position_limit"))
    else
      let maxTotalExposure := r.config.AccountBalance * r.config.TotalExposurePct
      if r.control.CurrentExposure + decision.SuggestedAmountUSD > maxTotalExposure then
        (r, (false, "exceeds_total_exposure_limit"))
      else if r.control.DailyLoss ≥ r.config.DailyLossLimit then
        (haltTrading r, (false, "daily_loss_limit_reached"))
      else
        (r, (true, ""))

/-- Method `RecordExecution`. -/
def RecordExecution (r : RiskManagerAgent) (result : ExecutionResult) : RiskManagerAgent :=
  if result.Status = "confirmed" then
    { r with
      control :=
        { r.control with CurrentExposure := r.control.CurrentExposure + result.AmountUSD } }
  else
    r

/-- Method `RecordProfit`. -/
def RecordProfit (r : RiskManagerAgent) (_tokenAddress : String) (profitLoss : ℚ) :
    RiskManagerAgent :=
  if profitLoss < 0 then
    let r : RiskManagerAgent :=
      { r with control := { r.control with DailyLoss := r.control.DailyLoss + -profitLoss } }
    if r.control.DailyLoss ≥ r.config.DailyLossLimit then haltTrading r else r
  else
    r

/-- Method `ReleaseExposure`. -/
def ReleaseExposure (r : RiskManagerAgent) (amount : ℚ) : RiskManagerAgent :=
  let r : RiskManagerAgent :=
    { r with control := { r.control with CurrentExposure := r.control.CurrentExposure - amount } }
  if r.control.CurrentExposure < 0 then
    { r with control := { r.control with CurrentExposure := 0 } }
  else
    r

/-- Method `ResumeTrading`. -/
def ResumeTrading (r : RiskManagerAgent) : RiskManagerAgent :=
  { r with control := { r.control with TradingHalted := false } }

/-- Method `ResetDaily`; `now` is the reading of `time.Now()`. -/
def ResetDaily (r : RiskManagerAgent) (now : Time) : RiskManagerAgent :=
  { r with control := { r.control with DailyLoss := 0, LastResetTime := now } }

/-- Largest `time.Duration`, in nanoseconds. -/
def maxDuration : Int := 2 ^ 63 - 1

/-- Smallest `time.Duration`, in nanoseconds. -/
def minDuration : Int := -(2 ^ 63)

/-- Function `time.Since(t)` read at the instant `now`: the difference
`now - t`, saturated to the range of a `time.Duration`. -/
def timeSince (now t : Time) : Int :=
  if now - t > maxDuration then maxDuration
  else if now - t < minDuration then minDuration
  else now - t

/-- Constant `24*time.Hour`, in nanoseconds. -/
def twentyFourHours : Int := 24 * 3600 * 1000000000

/-- Method `CheckDailyReset`.  `now` is the clock read by `time.Since` and
`resetNow` the clock read by the `ResetDaily` it may call. -/
def CheckDailyReset (r : RiskManagerAgent) (now resetNow : Time) : RiskManagerAgent :=
  let lastReset := r.control.LastResetTime
  if timeSince now lastReset > twentyFourHours then ResetDaily r resetNow else r

/-- Method `GetStatus`: a copy of the control record. -/
def GetStatus (r : RiskManagerAgent) : RiskControl :=
  { SinglePositionPct := r.control.SinglePositionPct
    TotalExposurePct := r.control.TotalExposurePct
    DailyLossLimit := r.control.DailyLossLimit
    CurrentExposure := r.control.CurrentExposure
    DailyLoss := r.control.DailyLoss
    TradingHalted := r.control.TradingHalted
    LastResetTime := r.control.LastResetTime }

/-- One call of a public method of the risk manager, with its arguments. -/
inductive RiskOp where
  | canExecute (decision : StrategyDecision)
  | recordExecution (result : ExecutionResult)
  | recordProfit (tokenAddress : String) (profitLoss : ℚ)
  | releaseExposure (amount : ℚ)
  | resumeTrading
  | resetDaily (now : Time)
  | checkDailyReset (now resetNow : Time)
  | getStatus
  deriving DecidableEq, Repr

/-- The risk manager after one call. -/
def RiskOp.step (r : RiskManagerAgent) : RiskOp → RiskManagerAgent
  | .canExecute decision => (CanExecute r decision).1
  | .recordExecution result => RecordExecution r result
  | .recordProfit tokenAddress profitLoss => RecordProfit r tokenAddress profitLoss
  | .releaseExposure amount => ReleaseExposure r amount
  | .resumeTrading => ResumeTrading r
  | .resetDaily now => ResetDaily r now
  | .checkDailyReset now resetNow => CheckDailyReset r now resetNow
  | .getStatus => r

/-- The pair returned by a call when it is a `CanExecute` call. -/
def RiskOp.answer (r : RiskManagerAgent) : RiskOp → Option (Bool × String)
  | .canExecute decision => some (CanExecute r decision).2
  | _ => none

/-- The risk manager after a sequence of calls, made one after the other. -/
def runOps (r : RiskManagerAgent) : List RiskOp → RiskManagerAgent
  | [] => r
  | op :: ops => runOps (op.step r) ops

/-- The pairs returned by the `CanExecute` calls of a sequence of calls, in
the order of the calls. -/
def canExecuteAnswers (r : RiskManagerAgent) : List RiskOp → List (Bool × String)
  | [] => []
  | op :: ops =>
    match op.answer r with
    | some a => a :: canExecuteAnswers (op.step r) ops
    | none => canExecuteAnswers (op.step r) ops

/-- The claim's reading of `CanExecute`: the checks in their fixed order, each
with its rejection tag; the first check that applies decides. -/
def canExecuteChecks (r : RiskManagerAgent) (decision : StrategyDecision) :
    List (Bool × String) :=
  [ (r.control.TradingHalted, "trading_halted"),
    (decide (decision.SuggestedAmountUSD >
        r.config.AccountBalance * r.config.SinglePositionPct),
      "exceeds_single_position_limit"),
    (decide (r.control.CurrentExposure + decision.SuggestedAmountUSD >
        r.config.AccountBalance * r.config.TotalExposurePct),
      "exceeds_total_exposure_limit"),
    (decide (r.control.DailyLoss ≥ r.config.DailyLossLimit), "daily_loss_limit_reached") ]

/-- The first applicable result of an ordered list of checks: rejection with
the tag of the first check that holds, approval with the empty tag if none. -/
def firstApplicable (checks : List (Bool × String)) : Bool × String :=
  match checks.find? (fun c => c.1) with
  | some c => (false, c.2)
  | none => (true, "")

/-! ## Prefilter (`pkg/agents/prefilter/prefilter.go`) -/

/-- The functions of Go's `strings` package called by the prefilter.  They are
library code outside the repository, so the prefilter takes them as a
parameter: `EqualFold s t` (equality under Unicode case folding),
`ToLower s`, and `Contains s substr`. -/
structure GoStrings where
  EqualFold : String → String → Bool
  ToLower : String → String
  Contains : String → String → Bool

/-- Method `isBlacklistedToken`. -/
def isBlacklistedToken (lib : GoStrings) (cfg : Config) (address : String) : Bool :=
  cfg.BlacklistedTokens.any (fun blacklisted => lib.EqualFold address blacklisted)

/-- Method `isBlacklistedCreator`. -/
def isBlacklistedCreator (lib : GoStrings) (cfg : Config) (address : String) : Bool :=
  cfg.BlacklistedCreators.any (fun blacklisted => lib.EqualFold address blacklisted)

/-- Method `isWhitelistedToken`. -/
def isWhitelistedToken (lib : GoStrings) (cfg : Config) (address : String) : Bool :=
  cfg.WhitelistedTokens.any (fun whitelisted => lib.EqualFold address whitelisted)

/-- The slice `suspiciousWords` of `hasSuspiciousMetadata`. -/
def suspiciousWords : List String :=
  ["test", "scam", "rug", "fake", "honeypot", "xxx", "pump", "dump", "bot"]

/-- Method `hasSuspiciousMetadata`: the loops return true at the first match,
so the result is whether some entry and some word match. -/
def hasSuspiciousMetadata (lib : GoStrings) (token : TokenFound) : Bool :=
  token.Metadata.any (fun kv =>
    let lowerKey := lib.ToLower kv.1
    let lowerValue := lib.ToLower kv.2
    suspiciousWords.any (fun word =>
      lib.Contains lowerKey word || lib.Contains lowerValue word))

/-- Method `Filter` of `PreFilterAgent`. -/
def Filter (lib : GoStrings) (cfg : Config) (token : TokenFound) : PreFilteredToken :=
  let result : PreFilteredToken :=
    { Token := token, Priority := "medium", Dropped := false, Reasons := [] }
  if isBlacklistedToken lib cfg token.TokenAddress then
    { result with Dropped := true, Reasons := result.Reasons ++ ["token_blacklisted"] }
  else if isBlacklistedCreator lib cfg token.CreatorAddress then
    { result with Dropped := true, Reasons := result.Reasons ++ ["creator_blacklisted"] }
  else if isWhitelistedToken lib cfg token.TokenAddress then
    { result with Priority := "high", Reasons := result.Reasons ++ ["token_whitelisted"] }
  else
    let totalLiquidity := token.InitialLiquidity.ReserveNative
    let result :=
      if totalLiquidity < cfg.MinLiquidity then
        { result with Priority := "low", Reasons := result.Reasons ++ ["low_initial_liquidity"] }
      else result
    let result :=
      if hasSuspiciousMetadata lib token then
        { result with Priority := "low", Reasons := result.Reasons ++ ["suspicious_metadata"] }
      else result
    let result :=
      if totalLiquidity > 100000 then
        { result with Priority := "high", Reasons := result.Reasons ++ ["high_initial_liquidity"] }
      else result
    result

/-- An address is on a list when the list test of the prefilter finds it:
some entry equals it under `EqualFold`. -/
def onList (lib : GoStrings) (address : String) (entries : List String) : Prop :=
  ∃ entry ∈ entries, lib.EqualFold address entry = true

/-- The claim's reading of rule 5: some metadata key or value contains, after
lower-casing, one of the suspicious words. -/
def suspiciousMetadata (lib : GoStrings) (token : TokenFound) : Prop :=
  ∃ kv ∈ token.Metadata, ∃ word ∈ suspiciousWords,
    lib.Contains (lib.ToLower kv.1) word = true ∨ lib.Contains (lib.ToLower kv.2) word = true

/-- The tags of a list of (condition, tag) rows whose condition holds, in the
order of the rows. -/
def tagsOfHolding (rows : List (Bool × String)) : List String :=
  (rows.filter (fun row => row.1)).map (fun row => row.2)

/-! ## Safety evaluator (`pkg/agents/safety/safety.go`) -/

/-- Method `evaluateEVM`: the placeholder checks for Base, applied to the
report built so far. -/
def evaluateEVM (_token : PreFilteredToken) (report : SafetyReport) : SafetyReport :=
  let report : SafetyReport :=
    { report with
      SimulatedSell := { Success := true, Slippage := 1 / 100, GasUsed := 150000, Error := "" } }
  let report : SafetyReport :=
    { report with
      OwnerControls :=
        { Renounced := true, HasBlacklist := false, MaxTxLimit := 0, TaxFee := 5 / 100,
          HasTransferHook := false } }
  let report : SafetyReport :=
    if report.OwnerControls.TaxFee > 10 / 100 then
      { report with Reasons := report.Reasons ++ ["high_tax_fee"] }
    else report
  let report : SafetyReport :=
    if !report.OwnerControls.Renounced then
      { report with Reasons := report.Reasons ++ ["owner_not_renounced"] }
    else report
  report

/-- Method `evaluateSolana`: the placeholder checks for Solana. -/
def evaluateSolana (_token : PreFilteredToken) (report : SafetyReport) : SafetyReport :=
  let report : SafetyReport :=
    { report with
      SimulatedSell := { Success := true, Slippage := 15 / 1000, GasUsed := 0, Error := "" } }
  let report : SafetyReport :=
    { report with
      OwnerControls :=
        { Renounced := true, HasBlacklist := false, MaxTxLimit := 0, TaxFee := 0,
          HasTransferHook := false } }
  report

/-- Method `calculateHoneypotScore`. -/
def calculateHoneypotScore (report : SafetyReport) : ℚ :=
  let score : ℚ := 0
  let score := if !report.CanSell then score + 5 / 10 else score
  let score := if !report.CanBuy then score + 3 / 10 else score
  let score := if report.SimulatedSell.Slippage > 10 / 100 then score + 2 / 10 else score
  let score := if !report.OwnerControls.Renounced then score + 1 / 10 else score
  let score := if report.OwnerControls.HasBlacklist then score + 15 / 100 else score
  let score := if report.OwnerControls.HasTransferHook then score + 1 / 10 else score
  let score := if report.OwnerControls.TaxFee > 15 / 100 then score + 1 / 10 else score
  let score := if !report.LiquidityLocked then score + 5 / 100 else score
  let score := if score > 1 then 1 else score
  score

/-- Method `Evaluate` of `OnChainSafetyAgent`.  `now` is the reading of
`time.Now()`; the context is unused and the returned error is always `nil`. -/
def OnChainSafetyAgent.Evaluate (now : Time) (token : PreFilteredToken) : SafetyReport :=
  let report : SafetyReport :=
    { TokenAddress := token.Token.TokenAddress
      Chain := token.Token.Chain
      CanBuy := true
      CanSell := true
      HoneypotScore := 0
      LiquidityLocked := false
      OwnerControls :=
        { Renounced := false, HasBlacklist := false, MaxTxLimit := 0, TaxFee := 0,
          HasTransferHook := false }
      SimulatedSell := { Success := false, Slippage := 0, GasUsed := 0, Error := "" }
      Reasons := []
      EvaluatedAt := now }
  let report :=
    if token.Token.Chain = "base" then evaluateEVM token report
    else if token.Token.Chain = "solana" then evaluateSolana token report
    else report
  let report := { report with HoneypotScore := calculateHoneypotScore report }
  report

/-- Method `CanTrade`. -/
def CanTrade (cfg : Config) (report : SafetyReport) : Bool :=
  report.CanBuy && report.CanSell &&
    decide (report.HoneypotScore < cfg.MaxHoneypotScore) &&
    decide (report.SimulatedSell.Slippage < cfg.MaxSlippage)

/-- The sum of the weights of a list of (condition, weight) rows whose
condition holds. -/
def sumOfHolding (rows : List (Bool × ℚ)) : ℚ :=
  (rows.map (fun row => if row.1 then row.2 else 0)).sum

/-- The weight table of the honeypot score, as the claim lists it. -/
def honeypotWeights (report : SafetyReport) : List (Bool × ℚ) :=
  [ (!report.CanSell, 50 / 100),
    (!report.CanBuy, 30 / 100),
    (decide (report.SimulatedSell.Slippage > 10 / 100), 20 / 100),
    (!report.OwnerControls.Renounced, 10 / 100),
    (report.OwnerControls.HasBlacklist, 15 / 100),
    (report.OwnerControls.HasTransferHook, 10 / 100),
    (decide (report.OwnerControls.TaxFee > 15 / 100), 10 / 100),
    (!report.LiquidityLocked, 5 / 100) ]

/-! ## Strategy evaluator: the clamp to the unit interval -/

/-- The claim's `clamp(x, 0, 1)`. -/
def clampUnit (x : ℚ) : ℚ :=
  max 0 (min x 1)

/-! ## Off-chain gatherer (`pkg/agents/offchain/offchain.go`) -/

/-- Method `determineVelocity`.  The loop over `metrics.SocialMentions` is the
64-bit sum `totalMentions`. -/
def determineVelocity (cfg : Config) (metrics : OffChainMetrics) : String :=
  let totalActivity := metrics.Volume24hDEX + metrics.Volume24hCEX
  let socialScore := totalMentions metrics.SocialMentions
  if totalActivity > cfg.MinVolumeDEX * 2 ∨ socialScore > 100 then
    "rising"
  else if totalActivity > cfg.MinVolumeDEX / 2 then
    "stable"
  else
    "falling"

/-- Method `Gather` with its placeholder queries, which all answer zero;
`now` is the reading of `time.Now()` and the returned error is always `nil`. -/
def Gather (cfg : Config) (now : Time) (token : PreFilteredToken) : OffChainMetrics :=
  let metrics : OffChainMetrics :=
    { TokenAddress := token.Token.TokenAddress
      Volume24hCEX := 0
      Volume24hDEX := 0
      SocialMentions := []
      Velocity := ""
      PriceOnCEX := 0
      PriceOnDEX := 0
      MarketCap := 0
      EvaluatedAt := now }
  let metrics :=
    { metrics with
      Volume24hDEX := 0, Volume24hCEX := 0, PriceOnDEX := 0, PriceOnCEX := 0, MarketCap := 0 }
  let metrics :=
    { metrics with SocialMentions := [("twitter", 0), ("telegram", 0), ("reddit", 0)] }
  let metrics := { metrics with Velocity := determineVelocity cfg metrics }
  metrics

/-! ## Candidate listing (`pkg/agents/listing/listing.go`) -/

/-- Record `models.CandidateToken`. -/
structure CandidateToken where
  Token : TokenFound
  SafetyReport : MemeBot.SafetyReport
  OffChainMetrics : MemeBot.OffChainMetrics
  StrategyDecision : MemeBot.StrategyDecision
  ListedAt : Time
  Status : String
  deriving DecidableEq, Repr

/-- Read of a Go map held as an association list: the value of the first
entry with the key. -/
def mapLookup {α : Type} : List (String × α) → String → Option α
  | [], _ => none
  | (k, v) :: rest, key => if k = key then some v else mapLookup rest key

/-- Write `m[key] = value` of a Go map held as an association list: the entry
with the key is replaced in place, a new key is added at the end. -/
def mapStore {α : Type} : List (String × α) → String → α → List (String × α)
  | [], key, value => [(key, value)]
  | (k, v) :: rest, key, value =>
    if k = key then (key, value) :: rest else (k, v) :: mapStore rest key value

/-- Record `CandidateListingAgent` without its lock: the registry map and the
content of the buffered channel.  The map and the channel hold pointers to
the same records in the source; here both hold the record, and the `Status`
that a later `UpdateStatus` writes is kept in the registry only. -/
structure CandidateListingAgent where
  candidates : List (String × CandidateToken)
  queue : List CandidateToken
  deriving DecidableEq, Repr

/-- Capacity of the execution queue made by `NewCandidateListingAgent`. -/
def queueCapacity : Nat := 100

/-- Constructor `NewCandidateListingAgent`. -/
def NewCandidateListingAgent : CandidateListingAgent :=
  { candidates := [], queue := [] }

/-- Method `AddCandidate`: the listing after the call and the returned
candidate; `now` is the reading of `time.Now()`.  The `select` sends to the
queue when the buffer has room and does nothing otherwise. -/
def AddCandidate (c : CandidateListingAgent) (now : Time) (token : TokenFound)
    (safety : SafetyReport) (offchain : OffChainMetrics) (decision : StrategyDecision) :
    CandidateListingAgent × CandidateToken :=
  let candidate : CandidateToken :=
    { Token := token
      SafetyReport := safety
      OffChainMetrics := offchain
      StrategyDecision := decision
      ListedAt := now
      Status := "pending" }
  let c := { c with candidates := mapStore c.candidates token.TokenAddress candidate }
  let c := if c.queue.length < queueCapacity then { c with queue := c.queue ++ [candidate] } else c
  (c, candidate)

/-- Method `GetCandidate`: `none` when the address is not registered. -/
def GetCandidate (c : CandidateListingAgent) (tokenAddress : String) : Option CandidateToken :=
  mapLookup c.candidates tokenAddress

/-- Method `GetAllCandidates`, in the order of the association list. -/
def GetAllCandidates (c : CandidateListingAgent) : List CandidateToken :=
  c.candidates.map (fun entry => entry.2)

/-- Method `GetPendingCandidates`, in the order of the association list. -/
def GetPendingCandidates (c : CandidateListingAgent) : List CandidateToken :=
  (c.candidates.map (fun entry => entry.2)).filter (fun candidate => candidate.Status = "pending")

/-- Method `UpdateStatus`. -/
def UpdateStatus (c : CandidateListingAgent) (tokenAddress status : String) :
    CandidateListingAgent :=
  match mapLookup c.candidates tokenAddress with
  | some candidate =>
    { c with candidates := mapStore c.candidates tokenAddress { candidate with Status := status } }
  | none => c

/-- Method `GetQueue`: the content of the channel. -/
def GetQueue (c : CandidateListingAgent) : List CandidateToken :=
  c.queue

/-- Method `GetCandidateCount`. -/
def GetCandidateCount (c : CandidateListingAgent) : Int :=
  c.candidates.length

/-- One call of a mutating method of the listing, with its arguments. -/
inductive ListingOp where
  | addCandidate (now : Time) (token : TokenFound) (safety : SafetyReport)
      (offchain : OffChainMetrics) (decision : StrategyDecision)
  | updateStatus (tokenAddress status : String)
  deriving DecidableEq, Repr

/-- The listing after one call. -/
def ListingOp.step (c : CandidateListingAgent) : ListingOp → CandidateListingAgent
  | .addCandidate now token safety offchain decision =>
    (AddCandidate c now token safety offchain decision).1
  | .updateStatus tokenAddress status => UpdateStatus c tokenAddress status

/-- The listing after a sequence of calls, made one after the other. -/
def runListing (c : CandidateListingAgent) : List ListingOp → CandidateListingAgent
  | [] => c
  | op :: ops => runListing (op.step c) ops

/-- The status stored under an address, `none` when it is not registered. -/
def storedStatus (c : CandidateListingAgent) (tokenAddress : String) : Option String :=
  (GetCandidate c tokenAddress).map (fun candidate => candidate.Status)

/-- The restriction on a call under which a settled status stays settled: the
call neither adds a candidate under the address nor writes the status pending
to it. -/
def ListingOp.keepsSettled (address : String) : ListingOp → Prop
  | .addCandidate _ token _ _ _ => token.TokenAddress ≠ address
  | .updateStatus tokenAddress status => tokenAddress ≠ address ∨ status ≠ "pending"

/-! ## Telemetry (`pkg/agents/telemetry/telemetry.go`) -/

/-- Record `Metrics` without its lock.  The counters are `int64`, the
accumulators `float64`, the averages `time.Duration` (nanoseconds). -/
structure Metrics where
  TokensScanned : Int
  TokensFound : Int
  TokensFiltered : Int
  TokensDropped : Int
  SafetyChecks : Int
  HoneypotDetected : Int
  SafeTokens : Int
  Evaluations : Int
  CandidatesListed : Int
  TradesExecuted : Int
  ExecutionSuccess : Int
  ExecutionFailed : Int
  SimulationFailed : Int
  TotalInvested : ℚ
  TotalProfit : ℚ
  TotalLoss : ℚ
  AvgDecisionLatency : Int
  AvgExecutionTime : Int
  deriving DecidableEq

/-- Constructor `NewTelemetryAgent`: the zero value of `Metrics`. -/
def NewTelemetryAgent : Metrics :=
  { TokensScanned := 0, TokensFound := 0, TokensFiltered := 0, TokensDropped := 0,
    SafetyChecks := 0, HoneypotDetected := 0, SafeTokens := 0, Evaluations := 0,
    CandidatesListed := 0, TradesExecuted := 0, ExecutionSuccess := 0, ExecutionFailed := 0,
    SimulationFailed := 0, TotalInvested := 0, TotalProfit := 0, TotalLoss := 0,
    AvgDecisionLatency := 0, AvgExecutionTime := 0 }

/-- The statement `counter++` on an `int64`. -/
def increment (counter : Int) : Int :=
  wrapInt64 (counter + 1)

/-- Method `RecordTokenScanned` of `TelemetryAgent`. -/
def TelemetryAgent.RecordTokenScanned (m : Metrics) : Metrics :=
  { m with TokensScanned := increment m.TokensScanned }

/-- Method `RecordTokenFound` of `TelemetryAgent`. -/
def TelemetryAgent.RecordTokenFound (m : Metrics) : Metrics :=
  { m with TokensFound := increment m.TokensFound }

/-- Method `RecordTokenFiltered` of `TelemetryAgent`. -/
def TelemetryAgent.RecordTokenFiltered (m : Metrics) (dropped : Bool) : Metrics :=
  let m := { m with TokensFiltered := increment m.TokensFiltered }
  if dropped then { m with TokensDropped := increment m.TokensDropped } else m

/-- Method `RecordSafetyCheck` of `TelemetryAgent`. -/
def TelemetryAgent.RecordSafetyCheck (m : Metrics) (isHoneypot isSafe : Bool) : Metrics :=
  let m := { m with SafetyChecks := increment m.SafetyChecks }
  let m := if isHoneypot then { m with HoneypotDetected := increment m.HoneypotDetected } else m
  if isSafe then { m with SafeTokens := increment m.SafeTokens } else m

/-- Method `RecordEvaluation` of `TelemetryAgent`. -/
def TelemetryAgent.RecordEvaluation (m : Metrics) : Metrics :=
  { m with Evaluations := increment m.Evaluations }

/-- Method `RecordCandidateListed` of `TelemetryAgent`. -/
def TelemetryAgent.RecordCandidateListed (m : Metrics) : Metrics :=
  { m with CandidatesListed := increment m.CandidatesListed }

/-- Method `RecordExecution` of `TelemetryAgent`. -/
def TelemetryAgent.RecordExecution (m : Metrics) (success : Bool) (amount : ℚ) : Metrics :=
  let m := { m with TradesExecuted := increment m.TradesExecuted }
  if success then
    { m with
      ExecutionSuccess := increment m.ExecutionSuccess
      TotalInvested := m.TotalInvested + amount }
  else
    { m with ExecutionFailed := increment m.ExecutionFailed }

/-- Method `RecordSimulationFailure` of `TelemetryAgent`. -/
def TelemetryAgent.RecordSimulationFailure (m : Metrics) : Metrics :=
  { m with SimulationFailed := increment m.SimulationFailed }

/-- Method `RecordDecisionLatency` of `TelemetryAgent`: an `int64` sum and a
division that truncates toward zero. -/
def TelemetryAgent.RecordDecisionLatency (m : Metrics) (duration : Int) : Metrics :=
  { m with AvgDecisionLatency := Int.tdiv (wrapInt64 (m.AvgDecisionLatency + duration)) 2 }

/-- Method `RecordExecutionTime` of `TelemetryAgent`. -/
def TelemetryAgent.RecordExecutionTime (m : Metrics) (duration : Int) : Metrics :=
  { m with AvgExecutionTime := Int.tdiv (wrapInt64 (m.AvgExecutionTime + duration)) 2 }

/-- Method `GetMetrics` of `TelemetryAgent`: a copy of the record. -/
def TelemetryAgent.GetMetrics (m : Metrics) : Metrics :=
  { TokensScanned := m.TokensScanned, TokensFound := m.TokensFound,
    TokensFiltered := m.TokensFiltered, TokensDropped := m.TokensDropped,
    SafetyChecks := m.SafetyChecks, HoneypotDetected := m.HoneypotDetected,
    SafeTokens := m.SafeTokens, Evaluations := m.Evaluations,
    CandidatesListed := m.CandidatesListed, TradesExecuted := m.TradesExecuted,
    ExecutionSuccess := m.ExecutionSuccess, ExecutionFailed := m.ExecutionFailed,
    SimulationFailed := m.SimulationFailed, TotalInvested := m.TotalInvested,
    TotalProfit := m.TotalProfit, TotalLoss := m.TotalLoss,
    AvgDecisionLatency := m.AvgDecisionLatency, AvgExecutionTime := m.AvgExecutionTime }

/-- Largest `int64`. -/
def maxInt64 : Int := 2 ^ 63 - 1

/-! ## Executor (`pkg/agents/execution/execution.go`) -/

/-- The UTF-8 encoding of a character: the bytes a Go string holds for it. -/
def utf8Bytes (ch : Char) : List Nat :=
  if ch.toNat < 128 then [ch.toNat]
  else if ch.toNat < 2048 then [192 + ch.toNat / 64, 128 + ch.toNat % 64]
  else if ch.toNat < 65536 then
    [224 + ch.toNat / 4096, 128 + ch.toNat / 64 % 64, 128 + ch.toNat % 64]
  else
    [240 + ch.toNat / 262144, 128 + ch.toNat / 4096 % 64, 128 + ch.toNat / 64 % 64,
      128 + ch.toNat % 64]

/-- The bytes of the Go string whose text is `s`. -/
def goBytes (s : String) : List Nat :=
  s.data.flatMap utf8Bytes

/-- The Go slice `s[:n]` of a string: its first `n` bytes, also when byte `n`
falls inside a character; `none` stands for the run-time panic on a string
of fewer than `n` bytes. -/
def slicePrefix (s : String) (n : Nat) : Option (List Nat) :=
  if (goBytes s).length < n then none else some ((goBytes s).take n)

/-- Method `executeEVM`: `none` stands for the panic of the slice. -/
def executeEVM (candidate : CandidateToken) (result : ExecutionResult) :
    Option ExecutionResult :=
  match slicePrefix candidate.Token.TokenAddress 40 with
  | none => none
  | some head =>
    some { result with
      Status := "confirmed"
      TxHash := goBytes "0x" ++ head
      GasUsed := 150000
      SlippageActual := 2 / 100 }

/-- Method `executeSolana`: `none` stands for the panic of the slice. -/
def executeSolana (candidate : CandidateToken) (result : ExecutionResult) :
    Option ExecutionResult :=
  match slicePrefix candidate.Token.TokenAddress 44 with
  | none => none
  | some head =>
    some { result with
      Status := "confirmed"
      TxHash := head
      SlippageActual := 15 / 1000 }

/-- Method `Execute`.  `now` is the reading of `time.Now()`; the returned
error is `nil` on every path, and `none` stands for a run-time panic. -/
def Execute (cfg : Config) (now : Time) (candidate : CandidateToken) : Option ExecutionResult :=
  let result : ExecutionResult :=
    { TokenAddress := candidate.Token.TokenAddress
      Chain := candidate.Token.Chain
      TxHash := goBytes ""
      Status := "pending"
      GasUsed := 0
      SlippageActual := 0
      AmountUSD := candidate.StrategyDecision.SuggestedAmountUSD
      Timestamp := now
      Error := "" }
  if cfg.DryRun then
    some { result with
      Status := "confirmed"
      TxHash := goBytes ("DRY_RUN_TX_" ++ candidate.Token.TokenAddress) }
  else if candidate.Token.Chain = "base" then
    executeEVM candidate result
  else if candidate.Token.Chain = "solana" then
    executeSolana candidate result
  else
    some { result with Status := "failed", Error := "unsupported chain" }

/-- Method `Simulate`: the pair (success, error) it returns, which is
`true, nil` for every candidate. -/
def Simulate (_cfg : Config) (_candidate : CandidateToken) : Bool × Option String :=
  (true, none)

/-! ## Strategy evaluator: spec-side readings -/

/-- The multiplier of the position size for a confidence level, as the claim
lists it. -/
def confidenceMultiplier (confidence : String) : ℚ :=
  if confidence = "high" then 1
  else if confidence = "medium" then 7 / 10
  else 4 / 10

/-! ## Configuration loading (`pkg/config/config.go`) -/

/-- The functions of Go's `strconv` and `strings` packages called by the
loader, taken as a parameter since they are library code; `none` stands for a
non-nil error. -/
structure GoParsers where
  Atoi : String → Option Int
  ParseFloat : String → Option ℚ
  ParseBool : String → Option Bool
  Split : String → String → List String

/-- The process environment as `os.Getenv` reads it: the value of a variable,
the empty string when the variable is not set. -/
abbrev Environment := String → String

/-- Function `getEnv`. -/
def getEnv (env : Environment) (key defaultValue : String) : String :=
  if env key ≠ "" then env key else defaultValue

/-- Function `getEnvInt`. -/
def getEnvInt (parsers : GoParsers) (env : Environment) (key : String) (defaultValue : Int) :
    Int :=
  if env key ≠ "" then
    match parsers.Atoi (env key) with
    | some intVal => intVal
    | none => defaultValue
  else defaultValue

/-- Function `getEnvFloat`. -/
def getEnvFloat (parsers : GoParsers) (env : Environment) (key : String) (defaultValue : ℚ) :
    ℚ :=
  if env key ≠ "" then
    match parsers.ParseFloat (env key) with
    | some floatVal => floatVal
    | none => defaultValue
  else defaultValue

/-- Function `getEnvBool`. -/
def getEnvBool (parsers : GoParsers) (env : Environment) (key : String)
    (defaultValue : Bool) : Bool :=
  if env key ≠ "" then
    match parsers.ParseBool (env key) with
    | some boolVal => boolVal
    | none => defaultValue
  else defaultValue

/-- Function `getEnvList`. -/
def getEnvList (parsers : GoParsers) (env : Environment) (key : String) : List String :=
  if env key ≠ "" then parsers.Split (env key) "," else []

/-- Function `LoadConfig`, for the fields of `Config` kept in this model.
`env` is the environment after `godotenv.Load()` has run. -/
def LoadConfig (parsers : GoParsers) (env : Environment) : Config :=
  { DryRun := getEnvBool parsers env "DRY_RUN" true
    AutoExecute := getEnvBool parsers env "AUTO_EXECUTE" false
    WinProbabilityThreshold := getEnvFloat parsers env "WIN_PROBABILITY_THRESHOLD" (80 / 100)
    MinVolumeDEX := getEnvFloat parsers env "MIN_VOLUME_DEX" 10000
    MinLiquidity := getEnvFloat parsers env "MIN_LIQUIDITY" 5000
    MaxHoneypotScore := getEnvFloat parsers env "MAX_HONEYPOT_SCORE" (2 / 10)
    MaxSlippage := getEnvFloat parsers env "MAX_SLIPPAGE" (5 / 100)
    SinglePositionPct := getEnvFloat parsers env "SINGLE_POSITION_PCT" (1 / 100)
    TotalExposurePct := getEnvFloat parsers env "TOTAL_EXPOSURE_PCT" (5 / 100)
    DailyLossLimit := getEnvFloat parsers env "DAILY_LOSS_LIMIT" 500
    AccountBalance := getEnvFloat parsers env "ACCOUNT_BALANCE" 10000
    BlacklistedTokens := getEnvList parsers env "BLACKLISTED_TOKENS"
    BlacklistedCreators := getEnvList parsers env "BLACKLISTED_CREATORS"
    WhitelistedTokens := getEnvList parsers env "WHITELISTED_TOKENS" }

/-! ## Orchestrator (`pkg/orchestrator/orchestrator.go`) -/

/-- Record `Orchestrator`: the configuration and the agents with state.  The
prefilter, safety, off-chain, strategy and execution agents only hold the
pointer to the configuration that `NewOrchestrator` hands to each of them,
so their methods are called on `config`. -/
structure Orchestrator where
  config : Config
  listing : CandidateListingAgent
  risk : RiskManagerAgent
  telemetry : Metrics

/-- Constructor `NewOrchestrator`; `now` is the clock read by
`NewRiskManagerAgent`. -/
def NewOrchestrator (cfg : Config) (now : Time) : Orchestrator :=
  { config := cfg
    listing := NewCandidateListingAgent
    risk := NewRiskManagerAgent cfg now
    telemetry := NewTelemetryAgent }

/-- The clock readings of one `processToken` call, in the order of the
calls of `time.Now()` and `time.Since`. -/
structure ProcessClock where
  startTime : Time
  safetyNow : Time
  gatherNow : Time
  strategyNow : Time
  latencyNow : Time
  listedNow : Time
  deriving DecidableEq, Repr

/-- Method `processToken`.  The errors of the three evaluations are always
`nil`. -/
def processToken (lib : GoStrings) (o : Orchestrator) (clock : ProcessClock)
    (token : TokenFound) : Orchestrator :=
  let o := { o with telemetry := TelemetryAgent.RecordTokenFound o.telemetry }
  let prefiltered := Filter lib o.config token
  let o :=
    { o with telemetry := TelemetryAgent.RecordTokenFiltered o.telemetry prefiltered.Dropped }
  if prefiltered.Dropped then
    o
  else
    let safetyReport := OnChainSafetyAgent.Evaluate clock.safetyNow prefiltered
    let isHoneypot := decide (safetyReport.HoneypotScore ≥ o.config.MaxHoneypotScore)
    let isSafe := CanTrade o.config safetyReport
    let o :=
      { o with telemetry := TelemetryAgent.RecordSafetyCheck o.telemetry isHoneypot isSafe }
    if !isSafe then
      o
    else
      let offchainMetrics := Gather o.config clock.gatherNow prefiltered
      let decision :=
        Evaluate o.config clock.strategyNow safetyReport offchainMetrics prefiltered
      let o := { o with telemetry := TelemetryAgent.RecordEvaluation o.telemetry }
      let o :=
        { o with
          telemetry :=
            TelemetryAgent.RecordDecisionLatency o.telemetry
              (timeSince clock.latencyNow clock.startTime) }
      if decision.Action = "list" ∨ decision.Action = "buy" then
        let o :=
          { o with
            listing :=
              (AddCandidate o.listing clock.listedNow token safetyReport offchainMetrics
                decision).1 }
        let o := { o with telemetry := TelemetryAgent.RecordCandidateListed o.telemetry }
        o
      else
        o

/-- The clock readings of one `executeCandidate` call, in the order of the
calls of `time.Now()` and `time.Since`. -/
structure ExecuteClock where
  startTime : Time
  checkNow : Time
  resetNow : Time
  executeNow : Time
  endNow : Time
  deriving DecidableEq, Repr

/-- Lines 216-238 of `executeCandidate`: the call of `Execute` and the
bookkeeping of its result.  `err` is the error `Execute` returns, which is
`nil` on each of its paths; `none` stands for a panic of `Execute`, after
which no statement of `executeCandidate` runs. -/
def executeTrade (o : Orchestrator) (clock : ExecuteClock) (candidate : CandidateToken) :
    Option Orchestrator :=
  match Execute o.config clock.executeNow candidate with
  | none => none
  | some result =>
    let err : Option String := none
    let o :=
      { o with
        telemetry :=
          TelemetryAgent.RecordExecutionTime o.telemetry
            (timeSince clock.endNow clock.startTime) }
    if err ≠ none then
      let o := { o with telemetry := TelemetryAgent.RecordExecution o.telemetry false 0 }
      some { o with listing := UpdateStatus o.listing candidate.Token.TokenAddress "failed" }
    else if result.Status = "confirmed" then
      let o :=
        { o with
          telemetry := TelemetryAgent.RecordExecution o.telemetry true result.AmountUSD }
      let o := { o with risk := RecordExecution o.risk result }
      some { o with listing := UpdateStatus o.listing candidate.Token.TokenAddress "executed" }
    else
      let o := { o with telemetry := TelemetryAgent.RecordExecution o.telemetry false 0 }
      some { o with listing := UpdateStatus o.listing candidate.Token.TokenAddress "failed" }

/-- Method `executeCandidate`: the orchestrator after the call, `none` when
`Execute` panics. -/
def executeCandidate (o : Orchestrator) (clock : ExecuteClock) (candidate : CandidateToken) :
    Option Orchestrator :=
  let o := { o with risk := CheckDailyReset o.risk clock.checkNow clock.resetNow }
  let answer := CanExecute o.risk candidate.StrategyDecision
  let o := { o with risk := answer.1 }
  if !answer.2.1 then
    some { o with listing := UpdateStatus o.listing candidate.Token.TokenAddress "rejected" }
  else if !o.config.DryRun then
    let simulation := Simulate o.config candidate
    if simulation.2 ≠ none ∨ simulation.1 = false then
      let o := { o with telemetry := TelemetryAgent.RecordSimulationFailure o.telemetry }
      some { o with listing := UpdateStatus o.listing candidate.Token.TokenAddress "rejected" }
    else
      executeTrade o clock candidate
  else
    executeTrade o clock candidate

/-- The decision passes the single-position and the total-exposure check of
`CanExecute` on a risk manager. -/
def passesLimits (r : RiskManagerAgent) (decision : StrategyDecision) : Prop :=
  ¬ decision.SuggestedAmountUSD > r.config.AccountBalance * r.config.SinglePositionPct ∧
  ¬ r.control.CurrentExposure + decision.SuggestedAmountUSD >
      r.config.AccountBalance * r.config.TotalExposurePct

/-- The amount approved by a call when it is a `CanExecute` call that
approves its decision. -/
def RiskOp.approval (r : RiskManagerAgent) : RiskOp → Option ℚ
  | .canExecute decision =>
    if (CanExecute r decision).2.1 then some decision.SuggestedAmountUSD else none
  | _ => none

/-- What a guarded run allows a call to be, given the amount approved by the
call right before it: a confirmed execution result carries exactly that
amount, which is non-negative, and a released amount is non-negative. -/
def RiskOp.guardedBy (previous : Option ℚ) : RiskOp → Prop
  | .recordExecution result =>
    result.Status = "confirmed" → previous = some result.AmountUSD ∧ 0 ≤ result.AmountUSD
  | .releaseExposure amount => 0 ≤ amount
  | _ => True

/-- A sequential run in which every confirmed `RecordExecution` comes right
after the `CanExecute` call that approved its amount and every released amount
is non-negative. -/
def guardedRun (r : RiskManagerAgent) (previous : Option ℚ) : List RiskOp → Prop
  | [] => True
  | op :: ops => op.guardedBy previous ∧ guardedRun (op.step r) (op.approval r) ops

/-- The restriction on a call, made on the risk manager `r`, under which the
daily loss is not reset: the call is not `ResetDaily`, and a
`CheckDailyReset` is made no more than 24 hours after the last reset. -/
def RiskOp.keepsLoss (r : RiskManagerAgent) : RiskOp → Prop
  | .resetDaily _ => False
  | .checkDailyReset now _ => ¬ timeSince now r.control.LastResetTime > twentyFourHours
  | _ => True

/-- A sequence of calls none of which resets the daily loss, each call taken
on the risk manager the calls before it have left. -/
def lossKept (r : RiskManagerAgent) : List RiskOp → Prop
  | [] => True
  | op :: ops => op.keepsLoss r ∧ lossKept (op.step r) ops

/-- The restriction on a call, made on the risk manager `r`, under which it
neither resets the daily loss nor halts trading: in addition to `keepsLoss`,
a `CanExecute` carries a decision that fails one of the two limit checks and
a `RecordProfit` carries no loss. -/
def RiskOp.quiet (r : RiskManagerAgent) : RiskOp → Prop
  | .canExecute decision => ¬ passesLimits r decision
  | .recordProfit _ profitLoss => ¬ profitLoss < 0
  | .resetDaily _ => False
  | .checkDailyReset now _ => ¬ timeSince now r.control.LastResetTime > twentyFourHours
  | _ => True

/-- A sequence of quiet calls, each taken on the risk manager the calls
before it have left. -/
def quietRun (r : RiskManagerAgent) : List RiskOp → Prop
  | [] => True
  | op :: ops => op.quiet r ∧ quietRun (op.step r) ops

/-! ## float64 arithmetic (IEEE 754 binary64, round to nearest, ties to even) -/

/-- A float64 value.  A finite value is a sign and a magnitude counted in
units of 2^-1074, the smallest positive float64, so that both zeros, the
subnormal numbers and the normal numbers are covered; the values the
operations below return are always float64 values. -/
inductive Float64 where
  | finite (negative : Bool) (magnitude : Nat)
  | inf (negative : Bool)
  | nan
  deriving DecidableEq, Repr

namespace Float64

/-- The magnitude of 1.0, in units. -/
@[irreducible]
def one : Nat := 2 ^ 1074

/-- The quotient num / den rounded to the nearest natural number, a tie going
to the even neighbour. -/
def nearestEven (num den : Nat) : Nat :=
  if 2 * (num % den) < den then num / den
  else if den < 2 * (num % den) then num / den + 1
  else if num / den % 2 = 0 then num / den
  else num / den + 1

/-- The number of bits of `n`, for `n` below 2^(2^level): a binary search on
the position of the leading bit. -/
def bitsBelow : Nat → Nat → Nat
  | 0, n => if n = 0 then 0 else 1
  | level + 1, n =>
    if 2 ^ 2 ^ level ≤ n then 2 ^ level + bitsBelow level (n / 2 ^ 2 ^ level)
    else bitsBelow level n

/-- The first level, from `level` on, with `n` below 2^(2^level); the first
argument bounds the search. -/
def levelOf : Nat → Nat → Nat → Nat
  | 0, level, _ => level
  | fuel + 1, level, n => if n < 2 ^ 2 ^ level then level else levelOf fuel (level + 1) n

/-- The number of bits of `n`. -/
def bitLength (n : Nat) : Nat :=
  bitsBelow (levelOf n 0 n) n

/-- The number of low bits to drop from `n` so that at most 53 bits are
left. -/
def excessBits (n : Nat) : Nat :=
  bitLength n - 53

/-- The quotient num / den of units rounded to 53 significant bits, and to a
whole number of units (which covers the subnormal range): round to nearest,
ties to even, before the test for overflow. -/
def roundMagnitude (num den : Nat) : Nat :=
  nearestEven num (den * 2 ^ excessBits (num / den)) * 2 ^ excessBits (num / den)

/-- The float64 nearest to the quotient num / den of units, with the given
sign: an infinity when the rounded magnitude reaches 2^1024. -/
@[irreducible]
def round (negative : Bool) (num den : Nat) : Float64 :=
  if roundMagnitude num den < 2 ^ 2098 then finite negative (roundMagnitude num den)
  else inf negative

/-- Unary minus. -/
def neg : Float64 → Float64
  | finite negative magnitude => finite (!negative) magnitude
  | inf negative => inf (!negative)
  | nan => nan

/-- Addition. -/
def add : Float64 → Float64 → Float64
  | nan, _ => nan
  | _, nan => nan
  | inf a, inf b => if a = b then inf a else nan
  | inf a, finite _ _ => inf a
  | finite _ _, inf b => inf b
  | finite a m, finite b n =>
    if a = b then round a (m + n) 1
    else if n < m then round a (m - n) 1
    else if m < n then round b (n - m) 1
    else finite false 0

/-- Multiplication. -/
def mul : Float64 → Float64 → Float64
  | nan, _ => nan
  | _, nan => nan
  | inf a, inf b => inf (a != b)
  | inf a, finite b n => if n = 0 then nan else inf (a != b)
  | finite a m, inf b => if m = 0 then nan else inf (a != b)
  | finite a m, finite b n => round (a != b) (m * n) one

/-- Division. -/
def div : Float64 → Float64 → Float64
  | nan, _ => nan
  | _, nan => nan
  | inf _, inf _ => nan
  | inf a, finite b _ => inf (a != b)
  | finite a _, inf b => finite (a != b) 0
  | finite a m, finite b n =>
    if n = 0 then (if m = 0 then nan else inf (a != b))
    else round (a != b) (m * one) n

/-- The signed number of units of a finite value. -/
def signed (negative : Bool) (magnitude : Nat) : Int :=
  if negative then -(magnitude : Int) else (magnitude : Int)

/-- The comparison `x < y`: false when an operand is NaN. -/
def lt : Float64 → Float64 → Bool
  | nan, _ => false
  | _, nan => false
  | inf a, inf b => a && !b
  | inf a, finite _ _ => a
  | finite _ _, inf b => !b
  | finite a m, finite b n => decide (signed a m < signed b n)

/-- The comparison `x <= y`: false when an operand is NaN. -/
def le : Float64 → Float64 → Bool
  | nan, _ => false
  | _, nan => false
  | inf a, inf b => a || !b
  | inf a, finite _ _ => a
  | finite _ _, inf b => !b
  | finite a m, finite b n => decide (signed a m ≤ signed b n)

/-- The comparison `x > y`. -/
def gt (x y : Float64) : Bool :=
  lt y x

/-- The comparison `x >= y`. -/
def ge (x y : Float64) : Bool :=
  le y x

/-- Go `math.Round`: the nearest integer, halves away from zero; zeros,
infinities and NaN are returned as they are. -/
def mathRound : Float64 → Float64
  | finite negative magnitude => finite negative ((magnitude + one / 2) / one * one)
  | x => x

/-- The value of a finite float64 as a rational number (0 otherwise). -/
def toRat : Float64 → ℚ
  | finite negative magnitude => (signed negative magnitude : ℚ) / 2 ^ 1074
  | _ => 0

/-- The float64 nearest to a rational number: how a decimal constant, or a
decimal text read by `strconv.ParseFloat`, becomes a float64. -/
def ofRat (q : ℚ) : Float64 :=
  round (decide (q < 0)) (q.num.natAbs * one) q.den

/-- The magnitudes of float64 values: at most 53 significant bits. -/
def Representable (magnitude : Nat) : Prop :=
  ∃ m j : Nat, m < 2 ^ 53 ∧ magnitude = m * 2 ^ j

instance : Add Float64 := ⟨add⟩

instance : Neg Float64 := ⟨neg⟩

instance : Sub Float64 := ⟨fun x y => add x (neg y)⟩

instance : Mul Float64 := ⟨mul⟩

instance : Div Float64 := ⟨div⟩

instance : LT Float64 := ⟨fun x y => lt x y = true⟩

instance : LE Float64 := ⟨fun x y => le x y = true⟩

instance (x y : Float64) : Decidable (x < y) :=
  inferInstanceAs (Decidable (lt x y = true))

instance (x y : Float64) : Decidable (x ≤ y) :=
  inferInstanceAs (Decidable (le x y = true))

/-- A whole-number constant of the source, converted as Go converts it. -/
instance (n : Nat) : OfNat Float64 n := ⟨round false (n * one) 1⟩

/-- A decimal constant of the source, converted to the nearest float64 as Go
converts it. -/
instance : OfScientific Float64 :=
  ⟨fun mantissa exponentSign decimalExponent =>
    if exponentSign then round false (mantissa * one) (10 ^ decimalExponent)
    else round false (mantissa * 10 ^ decimalExponent * one) 1⟩

end Float64

/-! ## The float64 methods with float64 arithmetic

The sections above take a `float64` as the rational number it holds, which
keeps every comparison and every update the source makes.  The methods whose
result is a sum, a product or a quotient of decimal constants are given here
a second time with each operation rounded as float64 rounds it; the claims
that fix the value such a method returns are settled on these. -/

namespace IEEE

/-- The fields of `config.Config` read by the strategy evaluator. -/
structure Config where
  AutoExecute : Bool
  WinProbabilityThreshold : Float64
  MinVolumeDEX : Float64
  MinLiquidity : Float64
  MaxHoneypotScore : Float64
  SinglePositionPct : Float64
  AccountBalance : Float64
  deriving DecidableEq, Repr

/-- Record `models.InitialLiquidity`. -/
structure InitialLiquidity where
  Pair : String
  ReserveToken : Float64
  ReserveNative : Float64
  deriving DecidableEq, Repr

/-- Record `models.TokenFound`; the metadata map is an association list. -/
structure TokenFound where
  Chain : Chain
  TokenAddress : String
  FirstSeenTS : Int
  CreatorAddress : String
  InitialLiquidity : InitialLiquidity
  TxHash : String
  Metadata : List (String × String)
  deriving DecidableEq, Repr

/-- Record `models.PreFilteredToken`. -/
structure PreFilteredToken where
  Token : TokenFound
  Priority : String
  Dropped : Bool
  Reasons : List String
  deriving DecidableEq, Repr

/-- Record `models.OwnerControls`. -/
structure OwnerControls where
  Renounced : Bool
  HasBlacklist : Bool
  MaxTxLimit : Float64
  TaxFee : Float64
  HasTransferHook : Bool
  deriving DecidableEq, Repr

/-- Record `models.SimulatedSellResult`. -/
structure SimulatedSellResult where
  Success : Bool
  Slippage : Float64
  GasUsed : Nat
  Error : String
  deriving DecidableEq, Repr

/-- Record `models.SafetyReport`. -/
structure SafetyReport where
  TokenAddress : String
  Chain : Chain
  CanBuy : Bool
  CanSell : Bool
  HoneypotScore : Float64
  LiquidityLocked : Bool
  OwnerControls : OwnerControls
  SimulatedSell : SimulatedSellResult
  Reasons : List String
  EvaluatedAt : Time
  deriving DecidableEq, Repr

/-- Record `models.OffChainMetrics`.  The mention map is the list of its
entries in the order in which a `range` statement visits them, an order Go
leaves unspecified. -/
structure OffChainMetrics where
  TokenAddress : String
  Volume24hCEX : Float64
  Volume24hDEX : Float64
  SocialMentions : List (String × Int)
  Velocity : String
  PriceOnCEX : Float64
  PriceOnDEX : Float64
  MarketCap : Float64
  EvaluatedAt : Time
  deriving DecidableEq, Repr

/-- Record `models.StrategyDecision`. -/
structure StrategyDecision where
  TokenAddress : String
  Chain : Chain
  WinProbability : Float64
  ExpectedROI : Float64
  ExpectedROIStd : Float64
  Confidence : String
  Action : String
  SuggestedAmountUSD : Float64
  StopLossPct : Float64
  TakeProfitPct : Float64
  TimeHorizonMinutes : Int
  EvaluatedAt : Time
  Rationale : List String
  deriving DecidableEq, Repr

/-- Method `calculateHoneypotScore` of the safety agent. -/
def calculateHoneypotScore (report : SafetyReport) : Float64 :=
  let score : Float64 := 0.0
  let score := if !report.CanSell then score + 0.5 else score
  let score := if !report.CanBuy then score + 0.3 else score
  let score := if report.SimulatedSell.Slippage.gt 0.10 then score + 0.2 else score
  let score := if !report.OwnerControls.Renounced then score + 0.1 else score
  let score := if report.OwnerControls.HasBlacklist then score + 0.15 else score
  let score := if report.OwnerControls.HasTransferHook then score + 0.1 else score
  let score := if report.OwnerControls.TaxFee.gt 0.15 then score + 0.1 else score
  let score := if !report.LiquidityLocked then score + 0.05 else score
  let score := if score.gt 1.0 then 1.0 else score
  score

/-- The value of `liquidityRatio` (line 129 of `calculateWinProbability`). -/
def liquidityRatio (token : PreFilteredToken) : Float64 :=
  token.Token.InitialLiquidity.ReserveNative /
    (token.Token.InitialLiquidity.ReserveNative + token.Token.InitialLiquidity.ReserveToken)

/-- Lines 71-140 of `calculateWinProbability` on the path where the token can
be traded: the value of `baseProb` before it is clamped. -/
def winProbabilityScore (cfg : Config) (safety : SafetyReport)
    (offchain : OffChainMetrics) (token : PreFilteredToken) : Float64 :=
  let baseProb : Float64 := 0.5
  let baseProb := baseProb + 0.15
  let baseProb :=
    if safety.HoneypotScore.lt 0.1 then baseProb + 0.10
    else if safety.HoneypotScore.gt cfg.MaxHoneypotScore then baseProb - 0.20
    else baseProb
  let baseProb := if safety.LiquidityLocked then baseProb + 0.08 else baseProb
  let baseProb := if safety.OwnerControls.Renounced then baseProb + 0.07 else baseProb
  let baseProb :=
    if !safety.OwnerControls.HasBlacklist && !safety.OwnerControls.HasTransferHook
    then baseProb + 0.05 else baseProb
  let baseProb :=
    if offchain.Volume24hDEX.ge cfg.MinVolumeDEX then baseProb + 0.10 else baseProb
  let baseProb :=
    if decide (totalMentions offchain.SocialMentions > 50) then baseProb + 0.08 else baseProb
  let baseProb :=
    if offchain.Velocity == "rising" then baseProb + 0.07
    else if offchain.Velocity == "falling" then baseProb - 0.10
    else baseProb
  let baseProb :=
    if (liquidityRatio token).lt 0.3 || (liquidityRatio token).gt 0.7 then baseProb - 0.05
    else baseProb
  let baseProb :=
    if token.Priority == "high" then baseProb + 0.05
    else if token.Priority == "low" then baseProb - 0.05
    else baseProb
  baseProb

/-- Lines 71-140 of `calculateWinProbability` on the same path: the value of
`token.Reasons`, a field of the by-value parameter `token`, when the method
returns.  The method returns `baseProb` only, so this value is dropped. -/
def winProbabilityReasons (cfg : Config) (safety : SafetyReport)
    (offchain : OffChainMetrics) (token : PreFilteredToken) : List String :=
  let reasons := token.Reasons
  let reasons := reasons ++ ["can_trade"]
  let reasons :=
    if safety.HoneypotScore.lt 0.1 then reasons ++ ["low_honeypot_score"]
    else if safety.HoneypotScore.gt cfg.MaxHoneypotScore then reasons ++ ["high_honeypot_score"]
    else reasons
  let reasons := if safety.LiquidityLocked then reasons ++ ["liquidity_locked"] else reasons
  let reasons :=
    if safety.OwnerControls.Renounced then reasons ++ ["owner_renounced"] else reasons
  let reasons :=
    if !safety.OwnerControls.HasBlacklist && !safety.OwnerControls.HasTransferHook
    then reasons ++ ["no_transfer_restrictions"] else reasons
  let reasons :=
    if offchain.Volume24hDEX.ge cfg.MinVolumeDEX then reasons ++ ["good_dex_volume"]
    else reasons
  let reasons :=
    if decide (totalMentions offchain.SocialMentions > 50) then reasons ++ ["social_activity"]
    else reasons
  let reasons :=
    if offchain.Velocity == "rising" then reasons ++ ["rising_velocity"] else reasons
  let reasons :=
    if (liquidityRatio token).lt 0.3 || (liquidityRatio token).gt 0.7
    then reasons ++ ["liquidity_imbalance"] else reasons
  reasons

/-- Lines 142-148 of `calculateWinProbability`: clamp between 0 and 1. -/
def clampProbability (baseProb : Float64) : Float64 :=
  let baseProb := if baseProb.gt 1.0 then 1.0 else baseProb
  let baseProb := if baseProb.lt 0.0 then 0.0 else baseProb
  baseProb

/-- The body of `calculateWinProbability`: the value it returns, and the value
of its by-value parameter `token` at the `return` statement.  A token that
cannot be traded returns at line 78, before any other append. -/
def calculateWinProbabilityRun (cfg : Config) (safety : SafetyReport)
    (offchain : OffChainMetrics) (token : PreFilteredToken) : Float64 × PreFilteredToken :=
  if safety.CanBuy && safety.CanSell then
    (clampProbability (winProbabilityScore cfg safety offchain token),
      { token with Reasons := winProbabilityReasons cfg safety offchain token })
  else
    (0.0, token)

/-- Method `calculateWinProbability`: the returned value; the copy of the
token ends with the call. -/
def calculateWinProbability (cfg : Config) (safety : SafetyReport)
    (offchain : OffChainMetrics) (token : PreFilteredToken) : Float64 :=
  (calculateWinProbabilityRun cfg safety offchain token).1

/-- Method `calculateExpectedROI`: the pair (baseROI, stdDev). -/
def calculateExpectedROI (cfg : Config) (_safety : SafetyReport)
    (offchain : OffChainMetrics) (token : PreFilteredToken) : Float64 × Float64 :=
  let baseROI : Float64 := 0.15
  let baseROI :=
    if offchain.Volume24hDEX.gt (cfg.MinVolumeDEX * 2) then baseROI + 0.10 else baseROI
  let baseROI :=
    if token.Token.InitialLiquidity.ReserveNative.gt (cfg.MinLiquidity * 2) then baseROI + 0.08
    else baseROI
  let baseROI := if offchain.Velocity == "rising" then baseROI + 0.12 else baseROI
  let stdDev : Float64 := 0.25
  (baseROI, stdDev)

/-- Method `determineConfidence`. -/
def determineConfidence (cfg : Config) (safety : SafetyReport)
    (offchain : OffChainMetrics) (winProb : Float64) : String :=
  if winProb.ge 0.85 && safety.HoneypotScore.lt 0.1 &&
      offchain.Volume24hDEX.gt cfg.MinVolumeDEX then
    "high"
  else if winProb.ge 0.70 && safety.HoneypotScore.lt 0.2 then
    "medium"
  else
    "low"

/-- Method `determineAction`. -/
def determineAction (cfg : Config) (decision : StrategyDecision) : String :=
  if decision.WinProbability.ge cfg.WinProbabilityThreshold && decision.Confidence != "low" then
    if cfg.AutoExecute then "buy" else "list"
  else if decision.WinProbability.ge 0.60 then
    "monitor"
  else
    "skip"

/-- Method `calculatePositionSize`. -/
def calculatePositionSize (cfg : Config) (decision : StrategyDecision) : Float64 :=
  let maxPosition := cfg.AccountBalance * cfg.SinglePositionPct
  let multiplier : Float64 :=
    if decision.Confidence == "high" then 1.0
    else if decision.Confidence == "medium" then 0.7
    else if decision.Confidence == "low" then 0.4
    else 1.0
  let suggestedAmount := maxPosition * multiplier
  let suggestedAmount := if suggestedAmount.lt 100 then 100 else suggestedAmount
  Float64.mathRound (suggestedAmount * 100) / 100

/-- Method `calculateStopLoss`. -/
def calculateStopLoss (decision : StrategyDecision) : Float64 :=
  if decision.Confidence == "high" then 0.20
  else if decision.Confidence == "medium" then 0.15
  else if decision.Confidence == "low" then 0.10
  else 0.15

/-- Method `calculateTakeProfit`. -/
def calculateTakeProfit (decision : StrategyDecision) : Float64 :=
  let baseTP := decision.ExpectedROI * 1.5
  let baseTP := if baseTP.lt 0.20 then 0.20 else baseTP
  let baseTP := if baseTP.gt 1.00 then 1.00 else baseTP
  Float64.mathRound (baseTP * 100) / 100

/-- Method `calculateTimeHorizon`. -/
def calculateTimeHorizon (decision : StrategyDecision) : Int :=
  if decision.Confidence == "high" then 60
  else if decision.Confidence == "medium" then 30
  else 15

/-- Method `Evaluate`.  `now` is the reading of `time.Now()`; the returned
error is always `nil`.  The token is received by value and the reasons
`calculateWinProbability` appends to its copy are dropped when that method
returns. -/
def Evaluate (cfg : Config) (now : Time) (safety : SafetyReport)
    (offchain : OffChainMetrics) (token : PreFilteredToken) : StrategyDecision :=
  let decision : StrategyDecision :=
    { TokenAddress := token.Token.TokenAddress
      Chain := token.Token.Chain
      WinProbability := 0
      ExpectedROI := 0
      ExpectedROIStd := 0
      Confidence := ""
      Action := ""
      SuggestedAmountUSD := 0
      StopLossPct := 0
      TakeProfitPct := 0
      TimeHorizonMinutes := 0
      EvaluatedAt := now
      Rationale := [] }
  let decision :=
    { decision with WinProbability := calculateWinProbability cfg safety offchain token }
  let roi := calculateExpectedROI cfg safety offchain token
  let decision := { decision with ExpectedROI := roi.1, ExpectedROIStd := roi.2 }
  let decision :=
    { decision with
      Confidence := determineConfidence cfg safety offchain decision.WinProbability }
  let decision := { decision with Action := determineAction cfg decision }
  let decision := { decision with SuggestedAmountUSD := calculatePositionSize cfg decision }
  let decision := { decision with StopLossPct := calculateStopLoss decision }
  let decision := { decision with TakeProfitPct := calculateTakeProfit decision }
  let decision := { decision with TimeHorizonMinutes := calculateTimeHorizon decision }
  decision

/-- The running float64 sum over the rows of a table: from `start`, the
delta of every row whose test holds is added, in the order of the rows. -/
def sumInOrder (start : Float64) (rows : List (Bool × Float64)) : Float64 :=
  rows.foldl (fun acc row => if row.1 then acc + row.2 else acc) start

/-- The rows of a table of decimal deltas with each delta converted to
float64. -/
def floatRows (rows : List (Bool × ℚ)) : List (Bool × Float64) :=
  rows.map (fun row => (row.1, Float64.ofRat row.2))

/-- The weight table of the honeypot score, as the claim lists it. -/
def honeypotWeights (report : SafetyReport) : List (Bool × ℚ) :=
  [ (!report.CanSell, 50 / 100),
    (!report.CanBuy, 30 / 100),
    (report.SimulatedSell.Slippage.gt 0.10, 20 / 100),
    (!report.OwnerControls.Renounced, 10 / 100),
    (report.OwnerControls.HasBlacklist, 15 / 100),
    (report.OwnerControls.HasTransferHook, 10 / 100),
    (report.OwnerControls.TaxFee.gt 0.15, 10 / 100),
    (!report.LiquidityLocked, 5 / 100) ]

/-- The table of deltas of the win probability, headed by the delta 0.15 of
a tradable token; the second honeypot row applies only when the first one
does not (the two rows are an `if` / `else if` in the source, as are the two
velocity rows and the two priority rows, whose tests exclude each other). -/
def exclusiveDeltas (cfg : Config) (safety : SafetyReport) (offchain : OffChainMetrics)
    (token : PreFilteredToken) : List (Bool × ℚ) :=
  [ (true, 15 / 100),
    (safety.HoneypotScore.lt 0.1, 10 / 100),
    (!safety.HoneypotScore.lt 0.1 && safety.HoneypotScore.gt cfg.MaxHoneypotScore,
      -(20 / 100)),
    (safety.LiquidityLocked, 8 / 100),
    (safety.OwnerControls.Renounced, 7 / 100),
    (!safety.OwnerControls.HasBlacklist && !safety.OwnerControls.HasTransferHook, 5 / 100),
    (offchain.Volume24hDEX.ge cfg.MinVolumeDEX, 10 / 100),
    (decide (totalMentions offchain.SocialMentions > 50), 8 / 100),
    (offchain.Velocity == "rising", 7 / 100),
    (!(offchain.Velocity == "rising") && offchain.Velocity == "falling", -(10 / 100)),
    ((liquidityRatio token).lt 0.3 || (liquidityRatio token).gt 0.7, -(5 / 100)),
    (token.Priority == "high", 5 / 100),
    (!(token.Priority == "high") && token.Priority == "low", -(5 / 100)) ]

/-- The table of deltas of the win probability with every row tested on its
own, as the claim reads it. -/
def independentDeltas (cfg : Config) (safety : SafetyReport) (offchain : OffChainMetrics)
    (token : PreFilteredToken) : List (Bool × ℚ) :=
  [ (safety.HoneypotScore.lt 0.1, 10 / 100),
    (safety.HoneypotScore.gt cfg.MaxHoneypotScore, -(20 / 100)),
    (safety.LiquidityLocked, 8 / 100),
    (safety.OwnerControls.Renounced, 7 / 100),
    (!safety.OwnerControls.HasBlacklist && !safety.OwnerControls.HasTransferHook, 5 / 100),
    (offchain.Volume24hDEX.ge cfg.MinVolumeDEX, 10 / 100),
    (decide (totalMentions offchain.SocialMentions > 50), 8 / 100),
    (offchain.Velocity == "rising", 7 / 100),
    (offchain.Velocity == "falling", -(10 / 100)),
    ((liquidityRatio token).lt 0.3 || (liquidityRatio token).gt 0.7, -(5 / 100)),
    (token.Priority == "high", 5 / 100),
    (token.Priority == "low", -(5 / 100)) ]

/-- The scoring tags with their tests, in the order of the appends. -/
def scoringTags (cfg : Config) (safety : SafetyReport) (offchain : OffChainMetrics)
    (token : PreFilteredToken) : List (Bool × String) :=
  [ (true, "can_trade"),
    (safety.HoneypotScore.lt 0.1, "low_honeypot_score"),
    (!safety.HoneypotScore.lt 0.1 && safety.HoneypotScore.gt cfg.MaxHoneypotScore,
      "high_honeypot_score"),
    (safety.LiquidityLocked, "liquidity_locked"),
    (safety.OwnerControls.Renounced, "owner_renounced"),
    (!safety.OwnerControls.HasBlacklist && !safety.OwnerControls.HasTransferHook,
      "no_transfer_restrictions"),
    (offchain.Volume24hDEX.ge cfg.MinVolumeDEX, "good_dex_volume"),
    (decide (totalMentions offchain.SocialMentions > 50), "social_activity"),
    (offchain.Velocity == "rising", "rising_velocity"),
    ((liquidityRatio token).lt 0.3 || (liquidityRatio token).gt 0.7, "liquidity_imbalance") ]

/-- The cap `min(1, x)` of the claim on a float64. -/
def capOne (x : Float64) : Float64 :=
  if x.gt 1.0 then 1.0 else x

/-- The claim's clamp of the take profit to the interval [0.20, 1.00]. -/
def clampTakeProfit (x : Float64) : Float64 :=
  let x := if x.lt 0.20 then 0.20 else x
  if x.gt 1.00 then 1.00 else x

/-- The claim's `max(100, x)` as the source computes it: 100 when `x` is below
100 and `x` otherwise, so that a NaN stays a NaN. -/
def atLeastHundred (x : Float64) : Float64 :=
  if x.lt 100 then 100 else x

/-- The multiplier of the position size for a confidence level, as the claim
lists it. -/
def confidenceMultiplier (confidence : String) : Float64 :=
  if confidence == "high" then 1.0
  else if confidence == "medium" then 0.7
  else 0.4

end IEEE

/-! ## Telemetry with float64 accumulators

The `Record` methods of the telemetry agent once more, with the three
accumulators as float64 values, so that a NaN or an infinite argument is an
argument like any other. -/

namespace IEEE

/-- Record `Metrics` without its lock.  The counters are `int64`, the
accumulators `float64`, the averages `time.Duration` (nanoseconds). -/
structure Metrics where
  TokensScanned : Int
  TokensFound : Int
  TokensFiltered : Int
  TokensDropped : Int
  SafetyChecks : Int
  HoneypotDetected : Int
  SafeTokens : Int
  Evaluations : Int
  CandidatesListed : Int
  TradesExecuted : Int
  ExecutionSuccess : Int
  ExecutionFailed : Int
  SimulationFailed : Int
  TotalInvested : Float64
  TotalProfit : Float64
  TotalLoss : Float64
  AvgDecisionLatency : Int
  AvgExecutionTime : Int
  deriving DecidableEq

/-- Constructor `NewTelemetryAgent`: the zero value of `Metrics`. -/
def NewTelemetryAgent : Metrics :=
  { TokensScanned := 0, TokensFound := 0, TokensFiltered := 0, TokensDropped := 0,
    SafetyChecks := 0, HoneypotDetected := 0, SafeTokens := 0, Evaluations := 0,
    CandidatesListed := 0, TradesExecuted := 0, ExecutionSuccess := 0, ExecutionFailed := 0,
    SimulationFailed := 0, TotalInvested := Float64.finite false 0,
    TotalProfit := Float64.finite false 0, TotalLoss := Float64.finite false 0,
    AvgDecisionLatency := 0, AvgExecutionTime := 0 }

/-- Method `RecordTokenScanned` of `TelemetryAgent`. -/
def RecordTokenScanned (m : Metrics) : Metrics :=
  { m with TokensScanned := increment m.TokensScanned }

/-- Method `RecordTokenFound` of `TelemetryAgent`. -/
def RecordTokenFound (m : Metrics) : Metrics :=
  { m with TokensFound := increment m.TokensFound }

/-- Method `RecordTokenFiltered` of `TelemetryAgent`. -/
def RecordTokenFiltered (m : Metrics) (dropped : Bool) : Metrics :=
  let m := { m with TokensFiltered := increment m.TokensFiltered }
  if dropped then { m with TokensDropped := increment m.TokensDropped } else m

/-- Method `RecordSafetyCheck` of `TelemetryAgent`. -/
def RecordSafetyCheck (m : Metrics) (isHoneypot isSafe : Bool) : Metrics :=
  let m := { m with SafetyChecks := increment m.SafetyChecks }
  let m := if isHoneypot then { m with HoneypotDetected := increment m.HoneypotDetected } else m
  if isSafe then { m with SafeTokens := increment m.SafeTokens } else m

/-- Method `RecordEvaluation` of `TelemetryAgent`. -/
def RecordEvaluation (m : Metrics) : Metrics :=
  { m with Evaluations := increment m.Evaluations }

/-- Method `RecordCandidateListed` of `TelemetryAgent`. -/
def RecordCandidateListed (m : Metrics) : Metrics :=
  { m with CandidatesListed := increment m.CandidatesListed }

/-- Method `RecordExecution` of `TelemetryAgent`. -/
def RecordExecution (m : Metrics) (success : Bool) (amount : Float64) : Metrics :=
  let m := { m with TradesExecuted := increment m.TradesExecuted }
  if success then
    { m with
      ExecutionSuccess := increment m.ExecutionSuccess
      TotalInvested := m.TotalInvested + amount }
  else
    { m with ExecutionFailed := increment m.ExecutionFailed }

/-- Method `RecordSimulationFailure` of `TelemetryAgent`. -/
def RecordSimulationFailure (m : Metrics) : Metrics :=
  { m with SimulationFailed := increment m.SimulationFailed }

/-- Method `RecordProfit` of `TelemetryAgent`: the test `profitLoss > 0` is
false for a NaN, which then goes to the loss. -/
def RecordProfit (m : Metrics) (profitLoss : Float64) : Metrics :=
  if profitLoss.gt (Float64.finite false 0) then
    { m with TotalProfit := m.TotalProfit + profitLoss }
  else
    { m with TotalLoss := m.TotalLoss + -profitLoss }

/-- Method `RecordDecisionLatency` of `TelemetryAgent`: an `int64` sum and a
division that truncates toward zero. -/
def RecordDecisionLatency (m : Metrics) (duration : Int) : Metrics :=
  { m with AvgDecisionLatency := Int.tdiv (wrapInt64 (m.AvgDecisionLatency + duration)) 2 }

/-- Method `RecordExecutionTime` of `TelemetryAgent`. -/
def RecordExecutionTime (m : Metrics) (duration : Int) : Metrics :=
  { m with AvgExecutionTime := Int.tdiv (wrapInt64 (m.AvgExecutionTime + duration)) 2 }

/-- One call of a `Record` method of the telemetry agent, with its
arguments. -/
inductive TelemetryOp where
  | recordTokenScanned
  | recordTokenFound
  | recordTokenFiltered (dropped : Bool)
  | recordSafetyCheck (isHoneypot isSafe : Bool)
  | recordEvaluation
  | recordCandidateListed
  | recordExecution (success : Bool) (amount : Float64)
  | recordSimulationFailure
  | recordProfit (profitLoss : Float64)
  | recordDecisionLatency (duration : Int)
  | recordExecutionTime (duration : Int)
  deriving DecidableEq

/-- The metrics after one call. -/
def TelemetryOp.step (m : Metrics) : TelemetryOp → Metrics
  | .recordTokenScanned => RecordTokenScanned m
  | .recordTokenFound => RecordTokenFound m
  | .recordTokenFiltered dropped => RecordTokenFiltered m dropped
  | .recordSafetyCheck isHoneypot isSafe => RecordSafetyCheck m isHoneypot isSafe
  | .recordEvaluation => RecordEvaluation m
  | .recordCandidateListed => RecordCandidateListed m
  | .recordExecution success amount => RecordExecution m success amount
  | .recordSimulationFailure => RecordSimulationFailure m
  | .recordProfit profitLoss => RecordProfit m profitLoss
  | .recordDecisionLatency duration => RecordDecisionLatency m duration
  | .recordExecutionTime duration => RecordExecutionTime m duration

/-- Every counter and accumulator of `after` is at least its value in
`before`; for an accumulator this is the float64 comparison `<=`, which is
false when either side is a NaN. -/
def countersNonDecreasing (before after : Metrics) : Prop :=
  before.TokensScanned ≤ after.TokensScanned ∧
  before.TokensFound ≤ after.TokensFound ∧
  before.TokensFiltered ≤ after.TokensFiltered ∧
  before.TokensDropped ≤ after.TokensDropped ∧
  before.SafetyChecks ≤ after.SafetyChecks ∧
  before.HoneypotDetected ≤ after.HoneypotDetected ∧
  before.SafeTokens ≤ after.SafeTokens ∧
  before.Evaluations ≤ after.Evaluations ∧
  before.CandidatesListed ≤ after.CandidatesListed ∧
  before.TradesExecuted ≤ after.TradesExecuted ∧
  before.ExecutionSuccess ≤ after.ExecutionSuccess ∧
  before.ExecutionFailed ≤ after.ExecutionFailed ∧
  before.SimulationFailed ≤ after.SimulationFailed ∧
  before.TotalInvested.le after.TotalInvested = true ∧
  before.TotalProfit.le after.TotalProfit = true ∧
  before.TotalLoss.le after.TotalLoss = true

/-- No counter of the bank has reached the largest `int64`. -/
def countersBelowMax (m : Metrics) : Prop :=
  m.TokensScanned < maxInt64 ∧ m.TokensFound < maxInt64 ∧ m.TokensFiltered < maxInt64 ∧
  m.TokensDropped < maxInt64 ∧ m.SafetyChecks < maxInt64 ∧ m.HoneypotDetected < maxInt64 ∧
  m.SafeTokens < maxInt64 ∧ m.Evaluations < maxInt64 ∧ m.CandidatesListed < maxInt64 ∧
  m.TradesExecuted < maxInt64 ∧ m.ExecutionSuccess < maxInt64 ∧
  m.ExecutionFailed < maxInt64 ∧ m.SimulationFailed < maxInt64

/-- A float64 value that is zero or positive, an infinity included: the
magnitude of a finite one has at most 53 significant bits. -/
def NonNegative : Float64 → Prop
  | Float64.finite negative magnitude =>
    negative = false ∧ Float64.Representable magnitude
  | Float64.inf negative => negative = false
  | Float64.nan => False

/-- The three accumulators of the bank hold float64 values that are zero or
positive, as they do after any number of calls with such amounts. -/
def accumulatorsNonNegative (m : Metrics) : Prop :=
  NonNegative m.TotalInvested ∧ NonNegative m.TotalProfit ∧ NonNegative m.TotalLoss

/-- The restriction on a call under which no accumulator decreases: a
successful execution is recorded with an amount that is zero or positive
(the float64 test `0 <= amount`, which a NaN fails), and a profit is not a
NaN. -/
def TelemetryOp.plainAmount : TelemetryOp → Prop
  | .recordExecution success amount =>
    success = true → (Float64.finite false 0).le amount = true
  | .recordProfit profitLoss => profitLoss ≠ Float64.nan
  | _ => True

end IEEE

/-! ## Concrete inputs -/

/-- The configuration `LoadConfig` returns when no variable is set. -/
def defaultConfig : Config :=
  { DryRun := true
    AutoExecute := false
    WinProbabilityThreshold := 80 / 100
    MinVolumeDEX := 10000
    MinLiquidity := 5000
    MaxHoneypotScore := 2 / 10
    MaxSlippage := 5 / 100
    SinglePositionPct := 1 / 100
    TotalExposurePct := 5 / 100
    DailyLossLimit := 500
    AccountBalance := 10000
    BlacklistedTokens := []
    BlacklistedCreators := []
    WhitelistedTokens := [] }

/-- A configuration that executes automatically and whose threshold every
win probability reaches. -/
def eagerConfig : Config :=
  { defaultConfig with AutoExecute := true, WinProbabilityThreshold := -1 }

/-- A token found on Base with balanced reserves. -/
def sampleToken : PreFilteredToken :=
  { Token :=
      { Chain := "base"
        TokenAddress := "0xabc"
        FirstSeenTS := 0
        CreatorAddress := "0xdef"
        InitialLiquidity := { Pair := "WETH", ReserveToken := 20000, ReserveNative := 20000 }
        TxHash := "0x1"
        Metadata := [] }
    Priority := "high"
    Dropped := false
    Reasons := [] }

/-- A clean safety report: tradable, low honeypot score. -/
def cleanSafety : SafetyReport :=
  { TokenAddress := "0xabc"
    Chain := "base"
    CanBuy := true
    CanSell := true
    HoneypotScore := 5 / 100
    LiquidityLocked := true
    OwnerControls :=
      { Renounced := true, HasBlacklist := false, MaxTxLimit := 0, TaxFee := 0,
        HasTransferHook := false }
    SimulatedSell := { Success := true, Slippage := 1 / 100, GasUsed := 0, Error := "" }
    Reasons := []
    EvaluatedAt := 0 }

/-- A honeypot report: the token can be bought but not sold. -/
def honeypotSafety : SafetyReport :=
  { cleanSafety with CanSell := false, HoneypotScore := 1 }

/-- Off-chain metrics of an active token. -/
def sampleMetrics : OffChainMetrics :=
  { TokenAddress := "0xabc"
    Volume24hCEX := 0
    Volume24hDEX := 25000
    SocialMentions := [("twitter", 80)]
    Velocity := "rising"
    PriceOnCEX := 0
    PriceOnDEX := 0
    MarketCap := 0
    EvaluatedAt := 0 }

/-- A decision that suggests a position of `amount` USD. -/
def decisionOf (amount : ℚ) : StrategyDecision :=
  { TokenAddress := "0xabc"
    Chain := "base"
    WinProbability := 9 / 10
    ExpectedROI := 15 / 100
    ExpectedROIStd := 25 / 100
    Confidence := "high"
    Action := "buy"
    SuggestedAmountUSD := amount
    StopLossPct := 20 / 100
    TakeProfitPct := 23 / 100
    TimeHorizonMinutes := 60
    EvaluatedAt := 0
    Rationale := [] }

/-- An execution result with the given status and amount. -/
def resultOf (status : String) (amount : ℚ) : ExecutionResult :=
  { TokenAddress := "0xabc"
    Chain := "base"
    TxHash := goBytes "DRY_RUN_TX_0xabc"
    Status := status
    GasUsed := 0
    SlippageActual := 0
    AmountUSD := amount
    Timestamp := 0
    Error := "" }

/-- A risk manager under the default configuration with the given exposure,
daily loss and circuit-breaker flag. -/
def riskWith (exposure loss : ℚ) (halted : Bool) : RiskManagerAgent :=
  { config := defaultConfig
    control :=
      { SinglePositionPct := 1 / 100
        TotalExposurePct := 5 / 100
        DailyLossLimit := 500
        CurrentExposure := exposure
        DailyLoss := loss
        TradingHalted := halted
        LastResetTime := 0 } }

/-- A sequence of calls of every method except `ResumeTrading`. -/
def haltedRun : List RiskOp :=
  [ RiskOp.canExecute (decisionOf 100),
    RiskOp.recordExecution (resultOf "confirmed" 100),
    RiskOp.recordProfit "0xabc" 40,
    RiskOp.releaseExposure 30,
    RiskOp.resetDaily 5,
    RiskOp.checkDailyReset 100000000000000 100000000000001,
    RiskOp.getStatus,
    RiskOp.canExecute (decisionOf 50) ]

/-- An ASCII reading of the three library functions, used for concrete runs:
the letters A-Z fold to a-z and every other character stands for itself. -/
def asciiStrings : GoStrings :=
  { EqualFold := fun s t => s.data.map Char.toLower == t.data.map Char.toLower
    ToLower := fun s => String.mk (s.data.map Char.toLower)
    Contains := fun s substr => decide (substr.data <:+: s.data) }

/-- A configuration with one deny-listed token that is also allow-listed, one
deny-listed creator and one more allow-listed token. -/
def denyConfig : Config :=
  { defaultConfig with
    BlacklistedTokens := ["0xbad"]
    BlacklistedCreators := ["0xevil"]
    WhitelistedTokens := ["0xbad", "0xgood"] }

/-- A token found on Base with the given addresses, native reserve and
metadata. -/
def tokenAt (address creator : String) (reserveNative : ℚ)
    (metadata : List (String × String)) : TokenFound :=
  { Chain := "base"
    TokenAddress := address
    FirstSeenTS := 0
    CreatorAddress := creator
    InitialLiquidity := { Pair := "WETH", ReserveToken := 1000, ReserveNative := reserveNative }
    TxHash := "0x1"
    Metadata := metadata }

/-- A report that can be neither bought nor sold, with a slippage of one
half, unlocked liquidity and no recorded reason; its score is the one
`calculateHoneypotScore` computes from its fields. -/
def silentHoneypot : SafetyReport :=
  { cleanSafety with
    CanBuy := false
    CanSell := false
    SimulatedSell := { Success := false, Slippage := 1 / 2, GasUsed := 0, Error := "" }
    LiquidityLocked := false
    HoneypotScore := 1
    Reasons := [] }

/-- The configuration of the boundary scenario: the default one with
automatic execution. -/
def scenarioConfig : Config :=
  { defaultConfig with AutoExecute := true }

/-- A configuration whose honeypot bound lies below one tenth. -/
def strictConfig : Config :=
  { defaultConfig with MaxHoneypotScore := 2 / 100 }

/-- A tradable report that earns no bonus besides its low honeypot score. -/
def plainSafety : SafetyReport :=
  { cleanSafety with
    HoneypotScore := 5 / 100
    LiquidityLocked := false
    OwnerControls :=
      { Renounced := false, HasBlacklist := true, MaxTxLimit := 0, TaxFee := 0,
        HasTransferHook := false } }

/-- Metrics of a quiet token: no volume, no mentions, stable velocity. -/
def quietMetrics : OffChainMetrics :=
  { sampleMetrics with Volume24hDEX := 0, SocialMentions := [], Velocity := "stable" }

/-- A prefiltered token of medium priority with balanced reserves. -/
def mediumToken : PreFilteredToken :=
  { sampleToken with Priority := "medium" }

/-- The default configuration with a daily loss limit of 100. -/
def lowLimitConfig : Config :=
  { defaultConfig with DailyLossLimit := 100 }

/-- A prefiltered token whose native reserve does not exceed twice the
minimum liquidity. -/
def smallToken : PreFilteredToken :=
  { sampleToken with
    Token :=
      { sampleToken.Token with
        InitialLiquidity := { Pair := "WETH", ReserveToken := 5000, ReserveNative := 5000 } }
    Priority := "medium" }

/-- A candidate built from a token and a decision, with the clean report and
the sample metrics. -/
def candidateOf (token : TokenFound) (decision : StrategyDecision) (status : String) :
    CandidateToken :=
  { Token := token
    SafetyReport := cleanSafety
    OffChainMetrics := sampleMetrics
    StrategyDecision := decision
    ListedAt := 0
    Status := status }

/-- A listing with one executed candidate under the address 0xabc. -/
def executedListing : CandidateListingAgent :=
  { candidates := [("0xabc", candidateOf (tokenAt "0xabc" "0xdef" 20000 []) (decisionOf 100)
      "executed")]
    queue := [] }

/-- A configuration outside dry-run mode. -/
def liveConfig : Config :=
  { defaultConfig with DryRun := false }

/-- A run of listing calls that leaves the address 0xabc settled. -/
def settledRun : List ListingOp :=
  [ ListingOp.addCandidate 9 (tokenAt "0xnew" "0xdef" 20000 []) cleanSafety sampleMetrics
      (decisionOf 100),
    ListingOp.updateStatus "0xabc" "failed",
    ListingOp.updateStatus "0xgone" "pending" ]

/-- A token on a chain the executor does not support, with a short
address. -/
def foreignToken : TokenFound :=
  { tokenAt "abc" "0xdef" 20000 [] with Chain := "dogecoin" }

/-- A Base candidate with a 42-byte address. -/
def baseCandidate : CandidateToken :=
  candidateOf (tokenAt "0x1234567890abcdef1234567890abcdef12345678" "0xdef" 20000 [])
    (decisionOf 100) "pending"

/-- The default configuration with an account of 5000 USD, whose single
position limit is 50 USD. -/
def smallAccountConfig : Config :=
  { defaultConfig with AccountBalance := 5000 }

/-- An environment in which no variable is set. -/
def emptyEnvironment : Environment :=
  fun _ => ""

/-- Parsers that accept nothing, for runs on an empty environment. -/
def strictParsers : GoParsers :=
  { Atoi := fun _ => none
    ParseFloat := fun _ => none
    ParseBool := fun _ => none
    Split := fun s _ => [s] }

/-- A run in which an approved decision of 100 USD is executed, 30 USD are
released and a decision of 200 USD is asked for. -/
def cappedRun : List RiskOp :=
  [ RiskOp.canExecute (decisionOf 100),
    RiskOp.recordExecution (resultOf "confirmed" 100),
    RiskOp.releaseExposure 30,
    RiskOp.canExecute (decisionOf 200) ]

/-- A pending candidate of 100 USD under the address 0xabc. -/
def pendingCandidate : CandidateToken :=
  candidateOf (tokenAt "0xabc" "0xdef" 20000 []) (decisionOf 100) "pending"

/-- A listing with the pending candidate registered and queued. -/
def pendingListing : CandidateListingAgent :=
  { candidates := [("0xabc", pendingCandidate)]
    queue := [pendingCandidate] }

/-- A fresh orchestrator in dry-run mode that holds the pending listing. -/
def dryOrchestrator : Orchestrator :=
  { NewOrchestrator defaultConfig 0 with listing := pendingListing }

/-- The mint address of wrapped SOL, which has 43 bytes. -/
def wrappedSolAddress : String :=
  "So11111111111111111111111111111111111111112"

/-- A pending Solana candidate of 100 USD whose address is the mint of
wrapped SOL. -/
def solanaCandidate : CandidateToken :=
  candidateOf { tokenAt wrappedSolAddress "0xdef" 20000 [] with Chain := "solana" }
    (decisionOf 100) "pending"

/-- A fresh orchestrator outside dry-run mode whose listing holds the Solana
candidate, registered and queued. -/
def liveOrchestrator : Orchestrator :=
  { NewOrchestrator liveConfig 0 with
    listing :=
      { candidates := [(wrappedSolAddress, solanaCandidate)]
        queue := [solanaCandidate] } }

/-- A pending candidate of 100 USD on a chain the executor does not
support. -/
def foreignCandidate : CandidateToken :=
  candidateOf foreignToken (decisionOf 100) "pending"

/-- A fresh orchestrator outside dry-run mode whose listing holds the
candidate on the unsupported chain. -/
def foreignOrchestrator : Orchestrator :=
  { NewOrchestrator liveConfig 0 with
    listing :=
      { candidates := [("abc", foreignCandidate)]
        queue := [foreignCandidate] } }

/-- A Base candidate whose address has the two-byte character é at the
bytes 40 and 41. -/
def accentedCandidate : CandidateToken :=
  candidateOf (tokenAt "0x1234567890abcdef1234567890abcdef12345ézz" "0xdef" 20000 [])
    (decisionOf 100) "pending"

/-- The clock of an `executeCandidate` call in which no time passes. -/
def stillClock : ExecuteClock :=
  { startTime := 0, checkNow := 0, resetNow := 0, executeNow := 0, endNow := 0 }

/-- The clock of a `processToken` call in which no time passes. -/
def stillProcessClock : ProcessClock :=
  { startTime := 0, safetyNow := 0, gatherNow := 0, strategyNow := 0, latencyNow := 0,
    listedNow := 0 }

/-- The default configuration, as the strategy evaluator reads it. -/
def IEEE.defaultConfig : IEEE.Config :=
  { AutoExecute := false
    WinProbabilityThreshold := 0.80
    MinVolumeDEX := 10000
    MinLiquidity := 5000
    MaxHoneypotScore := 0.2
    SinglePositionPct := 0.01
    AccountBalance := 10000 }

/-- A token found on Base with balanced reserves and high priority. -/
def IEEE.sampleToken : IEEE.PreFilteredToken :=
  { Token :=
      { Chain := "base"
        TokenAddress := "0xabc"
        FirstSeenTS := 0
        CreatorAddress := "0xdef"
        InitialLiquidity := { Pair := "WETH", ReserveToken := 20000, ReserveNative := 20000 }
        TxHash := "0x1"
        Metadata := [] }
    Priority := "high"
    Dropped := false
    Reasons := ["good_liquidity"] }

/-- A clean safety report: tradable, low honeypot score. -/
def IEEE.cleanSafety : IEEE.SafetyReport :=
  { TokenAddress := "0xabc"
    Chain := "base"
    CanBuy := true
    CanSell := true
    HoneypotScore := 0.05
    LiquidityLocked := true
    OwnerControls :=
      { Renounced := true, HasBlacklist := false, MaxTxLimit := 0, TaxFee := 0,
        HasTransferHook := false }
    SimulatedSell := { Success := true, Slippage := 0.01, GasUsed := 0, Error := "" }
    Reasons := []
    EvaluatedAt := 0 }

/-- A report that cannot be sold, with a slippage of one half, an owner that
has not renounced, a transfer hook and a tax of one fifth; the liquidity is
locked. -/
def IEEE.trappedSafety : IEEE.SafetyReport :=
  { IEEE.cleanSafety with
    CanSell := false
    OwnerControls :=
      { Renounced := false, HasBlacklist := false, MaxTxLimit := 0, TaxFee := 0.2,
        HasTransferHook := true }
    SimulatedSell := { Success := false, Slippage := 0.5, GasUsed := 0, Error := "" } }

/-- Off-chain metrics of an active token. -/
def IEEE.sampleMetrics : IEEE.OffChainMetrics :=
  { TokenAddress := "0xabc"
    Volume24hCEX := 0
    Volume24hDEX := 25000
    SocialMentions := [("twitter", 80)]
    Velocity := "rising"
    PriceOnCEX := 0
    PriceOnDEX := 0
    MarketCap := 0
    EvaluatedAt := 0 }

/-- Metrics of a quiet token: no volume, no mentions, stable velocity. -/
def IEEE.quietMetrics : IEEE.OffChainMetrics :=
  { IEEE.sampleMetrics with Volume24hDEX := 0, SocialMentions := [], Velocity := "stable" }

/-- A configuration with a balance of 10251.3 and a single position share of
0.05. -/
def IEEE.tieConfig : IEEE.Config :=
  { IEEE.defaultConfig with AccountBalance := 10251.3, SinglePositionPct := 0.05 }

/-- A configuration whose balance is NaN, as `ACCOUNT_BALANCE=NaN` loads
it. -/
def IEEE.nanConfig : IEEE.Config :=
  { IEEE.defaultConfig with AccountBalance := Float64.nan }

/-- A token whose native reserve does not exceed twice the minimum
liquidity. -/
def IEEE.smallToken : IEEE.PreFilteredToken :=
  { IEEE.sampleToken with
    Token :=
      { IEEE.sampleToken.Token with
        InitialLiquidity := { Pair := "WETH", ReserveToken := 8000, ReserveNative := 8000 } }
    Priority := "medium" }

/-- A tradable report with a honeypot score of 0.15 whose owner has renounced
and whose contract has a blacklist; the liquidity is not locked. -/
def IEEE.renouncedSafety : IEEE.SafetyReport :=
  { IEEE.cleanSafety with
    HoneypotScore := 0.15
    LiquidityLocked := false
    OwnerControls :=
      { Renounced := true, HasBlacklist := true, MaxTxLimit := 0, TaxFee := 0,
        HasTransferHook := false } }

/-- Metrics of a token with 80 mentions, no volume and a stable velocity. -/
def IEEE.socialMetrics : IEEE.OffChainMetrics :=
  { IEEE.quietMetrics with SocialMentions := [("twitter", 80)] }

/-- A configuration whose honeypot bound lies below one tenth. -/
def IEEE.strictConfig : IEEE.Config :=
  { IEEE.defaultConfig with MaxHoneypotScore := 0.02 }

/-- Metrics whose mention map has two entries. -/
def IEEE.twoSourceMetrics : IEEE.OffChainMetrics :=
  { IEEE.sampleMetrics with SocialMentions := [("twitter", 40), ("telegram", 30)] }

/-- Float64 metrics whose scanned counter has reached the largest `int64`. -/
def IEEE.saturatedMetrics : IEEE.Metrics :=
  { IEEE.NewTelemetryAgent with TokensScanned := 2 ^ 63 - 1 }

/-- One hour, in nanoseconds. -/
def oneHour : Int := 3600 * 1000000000

/-- Twenty-five hours, in nanoseconds. -/
def twentyFiveHours : Int := 25 * 3600 * 1000000000

/-- The calls `executeCandidate` makes on the risk manager for one candidate,
25 hours after the last reset. -/
def nextDayRun : List RiskOp :=
  [ RiskOp.checkDailyReset twentyFiveHours twentyFiveHours,
    RiskOp.canExecute (decisionOf 100) ]

/-- Calls made within the hour after the last reset: a daily-reset check, a
decision above the single-position limit, an execution record, a release and
a status read. -/
def sameDayRun : List RiskOp :=
  [ RiskOp.checkDailyReset oneHour oneHour,
    RiskOp.canExecute (decisionOf 5000),
    RiskOp.recordExecution (resultOf "confirmed" 100),
    RiskOp.releaseExposure 30,
    RiskOp.getStatus,
    RiskOp.checkDailyReset oneHour oneHour ]

/-! ## Strategy evaluator: lemmas -/

theorem clampProbability_nonneg (x : ℚ) : 0 ≤ clampProbability x := by
  unfold clampProbability
  simp only []
  split_ifs <;> linarith

theorem clampProbability_le_one (x : ℚ) : clampProbability x ≤ 1 := by
  unfold clampProbability
  simp only []
  split_ifs <;> linarith

theorem Evaluate_WinProbability (cfg : Config) (now : Time) (safety : SafetyReport)
    (offchain : OffChainMetrics) (token : PreFilteredToken) :
    (Evaluate cfg now safety offchain token).WinProbability =
      calculateWinProbability cfg safety offchain token := rfl

theorem Evaluate_Confidence (cfg : Config) (now : Time) (safety : SafetyReport)
    (offchain : OffChainMetrics) (token : PreFilteredToken) :
    (Evaluate cfg now safety offchain token).Confidence =
      determineConfidence cfg safety offchain
        (calculateWinProbability cfg safety offchain token) := rfl

theorem Evaluate_Action (cfg : Config) (now : Time) (safety : SafetyReport)
    (offchain : OffChainMetrics) (token : PreFilteredToken) :
    (Evaluate cfg now safety offchain token).Action =
      if calculateWinProbability cfg safety offchain token ≥ cfg.WinProbabilityThreshold ∧
          determineConfidence cfg safety offchain
            (calculateWinProbability cfg safety offchain token) ≠ "low" then
        (if cfg.AutoExecute then "buy" else "list")
      else if calculateWinProbability cfg safety offchain token ≥ 60 / 100 then "monitor"
      else "skip" := rfl

theorem calculateWinProbability_untradable (cfg : Config) (safety : SafetyReport)
    (offchain : OffChainMetrics) (token : PreFilteredToken)
    (h : safety.CanBuy = false ∨ safety.CanSell = false) :
    calculateWinProbability cfg safety offchain token = 0 := by
  unfold calculateWinProbability
  rcases h with h | h <;> simp [h]

theorem determineConfidence_zero (cfg : Config) (safety : SafetyReport)
    (offchain : OffChainMetrics) : determineConfidence cfg safety offchain 0 = "low" := by
  unfold determineConfidence
  have h1 : ¬ ((0 : ℚ) ≥ 85 / 100) := by norm_num
  have h2 : ¬ ((0 : ℚ) ≥ 70 / 100) := by norm_num
  simp [h1, h2]

theorem Evaluate_Action_of_zero (cfg : Config) (now : Time) (safety : SafetyReport)
    (offchain : OffChainMetrics) (token : PreFilteredToken)
    (h : calculateWinProbability cfg safety offchain token = 0) :
    (Evaluate cfg now safety offchain token).Action = "skip" := by
  rw [Evaluate_Action, h, determineConfidence_zero]
  have h3 : ¬ ((0 : ℚ) ≥ 60 / 100) := by norm_num
  simp [h3]

/-! ## Risk manager: lemmas -/

theorem CanExecute_halted (r : RiskManagerAgent) (decision : StrategyDecision)
    (h : r.control.TradingHalted = true) :
    CanExecute r decision = (r, (false, "trading_halted")) := by
  unfold CanExecute
  simp [h]

theorem CanExecute_control_frame (r : RiskManagerAgent) (decision : StrategyDecision) :
    (CanExecute r decision).1.config = r.config ∧
    (CanExecute r decision).1.control.CurrentExposure = r.control.CurrentExposure ∧
    (CanExecute r decision).1.control.DailyLoss = r.control.DailyLoss := by
  unfold CanExecute haltTrading
  simp only []
  split_ifs <;> simp

theorem step_keeps_halted (r : RiskManagerAgent) (op : RiskOp)
    (h : r.control.TradingHalted = true) (hop : op ≠ RiskOp.resumeTrading) :
    (op.step r).control.TradingHalted = true := by
  cases op with
  | canExecute decision => simp [RiskOp.step, CanExecute_halted r decision h, h]
  | recordExecution result =>
    simp only [RiskOp.step, RecordExecution]
    split_ifs <;> simp [h]
  | recordProfit tokenAddress profitLoss =>
    simp only [RiskOp.step, RecordProfit, haltTrading]
    split_ifs <;> simp [h]
  | releaseExposure amount =>
    simp only [RiskOp.step, ReleaseExposure]
    split_ifs <;> simp [h]
  | resumeTrading => exact absurd rfl hop
  | resetDaily now => simp [RiskOp.step, ResetDaily, h]
  | checkDailyReset now resetNow =>
    simp only [RiskOp.step, CheckDailyReset, ResetDaily]
    split_ifs <;> simp [h]
  | getStatus => simpa [RiskOp.step] using h

theorem step_dailyLoss_nonneg (r : RiskManagerAgent) (op : RiskOp)
    (h : 0 ≤ r.control.DailyLoss) : 0 ≤ (op.step r).control.DailyLoss := by
  cases op with
  | canExecute decision =>
    simp only [RiskOp.step, (CanExecute_control_frame r decision).2.2]
    exact h
  | recordExecution result =>
    simp only [RiskOp.step, RecordExecution]
    split_ifs <;> simpa using h
  | recordProfit tokenAddress profitLoss =>
    simp only [RiskOp.step, RecordProfit, haltTrading]
    split_ifs with hp <;> (try simp only []) <;> linarith
  | releaseExposure amount =>
    simp only [RiskOp.step, ReleaseExposure]
    split_ifs <;> simpa using h
  | resumeTrading => simpa [RiskOp.step, ResumeTrading] using h
  | resetDaily now => simp [RiskOp.step, ResetDaily]
  | checkDailyReset now resetNow =>
    simp only [RiskOp.step, CheckDailyReset, ResetDaily]
    split_ifs
    · simp
    · exact h
  | getStatus => simpa [RiskOp.step] using h

theorem runOps_dailyLoss_nonneg (ops : List RiskOp) :
    ∀ r : RiskManagerAgent, 0 ≤ r.control.DailyLoss →
      0 ≤ (runOps r ops).control.DailyLoss := by
  induction ops with
  | nil => intro r h; simpa [runOps] using h
  | cons op ops ih =>
    intro r h
    simp only [runOps]
    exact ih _ (step_dailyLoss_nonneg r op h)

theorem runOps_keeps_halted (ops : List RiskOp) :
    ∀ r : RiskManagerAgent, r.control.TradingHalted = true →
      (∀ op ∈ ops, op ≠ RiskOp.resumeTrading) →
      (runOps r ops).control.TradingHalted = true ∧
      ∀ a ∈ canExecuteAnswers r ops, a = (false, "trading_halted") := by
  induction ops with
  | nil => intro r h _; simp [runOps, canExecuteAnswers, h]
  | cons op ops ih =>
    intro r h hops
    have hstep := step_keeps_halted r op h (hops op (List.mem_cons_self _ _))
    have htail := ih (op.step r) hstep (fun o ho => hops o (List.mem_cons_of_mem _ ho))
    refine ⟨by simpa [runOps] using htail.1, ?_⟩
    intro a ha
    cases op with
    | canExecute decision =>
      simp only [canExecuteAnswers, RiskOp.answer, List.mem_cons] at ha
      rcases ha with ha | ha
      · rw [ha, CanExecute_halted r decision h]
      · exact htail.2 a ha
    | recordExecution result => exact htail.2 a (by simpa [canExecuteAnswers, RiskOp.answer] using ha)
    | recordProfit tokenAddress profitLoss => exact htail.2 a (by simpa [canExecuteAnswers, RiskOp.answer] using ha)
    | releaseExposure amount => exact htail.2 a (by simpa [canExecuteAnswers, RiskOp.answer] using ha)
    | resumeTrading => exact htail.2 a (by simpa [canExecuteAnswers, RiskOp.answer] using ha)
    | resetDaily now => exact htail.2 a (by simpa [canExecuteAnswers, RiskOp.answer] using ha)
    | checkDailyReset now resetNow => exact htail.2 a (by simpa [canExecuteAnswers, RiskOp.answer] using ha)
    | getStatus => exact htail.2 a (by simpa [canExecuteAnswers, RiskOp.answer] using ha)

/-! ## Strategy evaluator: claims -/

/-- C1: for every configuration, safety report, metrics record and prefiltered
token, when the safety report has `CanBuy = false` or `CanSell = false` the
decision returned by `Evaluate` has win probability 0 and action `"skip"`. -/
theorem evaluate_untradable_is_skip (cfg : Config) (now : Time) (safety : SafetyReport)
    (offchain : OffChainMetrics) (token : PreFilteredToken)
    (h : safety.CanBuy = false ∨ safety.CanSell = false) :
    (Evaluate cfg now safety offchain token).WinProbability = 0 ∧
    (Evaluate cfg now safety offchain token).Action = "skip" := by
  have hz := calculateWinProbability_untradable cfg safety offchain token h
  exact ⟨by rw [Evaluate_WinProbability, hz], Evaluate_Action_of_zero cfg now safety offchain token hz⟩

/-- C1 at the honeypot report under the default configuration. -/
theorem evaluate_untradable_is_skip_witness :
    (honeypotSafety.CanBuy = false ∨ honeypotSafety.CanSell = false) ∧
    (Evaluate defaultConfig 7 honeypotSafety sampleMetrics sampleToken).WinProbability = 0 ∧
    (Evaluate defaultConfig 7 honeypotSafety sampleMetrics sampleToken).Action = "skip" :=
  ⟨Or.inr rfl,
    evaluate_untradable_is_skip defaultConfig 7 honeypotSafety sampleMetrics sampleToken
      (Or.inr rfl)⟩

/-- C2: for every configuration (any threshold, any `AutoExecute`) and every
input, a decision returned by `Evaluate` whose win probability is 0 has action
`"skip"`. -/
theorem evaluate_zero_probability_is_skip (cfg : Config) (now : Time)
    (safety : SafetyReport) (offchain : OffChainMetrics) (token : PreFilteredToken)
    (h : (Evaluate cfg now safety offchain token).WinProbability = 0) :
    (Evaluate cfg now safety offchain token).Action = "skip" := by
  rw [Evaluate_WinProbability] at h
  exact Evaluate_Action_of_zero cfg now safety offchain token h

/-- C2 at a configuration with a negative threshold and automatic execution. -/
theorem evaluate_zero_probability_is_skip_witness :
    (Evaluate eagerConfig 7 honeypotSafety sampleMetrics sampleToken).WinProbability = 0 ∧
    (Evaluate eagerConfig 7 honeypotSafety sampleMetrics sampleToken).Action = "skip" :=
  ⟨by simp [Evaluate_WinProbability, calculateWinProbability, honeypotSafety],
    evaluate_zero_probability_is_skip eagerConfig 7 honeypotSafety sampleMetrics sampleToken
      (by simp [Evaluate_WinProbability, calculateWinProbability, honeypotSafety])⟩

/-- C3: for every configuration, safety report, metrics record and prefiltered
token, the win probability of the decision returned by `Evaluate` lies in the
closed interval from 0 to 1. -/
theorem evaluate_winProbability_unit_interval (cfg : Config) (now : Time)
    (safety : SafetyReport) (offchain : OffChainMetrics) (token : PreFilteredToken) :
    0 ≤ (Evaluate cfg now safety offchain token).WinProbability ∧
    (Evaluate cfg now safety offchain token).WinProbability ≤ 1 := by
  rw [Evaluate_WinProbability]
  unfold calculateWinProbability
  split_ifs
  · exact ⟨clampProbability_nonneg _, clampProbability_le_one _⟩
  · exact ⟨le_refl 0, zero_le_one⟩

/-! ## Risk manager: claims -/

/-- C4: `CanExecute` returns the first applicable result in the fixed order
trading_halted, exceeds_single_position_limit, exceeds_total_exposure_limit,
daily_loss_limit_reached, and approval with the empty tag otherwise.  In
particular it returns false whenever trading is halted, and with an account
balance of 10000, a single position share of 0.01, a suggested amount of 200
and trading not halted it returns (false, exceeds_single_position_limit). -/
theorem canExecute_first_applicable (r : RiskManagerAgent) (decision : StrategyDecision) :
    (CanExecute r decision).2 = firstApplicable (canExecuteChecks r decision) ∧
    (CanExecute r decision).2 =
      (if r.control.TradingHalted = true then (false, "trading_halted")
       else if decision.SuggestedAmountUSD >
           r.config.AccountBalance * r.config.SinglePositionPct then
         (false, "exceeds_single_position_limit")
       else if r.control.CurrentExposure + decision.SuggestedAmountUSD >
           r.config.AccountBalance * r.config.TotalExposurePct then
         (false, "exceeds_total_exposure_limit")
       else if r.control.DailyLoss ≥ r.config.DailyLossLimit then
         (false, "daily_loss_limit_reached")
       else (true, "")) ∧
    (r.control.TradingHalted = true → (CanExecute r decision).2.1 = false) ∧
    (r.config.AccountBalance = 10000 → r.config.SinglePositionPct = 1 / 100 →
      decision.SuggestedAmountUSD = 200 → r.control.TradingHalted = false →
      (CanExecute r decision).2 = (false, "exceeds_single_position_limit")) := by
  refine ⟨?_, ?_, ?_, ?_⟩
  · unfold CanExecute firstApplicable canExecuteChecks
    simp only []
    by_cases h1 : r.control.TradingHalted = true
    · simp [h1, List.find?]
    · have e1 : r.control.TradingHalted = false := by simpa using h1
      by_cases h2 : decision.SuggestedAmountUSD >
          r.config.AccountBalance * r.config.SinglePositionPct
      · simp [e1, List.find?, decide_eq_true h2, if_pos h2]
      · by_cases h3 : r.control.CurrentExposure + decision.SuggestedAmountUSD >
            r.config.AccountBalance * r.config.TotalExposurePct
        · simp [e1, List.find?, decide_eq_false h2, decide_eq_true h3, if_neg h2, if_pos h3]
        · by_cases h4 : r.control.DailyLoss ≥ r.config.DailyLossLimit
          · simp [e1, List.find?, decide_eq_false h2, decide_eq_false h3, decide_eq_true h4,
              if_neg h2, if_neg h3, if_pos h4]
          · simp [e1, List.find?, decide_eq_false h2, decide_eq_false h3, decide_eq_false h4,
              if_neg h2, if_neg h3, if_neg h4]
  · unfold CanExecute
    simp only []
    split_ifs <;> rfl
  · intro h
    rw [CanExecute_halted r decision h]
  · intro hb hp ha hh
    unfold CanExecute
    have hgt : decision.SuggestedAmountUSD >
        r.config.AccountBalance * r.config.SinglePositionPct := by
      rw [hb, hp, ha]; norm_num
    simp [hh, hgt]

/-- C4 at the default configuration, a running risk manager and a decision
that suggests 200 USD. -/
theorem canExecute_first_applicable_witness :
    (CanExecute (riskWith 0 0 false) (decisionOf 200)).2 =
      (false, "exceeds_single_position_limit") :=
  (canExecute_first_applicable (riskWith 0 0 false) (decisionOf 200)).2.2.2 rfl rfl rfl rfl

/-- C5: from a halted risk manager, after any finite sequence of calls that
contains no `ResumeTrading`, trading is still halted and every `CanExecute`
call of the sequence returned (false, trading_halted). -/
theorem halted_until_resumed (r : RiskManagerAgent) (ops : List RiskOp)
    (hhalted : r.control.TradingHalted = true)
    (hops : ∀ op ∈ ops, op ≠ RiskOp.resumeTrading) :
    (runOps r ops).control.TradingHalted = true ∧
    ∀ a ∈ canExecuteAnswers r ops, a = (false, "trading_halted") :=
  runOps_keeps_halted ops r hhalted hops

/-- C5 at a halted risk manager and a sequence that calls every method but
`ResumeTrading`. -/
theorem halted_until_resumed_witness :
    (runOps (riskWith 0 600 true) haltedRun).control.TradingHalted = true ∧
    ∀ a ∈ canExecuteAnswers (riskWith 0 600 true) haltedRun, a = (false, "trading_halted") :=
  halted_until_resumed (riskWith 0 600 true) haltedRun rfl
    (by simp [haltedRun])

/-- C6: whenever `CanExecute` returns (false, daily_loss_limit_reached), the
risk manager right after the call has its circuit breaker set. -/
theorem canExecute_daily_loss_halts (r : RiskManagerAgent) (decision : StrategyDecision)
    (h : (CanExecute r decision).2 = (false, "daily_loss_limit_reached")) :
    (CanExecute r decision).1.control.TradingHalted = true := by
  unfold CanExecute at h ⊢
  simp only [] at h ⊢
  split_ifs at h ⊢ <;> simp_all [haltTrading]

/-- C6 at a running risk manager whose daily loss has passed the limit. -/
theorem canExecute_daily_loss_halts_witness :
    (CanExecute (riskWith 0 600 false) (decisionOf 100)).2 =
      (false, "daily_loss_limit_reached") ∧
    (CanExecute (riskWith 0 600 false) (decisionOf 100)).1.control.TradingHalted = true :=
  ⟨by norm_num [CanExecute, riskWith, decisionOf, defaultConfig],
    canExecute_daily_loss_halts (riskWith 0 600 false) (decisionOf 100)
      (by norm_num [CanExecute, riskWith, decisionOf, defaultConfig])⟩

/-- C7: `RecordExecution` with a confirmed result adds exactly the result's
amount to the current exposure and changes no other field; with any other
status the risk manager is unchanged. -/
theorem recordExecution_effect (r : RiskManagerAgent) (result : ExecutionResult) :
    (result.Status = "confirmed" →
      (RecordExecution r result).control.CurrentExposure =
        r.control.CurrentExposure + result.AmountUSD ∧
      (RecordExecution r result).control.SinglePositionPct = r.control.SinglePositionPct ∧
      (RecordExecution r result).control.TotalExposurePct = r.control.TotalExposurePct ∧
      (RecordExecution r result).control.DailyLossLimit = r.control.DailyLossLimit ∧
      (RecordExecution r result).control.DailyLoss = r.control.DailyLoss ∧
      (RecordExecution r result).control.TradingHalted = r.control.TradingHalted ∧
      (RecordExecution r result).control.LastResetTime = r.control.LastResetTime ∧
      (RecordExecution r result).config = r.config) ∧
    (result.Status ≠ "confirmed" → RecordExecution r result = r) := by
  constructor
  · intro h
    simp [RecordExecution, h]
  · intro h
    simp [RecordExecution, h]

/-- C7 at a confirmed result of 100 USD and at a failed one. -/
theorem recordExecution_effect_witness :
    (RecordExecution (riskWith 50 0 false) (resultOf "confirmed" 100)).control.CurrentExposure
      = 50 + 100 ∧
    RecordExecution (riskWith 50 0 false) (resultOf "failed" 100) = riskWith 50 0 false :=
  ⟨((recordExecution_effect (riskWith 50 0 false) (resultOf "confirmed" 100)).1 rfl).1,
    (recordExecution_effect (riskWith 50 0 false) (resultOf "failed" 100)).2
      (by simp [resultOf])⟩

/-- C8: for every risk manager and every amount, after `ReleaseExposure` the
current exposure is the maximum of 0 and the previous exposure minus the
amount, and the daily loss and the circuit breaker are unchanged. -/
theorem releaseExposure_effect (r : RiskManagerAgent) (amount : ℚ) :
    (ReleaseExposure r amount).control.CurrentExposure =
      max 0 (r.control.CurrentExposure - amount) ∧
    (ReleaseExposure r amount).control.DailyLoss = r.control.DailyLoss ∧
    (ReleaseExposure r amount).control.TradingHalted = r.control.TradingHalted := by
  unfold ReleaseExposure
  simp only []
  split_ifs with h
  · exact ⟨(max_eq_left (le_of_lt h)).symm, rfl, rfl⟩
  · exact ⟨(max_eq_right (not_lt.mp h)).symm, rfl, rfl⟩

/-- C9 at its failing input: `RecordExecution` with a confirmed result
of -50 USD takes the initial risk manager to an exposure below zero; the
method adds the amount without the test on the sign that `ReleaseExposure`
makes. -/
theorem exposure_negative_after_negative_execution :
    ¬ (0 ≤ (runOps (NewRiskManagerAgent defaultConfig 0)
        [RiskOp.recordExecution (resultOf "confirmed" (-50))]).control.CurrentExposure) := by
  norm_num [runOps, RiskOp.step, RecordExecution, NewRiskManagerAgent, resultOf]

/-- C10: in every state reached from the initial state by any sequence of
risk manager calls with any arguments, the daily loss is non-negative. -/
theorem dailyLoss_nonneg_reachable (cfg : Config) (now : Time) (ops : List RiskOp) :
    0 ≤ (runOps (NewRiskManagerAgent cfg now) ops).control.DailyLoss :=
  runOps_dailyLoss_nonneg ops (NewRiskManagerAgent cfg now) (le_refl 0)

/-! ## Risk manager: daily loss and daily reset -/

theorem saturated_gt_day (d : Int) :
    (if d > 2 ^ 63 - 1 then (2 ^ 63 - 1 : Int) else if d < -(2 ^ 63) then -(2 ^ 63) else d)
      > 24 * 3600 * 1000000000 ↔ d > 24 * 3600 * 1000000000 := by
  norm_num
  split_ifs with h1 h2
  · constructor <;> intro h <;> omega
  · constructor <;> intro h <;> omega
  · exact Iff.rfl

theorem timeSince_gt_day (now t : Time) :
    timeSince now t > twentyFourHours ↔ now - t > twentyFourHours :=
  saturated_gt_day (now - t)

theorem twentyFiveHours_later (t : Int) :
    t + 25 * 3600 * 1000000000 - t > twentyFourHours := by
  unfold twentyFourHours
  omega

/-- C11: `RecordProfit` with a negative amount adds its absolute value to the
daily loss and sets the circuit breaker when the new daily loss reaches the
limit (otherwise the flag is unchanged); with a non-negative amount the risk
manager is unchanged; the current exposure is never changed.  With a limit of
100 and a loss of 120 recorded on the initial state, trading is halted. -/
theorem recordProfit_effect (r : RiskManagerAgent) (tokenAddress : String) (pnl : ℚ) :
    (pnl < 0 →
      (RecordProfit r tokenAddress pnl).control.DailyLoss = r.control.DailyLoss + |pnl| ∧
      (r.control.DailyLoss + |pnl| ≥ r.config.DailyLossLimit →
        (RecordProfit r tokenAddress pnl).control.TradingHalted = true) ∧
      (¬ r.control.DailyLoss + |pnl| ≥ r.config.DailyLossLimit →
        (RecordProfit r tokenAddress pnl).control.TradingHalted = r.control.TradingHalted)) ∧
    (pnl ≥ 0 → RecordProfit r tokenAddress pnl = r) ∧
    (RecordProfit r tokenAddress pnl).control.CurrentExposure = r.control.CurrentExposure ∧
    (∀ (cfg : Config) (now : Time), cfg.DailyLossLimit = 100 →
      (RecordProfit (NewRiskManagerAgent cfg now) tokenAddress (-120)).control.TradingHalted
        = true) := by
  refine ⟨?_, ?_, ?_, ?_⟩
  · intro h
    have habs : |pnl| = -pnl := abs_of_neg h
    rw [habs]
    unfold RecordProfit haltTrading
    simp only [h, if_true]
    refine ⟨?_, ?_, ?_⟩
    · split_ifs <;> rfl
    · intro hge
      simp [hge]
    · intro hlt
      simp [hlt]
  · intro h
    unfold RecordProfit
    simp [not_lt.mpr h]
  · unfold RecordProfit haltTrading
    simp only []
    split_ifs <;> rfl
  · intro cfg now hlimit
    unfold RecordProfit haltTrading NewRiskManagerAgent
    norm_num [hlimit]

/-- C11 at the default configuration with a limit of 100: a loss of 120
recorded on the initial state halts trading. -/
theorem recordProfit_effect_witness :
    (RecordProfit (NewRiskManagerAgent lowLimitConfig 0) "0xabc" (-120)).control.TradingHalted
      = true :=
  (recordProfit_effect (NewRiskManagerAgent lowLimitConfig 0) "0xabc" (-120)).2.2.2
    lowLimitConfig 0 rfl

/-- C12: `ResetDaily` sets the daily loss to 0 and leaves the circuit breaker
and the current exposure unchanged; `CheckDailyReset` read at `now` performs
exactly that reset when more than 24 hours have passed since the last reset
(for instance 25 hours) and leaves the whole risk manager unchanged
otherwise. -/
theorem resetDaily_effect (r : RiskManagerAgent) (now resetNow : Time) :
    (ResetDaily r resetNow).control.DailyLoss = 0 ∧
    (ResetDaily r resetNow).control.TradingHalted = r.control.TradingHalted ∧
    (ResetDaily r resetNow).control.CurrentExposure = r.control.CurrentExposure ∧
    (now - r.control.LastResetTime > twentyFourHours →
      CheckDailyReset r now resetNow = ResetDaily r resetNow) ∧
    (¬ now - r.control.LastResetTime > twentyFourHours →
      CheckDailyReset r now resetNow = r) ∧
    CheckDailyReset r (r.control.LastResetTime + 25 * 3600 * 1000000000) resetNow =
      ResetDaily r resetNow := by
  refine ⟨rfl, rfl, rfl, ?_, ?_, ?_⟩
  · intro h
    unfold CheckDailyReset
    simp only []
    rw [if_pos ((timeSince_gt_day now r.control.LastResetTime).mpr h)]
  · intro h
    unfold CheckDailyReset
    simp only []
    rw [if_neg (fun hc => h ((timeSince_gt_day now r.control.LastResetTime).mp hc))]
  · unfold CheckDailyReset
    simp only []
    rw [if_pos]
    rw [timeSince_gt_day]
    exact twentyFiveHours_later r.control.LastResetTime

/-- C12 at a halted risk manager with a daily loss of 600, read 25 hours
after its last reset and read 1 hour after it. -/
theorem resetDaily_effect_witness :
    (CheckDailyReset (riskWith 70 600 true) (25 * 3600 * 1000000000)
        (25 * 3600 * 1000000000 + 1)).control.DailyLoss = 0 ∧
    (CheckDailyReset (riskWith 70 600 true) (25 * 3600 * 1000000000)
        (25 * 3600 * 1000000000 + 1)).control.TradingHalted = true ∧
    CheckDailyReset (riskWith 70 600 true) (3600 * 1000000000) (3600 * 1000000000 + 1) =
      riskWith 70 600 true :=
  ⟨by
      rw [(resetDaily_effect (riskWith 70 600 true) (25 * 3600 * 1000000000)
        (25 * 3600 * 1000000000 + 1)).2.2.2.1 (by decide)]
      rfl,
    by
      rw [(resetDaily_effect (riskWith 70 600 true) (25 * 3600 * 1000000000)
        (25 * 3600 * 1000000000 + 1)).2.2.2.1 (by decide)]
      rfl,
    (resetDaily_effect (riskWith 70 600 true) (3600 * 1000000000)
      (3600 * 1000000000 + 1)).2.2.2.2.1 (by decide)⟩

/-! ## Prefilter: lemmas and claims -/

theorem isBlacklistedToken_iff (lib : GoStrings) (cfg : Config) (address : String) :
    isBlacklistedToken lib cfg address = true ↔ onList lib address cfg.BlacklistedTokens := by
  simp [isBlacklistedToken, onList, List.any_eq_true]

theorem isBlacklistedCreator_iff (lib : GoStrings) (cfg : Config) (address : String) :
    isBlacklistedCreator lib cfg address = true ↔
      onList lib address cfg.BlacklistedCreators := by
  simp [isBlacklistedCreator, onList, List.any_eq_true]

theorem isWhitelistedToken_iff (lib : GoStrings) (cfg : Config) (address : String) :
    isWhitelistedToken lib cfg address = true ↔ onList lib address cfg.WhitelistedTokens := by
  simp [isWhitelistedToken, onList, List.any_eq_true]

theorem hasSuspiciousMetadata_iff (lib : GoStrings) (token : TokenFound) :
    hasSuspiciousMetadata lib token = true ↔ suspiciousMetadata lib token := by
  simp only [hasSuspiciousMetadata, suspiciousMetadata, List.any_eq_true, Bool.or_eq_true]

theorem Filter_not_listed (lib : GoStrings) (cfg : Config) (token : TokenFound)
    (hToken : ¬ onList lib token.TokenAddress cfg.BlacklistedTokens)
    (hCreator : ¬ onList lib token.CreatorAddress cfg.BlacklistedCreators) :
    (Filter lib cfg token).Dropped = false := by
  rw [← isBlacklistedToken_iff, Bool.not_eq_true] at hToken
  rw [← isBlacklistedCreator_iff, Bool.not_eq_true] at hCreator
  unfold Filter
  simp only [hToken, hCreator, Bool.false_eq_true, if_false]
  split_ifs <;> rfl

/-- C13: `Filter` drops a token if and only if its address is on the token
deny-list or its creator is on the creator deny-list; a dropped token carries
exactly the reason token_blacklisted when its address is deny-listed (whatever
the allow-list and the creator) and exactly creator_blacklisted otherwise,
whatever its liquidity and metadata; a deny-listed address with a native
reserve of 50000 is dropped with the single reason token_blacklisted. -/
theorem filter_dropped_iff_denied (lib : GoStrings) (cfg : Config) (token : TokenFound) :
    ((Filter lib cfg token).Dropped = true ↔
      onList lib token.TokenAddress cfg.BlacklistedTokens ∨
      onList lib token.CreatorAddress cfg.BlacklistedCreators) ∧
    (onList lib token.TokenAddress cfg.BlacklistedTokens →
      (Filter lib cfg token).Dropped = true ∧
      (Filter lib cfg token).Reasons = ["token_blacklisted"]) ∧
    (¬ onList lib token.TokenAddress cfg.BlacklistedTokens →
      onList lib token.CreatorAddress cfg.BlacklistedCreators →
      (Filter lib cfg token).Dropped = true ∧
      (Filter lib cfg token).Reasons = ["creator_blacklisted"]) ∧
    (onList lib token.TokenAddress cfg.BlacklistedTokens →
      token.InitialLiquidity.ReserveNative = 50000 →
      Filter lib cfg token =
        { Token := token, Priority := "medium", Dropped := true,
          Reasons := ["token_blacklisted"] }) := by
  have hA : onList lib token.TokenAddress cfg.BlacklistedTokens →
      Filter lib cfg token =
        { Token := token, Priority := "medium", Dropped := true,
          Reasons := ["token_blacklisted"] } := by
    intro h
    rw [← isBlacklistedToken_iff] at h
    unfold Filter
    simp [h]
  have hB : ¬ onList lib token.TokenAddress cfg.BlacklistedTokens →
      onList lib token.CreatorAddress cfg.BlacklistedCreators →
      Filter lib cfg token =
        { Token := token, Priority := "medium", Dropped := true,
          Reasons := ["creator_blacklisted"] } := by
    intro h1 h2
    rw [← isBlacklistedToken_iff, Bool.not_eq_true] at h1
    rw [← isBlacklistedCreator_iff] at h2
    unfold Filter
    simp [h1, h2]
  refine ⟨⟨?_, ?_⟩, ?_, ?_, ?_⟩
  · intro hd
    by_contra hnot
    push_neg at hnot
    rw [Filter_not_listed lib cfg token hnot.1 hnot.2] at hd
    exact Bool.false_ne_true hd
  · intro h
    by_cases ht : onList lib token.TokenAddress cfg.BlacklistedTokens
    · rw [hA ht]
    · rcases h with h | h
      · exact absurd h ht
      · rw [hB ht h]
  · intro h
    rw [hA h]
    exact ⟨rfl, rfl⟩
  · intro h1 h2
    rw [hB h1 h2]
    exact ⟨rfl, rfl⟩
  · intro h _
    exact hA h

/-- C13 at a deny-listed address that is also allow-listed, written in upper
case, with a native reserve of 50000. -/
theorem filter_dropped_iff_denied_witness :
    Filter asciiStrings denyConfig (tokenAt "0xBAD" "0xdef" 50000 []) =
      { Token := tokenAt "0xBAD" "0xdef" 50000 [], Priority := "medium", Dropped := true,
        Reasons := ["token_blacklisted"] } :=
  (filter_dropped_iff_denied asciiStrings denyConfig (tokenAt "0xBAD" "0xdef" 50000 [])).2.2.2
    ⟨"0xbad", by decide, by decide⟩ rfl

/-- C14: a token on neither deny-list whose address is on the allow-list is
kept with priority high and the single reason token_whitelisted, whatever its
native reserve and its metadata. -/
theorem filter_allow_listed (lib : GoStrings) (cfg : Config) (token : TokenFound)
    (hToken : ¬ onList lib token.TokenAddress cfg.BlacklistedTokens)
    (hCreator : ¬ onList lib token.CreatorAddress cfg.BlacklistedCreators)
    (hAllow : onList lib token.TokenAddress cfg.WhitelistedTokens) :
    Filter lib cfg token =
      { Token := token, Priority := "high", Dropped := false,
        Reasons := ["token_whitelisted"] } := by
  rw [← isBlacklistedToken_iff, Bool.not_eq_true] at hToken
  rw [← isBlacklistedCreator_iff, Bool.not_eq_true] at hCreator
  rw [← isWhitelistedToken_iff] at hAllow
  unfold Filter
  simp [hToken, hCreator, hAllow]

/-- C14 at an allow-listed token with a native reserve below the minimum and
suspicious metadata. -/
theorem filter_allow_listed_witness :
    Filter asciiStrings denyConfig (tokenAt "0xGOOD" "0xdef" 10 [("name", "RugPull")]) =
      { Token := tokenAt "0xGOOD" "0xdef" 10 [("name", "RugPull")], Priority := "high",
        Dropped := false, Reasons := ["token_whitelisted"] } :=
  filter_allow_listed asciiStrings denyConfig (tokenAt "0xGOOD" "0xdef" 10 [("name", "RugPull")])
    (by unfold onList; decide) (by unfold onList; decide) (by unfold onList; decide)

/-- C15: a token on no deny-list and not on the allow-list is kept; its
reasons are those of low_initial_liquidity, suspicious_metadata and
high_initial_liquidity, in that order, whose conditions hold (native reserve
below the minimum; some metadata key or value containing a suspicious word
after lower-casing; native reserve above 100000); its priority is high when
the native reserve exceeds 100000, otherwise low when one of the first two
conditions holds, otherwise medium with no reasons. -/
theorem filter_unlisted (lib : GoStrings) (cfg : Config) (token : TokenFound)
    (hToken : ¬ onList lib token.TokenAddress cfg.BlacklistedTokens)
    (hCreator : ¬ onList lib token.CreatorAddress cfg.BlacklistedCreators)
    (hAllow : ¬ onList lib token.TokenAddress cfg.WhitelistedTokens) :
    (hasSuspiciousMetadata lib token = true ↔ suspiciousMetadata lib token) ∧
    (Filter lib cfg token).Dropped = false ∧
    (Filter lib cfg token).Reasons =
      tagsOfHolding
        [ (decide (token.InitialLiquidity.ReserveNative < cfg.MinLiquidity),
            "low_initial_liquidity"),
          (hasSuspiciousMetadata lib token, "suspicious_metadata"),
          (decide (token.InitialLiquidity.ReserveNative > 100000),
            "high_initial_liquidity") ] ∧
    (Filter lib cfg token).Priority =
      (if token.InitialLiquidity.ReserveNative > 100000 then "high"
       else if token.InitialLiquidity.ReserveNative < cfg.MinLiquidity ∨
           hasSuspiciousMetadata lib token = true then "low"
       else "medium") ∧
    ((Filter lib cfg token).Priority = "medium" → (Filter lib cfg token).Reasons = []) := by
  have hD := Filter_not_listed lib cfg token hToken hCreator
  rw [← isBlacklistedToken_iff, Bool.not_eq_true] at hToken
  rw [← isBlacklistedCreator_iff, Bool.not_eq_true] at hCreator
  rw [← isWhitelistedToken_iff, Bool.not_eq_true] at hAllow
  refine ⟨hasSuspiciousMetadata_iff lib token, hD, ?_⟩
  unfold Filter tagsOfHolding
  simp only [hToken, hCreator, hAllow, Bool.false_eq_true, if_false]
  by_cases h1 : token.InitialLiquidity.ReserveNative < cfg.MinLiquidity <;>
    by_cases h2 : hasSuspiciousMetadata lib token = true <;>
    by_cases h3 : token.InitialLiquidity.ReserveNative > 100000 <;>
    simp [h1, h2, h3]

/-- C15 at an unlisted token with a native reserve below the minimum and
suspicious metadata. -/
theorem filter_unlisted_witness :
    (Filter asciiStrings denyConfig (tokenAt "0xabc" "0xdef" 10 [("name", "RugPull")])).Reasons
      = ["low_initial_liquidity", "suspicious_metadata"] ∧
    (Filter asciiStrings denyConfig (tokenAt "0xabc" "0xdef" 10 [("name", "RugPull")])).Priority
      = "low" :=
  ⟨by
      rw [(filter_unlisted asciiStrings denyConfig
        (tokenAt "0xabc" "0xdef" 10 [("name", "RugPull")])
        (by unfold onList; decide) (by unfold onList; decide)
        (by unfold onList; decide)).2.2.1]
      have hs : hasSuspiciousMetadata asciiStrings
          (tokenAt "0xabc" "0xdef" 10 [("name", "RugPull")]) = true := by decide
      rw [hs]
      norm_num [tagsOfHolding, tokenAt, denyConfig, defaultConfig],
    by
      have hs : hasSuspiciousMetadata asciiStrings
          (tokenAt "0xabc" "0xdef" 10 [("name", "RugPull")]) = true := by decide
      unfold Filter
      have h1 : isBlacklistedToken asciiStrings denyConfig
          (tokenAt "0xabc" "0xdef" 10 [("name", "RugPull")]).TokenAddress = false := by decide
      have h2 : isBlacklistedCreator asciiStrings denyConfig
          (tokenAt "0xabc" "0xdef" 10 [("name", "RugPull")]).CreatorAddress = false := by decide
      have h3 : isWhitelistedToken asciiStrings denyConfig
          (tokenAt "0xabc" "0xdef" 10 [("name", "RugPull")]).TokenAddress = false := by decide
      simp only [h1, h2, h3, hs]
      norm_num [tokenAt, denyConfig, defaultConfig]⟩

/-! ## Safety evaluator: lemmas and claims -/

theorem ite_add_weight (c : Prop) [Decidable c] (x w : ℚ) :
    (if c then x + w else x) = x + (if c then w else 0) := by
  split_ifs <;> simp

theorem honeypot_uncapped (report : SafetyReport) :
    calculateHoneypotScore report =
      (if sumOfHolding (honeypotWeights report) > 1 then 1
       else sumOfHolding (honeypotWeights report)) := by
  have hsum : sumOfHolding (honeypotWeights report) =
      (if (!report.CanSell) = true then (5 / 10 : ℚ) else 0) +
      (if (!report.CanBuy) = true then (3 / 10 : ℚ) else 0) +
      (if report.SimulatedSell.Slippage > 10 / 100 then (2 / 10 : ℚ) else 0) +
      (if (!report.OwnerControls.Renounced) = true then (1 / 10 : ℚ) else 0) +
      (if report.OwnerControls.HasBlacklist = true then (15 / 100 : ℚ) else 0) +
      (if report.OwnerControls.HasTransferHook = true then (1 / 10 : ℚ) else 0) +
      (if report.OwnerControls.TaxFee > 15 / 100 then (1 / 10 : ℚ) else 0) +
      (if (!report.LiquidityLocked) = true then (5 / 100 : ℚ) else 0) := by
    simp only [sumOfHolding, honeypotWeights, List.map_cons, List.map_nil, List.sum_cons,
      List.sum_nil, decide_eq_true_eq]
    norm_num
    ring
  unfold calculateHoneypotScore
  simp only [ite_add_weight, zero_add]
  rw [hsum]

theorem sumOfHolding_tradable_lt_one (report : SafetyReport)
    (hSell : report.CanSell = true) (hBuy : report.CanBuy = true) :
    sumOfHolding (honeypotWeights report) < 1 := by
  simp only [sumOfHolding, honeypotWeights, List.map_cons, List.map_nil, List.sum_cons,
    List.sum_nil, hSell, hBuy, Bool.not_true, Bool.false_eq_true, if_false]
  split_ifs <;> norm_num

/-- C17 as stated fails: the score of this report is the one computed from its
own fields, it equals 1, and the report has no reason at all. -/
theorem honeypot_one_without_reason :
    silentHoneypot.HoneypotScore = calculateHoneypotScore silentHoneypot ∧
    silentHoneypot.HoneypotScore = 1 ∧
    silentHoneypot.Reasons = [] := by
  refine ⟨?_, rfl, rfl⟩
  norm_num [calculateHoneypotScore, silentHoneypot, cleanSafety]

/-- C17, amended: for every safety report whose score is the value computed
by `calculateHoneypotScore` from its own fields, a score of 1 implies that
the report cannot be sold or cannot be bought. -/
theorem honeypot_one_cannot_trade (report : SafetyReport)
    (hScore : report.HoneypotScore = calculateHoneypotScore report)
    (hOne : report.HoneypotScore = 1) :
    report.CanSell = false ∨ report.CanBuy = false := by
  by_contra hne
  push_neg at hne
  have hSell : report.CanSell = true := by simpa using hne.1
  have hBuy : report.CanBuy = true := by simpa using hne.2
  have hlt := sumOfHolding_tradable_lt_one report hSell hBuy
  rw [hScore, honeypot_uncapped] at hOne
  rw [if_neg (not_lt.mpr (le_of_lt hlt))] at hOne
  linarith

/-- C17, amended, at the report that can be neither bought nor sold. -/
theorem honeypot_one_cannot_trade_witness :
    silentHoneypot.CanSell = false ∨ silentHoneypot.CanBuy = false :=
  honeypot_one_cannot_trade silentHoneypot
    (by norm_num [calculateHoneypotScore, silentHoneypot, cleanSafety]) rfl

/-! ## Strategy evaluator: the boundary scenario, confidence -/

theorem stable_ne_rising : ¬ "stable" = "rising" := by decide

theorem stable_ne_falling : ¬ "stable" = "falling" := by decide

theorem medium_ne_high : ¬ "medium" = "high" := by decide

theorem medium_ne_low : ¬ "medium" = "low" := by decide

theorem Evaluate_SuggestedAmountUSD (cfg : Config) (now : Time) (safety : SafetyReport)
    (offchain : OffChainMetrics) (token : PreFilteredToken) :
    (Evaluate cfg now safety offchain token).SuggestedAmountUSD =
      mathRound
        ((if cfg.AccountBalance * cfg.SinglePositionPct *
              (if (Evaluate cfg now safety offchain token).Confidence = "high" then 1
               else if (Evaluate cfg now safety offchain token).Confidence = "medium"
               then 7 / 10
               else if (Evaluate cfg now safety offchain token).Confidence = "low"
               then 4 / 10
               else 1) < 100 then 100
          else cfg.AccountBalance * cfg.SinglePositionPct *
              (if (Evaluate cfg now safety offchain token).Confidence = "high" then 1
               else if (Evaluate cfg now safety offchain token).Confidence = "medium"
               then 7 / 10
               else if (Evaluate cfg now safety offchain token).Confidence = "low"
               then 4 / 10
               else 1)) * 100) / 100 := rfl

theorem Evaluate_StopLossPct (cfg : Config) (now : Time) (safety : SafetyReport)
    (offchain : OffChainMetrics) (token : PreFilteredToken) :
    (Evaluate cfg now safety offchain token).StopLossPct =
      (if (Evaluate cfg now safety offchain token).Confidence = "high" then 20 / 100
       else if (Evaluate cfg now safety offchain token).Confidence = "medium" then 15 / 100
       else if (Evaluate cfg now safety offchain token).Confidence = "low" then 10 / 100
       else 15 / 100) := rfl

theorem Evaluate_TimeHorizonMinutes (cfg : Config) (now : Time) (safety : SafetyReport)
    (offchain : OffChainMetrics) (token : PreFilteredToken) :
    (Evaluate cfg now safety offchain token).TimeHorizonMinutes =
      (if (Evaluate cfg now safety offchain token).Confidence = "high" then 60
       else if (Evaluate cfg now safety offchain token).Confidence = "medium" then 30
       else 15) := rfl

theorem mathRound_tenThousand : mathRound 10000 = 10000 := by
  unfold mathRound
  rw [if_neg (by norm_num)]
  have h : ⌊(10000 : ℚ) + 1 / 2⌋ = 10000 := by
    rw [Int.floor_eq_iff]
    constructor <;> norm_num
  rw [h]
  norm_num

theorem totalMentions_twitter : totalMentions [("twitter", 80)] = 80 := by
  simp [totalMentions, wrapInt64]

/-- C19: the boundary scenario.  With a threshold of 0.80, a minimum volume of
10000, a honeypot bound of 0.20, a balance of 10000, a single position share
of 0.01 and automatic execution, a tradable token with honeypot score 0.05,
locked liquidity, renounced owner, no blacklist, no transfer hook, a volume of
25000, 80 mentions on twitter, rising velocity, high priority and reserves of
20000 each gets win probability 1, confidence high, action buy, a suggested
amount of 100, a stop loss of 0.20 and a time horizon of 60 minutes. -/
theorem boundary_scenario (cfg : Config) (now : Time) (safety : SafetyReport)
    (offchain : OffChainMetrics) (token : PreFilteredToken)
    (hThr : cfg.WinProbabilityThreshold = 80 / 100)
    (hVol : cfg.MinVolumeDEX = 10000)
    (hMax : cfg.MaxHoneypotScore = 20 / 100)
    (hBal : cfg.AccountBalance = 10000)
    (hPct : cfg.SinglePositionPct = 1 / 100)
    (hAuto : cfg.AutoExecute = true)
    (hBuy : safety.CanBuy = true)
    (hSell : safety.CanSell = true)
    (hScore : safety.HoneypotScore = 5 / 100)
    (hLocked : safety.LiquidityLocked = true)
    (hRen : safety.OwnerControls.Renounced = true)
    (hBlack : safety.OwnerControls.HasBlacklist = false)
    (hHook : safety.OwnerControls.HasTransferHook = false)
    (hDex : offchain.Volume24hDEX = 25000)
    (hMentions : offchain.SocialMentions = [("twitter", 80)])
    (hVelocity : offchain.Velocity = "rising")
    (hPriority : token.Priority = "high")
    (hNative : token.Token.InitialLiquidity.ReserveNative = 20000)
    (hToken : token.Token.InitialLiquidity.ReserveToken = 20000) :
    (Evaluate cfg now safety offchain token).WinProbability = 1 ∧
    (Evaluate cfg now safety offchain token).Confidence = "high" ∧
    (Evaluate cfg now safety offchain token).Action = "buy" ∧
    (Evaluate cfg now safety offchain token).SuggestedAmountUSD = 100 ∧
    (Evaluate cfg now safety offchain token).StopLossPct = 20 / 100 ∧
    (Evaluate cfg now safety offchain token).TimeHorizonMinutes = 60 := by
  have hwp : calculateWinProbability cfg safety offchain token = 1 := by
    unfold calculateWinProbability clampProbability winProbabilityScore
    simp only [hBuy, hSell, hScore, hMax, hLocked, hRen, hBlack, hHook, hDex, hVol,
      hMentions, hVelocity, hPriority, hNative, hToken, totalMentions_twitter]
    norm_num [liquidityImbalance]
  have hconf : (Evaluate cfg now safety offchain token).Confidence = "high" := by
    rw [Evaluate_Confidence, hwp]
    unfold determineConfidence
    rw [hScore, hDex, hVol]
    norm_num
  refine ⟨by rw [Evaluate_WinProbability, hwp], hconf, ?_, ?_, ?_, ?_⟩
  · have hne : ¬ "high" = "low" := by decide
    rw [Evaluate_Action, ← Evaluate_Confidence cfg now, hconf, hwp, hThr, hAuto]
    norm_num [hne]
  · rw [Evaluate_SuggestedAmountUSD, hconf, hBal, hPct]
    norm_num
    rw [mathRound_tenThousand]
    norm_num
  · rw [Evaluate_StopLossPct, hconf]
    simp
  · rw [Evaluate_TimeHorizonMinutes, hconf]
    simp

/-- C19 at the configuration and the input of the scenario. -/
theorem boundary_scenario_witness :
    (Evaluate scenarioConfig 7 cleanSafety sampleMetrics sampleToken).WinProbability = 1 ∧
    (Evaluate scenarioConfig 7 cleanSafety sampleMetrics sampleToken).Confidence = "high" ∧
    (Evaluate scenarioConfig 7 cleanSafety sampleMetrics sampleToken).Action = "buy" ∧
    (Evaluate scenarioConfig 7 cleanSafety sampleMetrics sampleToken).SuggestedAmountUSD = 100 ∧
    (Evaluate scenarioConfig 7 cleanSafety sampleMetrics sampleToken).StopLossPct = 20 / 100 ∧
    (Evaluate scenarioConfig 7 cleanSafety sampleMetrics sampleToken).TimeHorizonMinutes = 60 :=
  boundary_scenario scenarioConfig 7 cleanSafety sampleMetrics sampleToken
    (by norm_num [scenarioConfig, defaultConfig]) rfl (by norm_num [scenarioConfig, defaultConfig])
    rfl (by norm_num [scenarioConfig, defaultConfig]) rfl rfl rfl
    (by norm_num [cleanSafety]) rfl rfl rfl rfl rfl rfl rfl rfl rfl rfl

/-- C20: for every decision returned by `Evaluate`, the confidence is high
exactly when the win probability is at least 0.85, the honeypot score is below
0.10 and the DEX volume exceeds the minimum; otherwise it is medium exactly
when the win probability is at least 0.70 and the honeypot score is below
0.20; otherwise it is low. -/
theorem confidence_buckets (cfg : Config) (now : Time) (safety : SafetyReport)
    (offchain : OffChainMetrics) (token : PreFilteredToken) :
    ((Evaluate cfg now safety offchain token).Confidence = "high" ↔
      ((Evaluate cfg now safety offchain token).WinProbability ≥ 85 / 100 ∧
        safety.HoneypotScore < 10 / 100 ∧ offchain.Volume24hDEX > cfg.MinVolumeDEX)) ∧
    (¬ ((Evaluate cfg now safety offchain token).WinProbability ≥ 85 / 100 ∧
        safety.HoneypotScore < 10 / 100 ∧ offchain.Volume24hDEX > cfg.MinVolumeDEX) →
      ((Evaluate cfg now safety offchain token).Confidence = "medium" ↔
        ((Evaluate cfg now safety offchain token).WinProbability ≥ 70 / 100 ∧
          safety.HoneypotScore < 20 / 100))) ∧
    (¬ ((Evaluate cfg now safety offchain token).WinProbability ≥ 85 / 100 ∧
        safety.HoneypotScore < 10 / 100 ∧ offchain.Volume24hDEX > cfg.MinVolumeDEX) →
      ¬ ((Evaluate cfg now safety offchain token).WinProbability ≥ 70 / 100 ∧
        safety.HoneypotScore < 20 / 100) →
      (Evaluate cfg now safety offchain token).Confidence = "low") := by
  rw [Evaluate_Confidence, Evaluate_WinProbability]
  unfold determineConfidence
  have e1 : (10 : ℚ) / 100 = 1 / 10 := by norm_num
  have e2 : (20 : ℚ) / 100 = 2 / 10 := by norm_num
  rw [e1, e2]
  by_cases hHigh : calculateWinProbability cfg safety offchain token ≥ 85 / 100 ∧
      safety.HoneypotScore < 1 / 10 ∧ offchain.Volume24hDEX > cfg.MinVolumeDEX
  · rw [if_pos hHigh]
    exact ⟨⟨fun _ => hHigh, fun _ => rfl⟩, fun h => absurd hHigh h, fun h => absurd hHigh h⟩
  · rw [if_neg hHigh]
    by_cases hMed : calculateWinProbability cfg safety offchain token ≥ 70 / 100 ∧
        safety.HoneypotScore < 2 / 10
    · rw [if_pos hMed]
      exact ⟨⟨fun h => absurd h (by decide), fun h => absurd h hHigh⟩,
        fun _ => ⟨fun _ => hMed, fun _ => rfl⟩, fun _ h => absurd hMed h⟩
    · rw [if_neg hMed]
      exact ⟨⟨fun h => absurd h (by decide), fun h => absurd h hHigh⟩,
        fun _ => ⟨fun h => absurd h (by decide), fun h => absurd h hMed⟩, fun _ _ => rfl⟩

/-- C20 at the clean token under the default configuration: the confidence
is high. -/
theorem confidence_buckets_witness :
    (Evaluate defaultConfig 7 cleanSafety sampleMetrics sampleToken).Confidence = "high" :=
  (confidence_buckets defaultConfig 7 cleanSafety sampleMetrics sampleToken).1.mpr
    ⟨by
        rw [Evaluate_WinProbability]
        norm_num [calculateWinProbability, clampProbability, winProbabilityScore,
          cleanSafety, sampleMetrics, sampleToken, defaultConfig, totalMentions_twitter,
          liquidityImbalance],
      by norm_num [cleanSafety], by norm_num [sampleMetrics, defaultConfig]⟩

/-! ## Strategy evaluator: action and position size -/

theorem Evaluate_Confidence_cases (cfg : Config) (now : Time) (safety : SafetyReport)
    (offchain : OffChainMetrics) (token : PreFilteredToken) :
    (Evaluate cfg now safety offchain token).Confidence = "high" ∨
    (Evaluate cfg now safety offchain token).Confidence = "medium" ∨
    (Evaluate cfg now safety offchain token).Confidence = "low" := by
  rw [Evaluate_Confidence]
  unfold determineConfidence
  split_ifs <;> simp

/-- C21: for every decision returned by `Evaluate`, when the win probability
reaches the threshold and the confidence is not low the action is buy under
automatic execution and list without it; otherwise the action is monitor when
the win probability is at least 0.60 and skip when it is not.  The action buy
never occurs without automatic execution and the action list never occurs
with it. -/
theorem action_of_decision (cfg : Config) (now : Time) (safety : SafetyReport)
    (offchain : OffChainMetrics) (token : PreFilteredToken) :
    (((Evaluate cfg now safety offchain token).WinProbability ≥ cfg.WinProbabilityThreshold ∧
        (Evaluate cfg now safety offchain token).Confidence ≠ "low") →
      (cfg.AutoExecute = true → (Evaluate cfg now safety offchain token).Action = "buy") ∧
      (cfg.AutoExecute = false → (Evaluate cfg now safety offchain token).Action = "list")) ∧
    (¬ ((Evaluate cfg now safety offchain token).WinProbability ≥ cfg.WinProbabilityThreshold ∧
        (Evaluate cfg now safety offchain token).Confidence ≠ "low") →
      ((Evaluate cfg now safety offchain token).WinProbability ≥ 60 / 100 →
        (Evaluate cfg now safety offchain token).Action = "monitor") ∧
      (¬ (Evaluate cfg now safety offchain token).WinProbability ≥ 60 / 100 →
        (Evaluate cfg now safety offchain token).Action = "skip")) ∧
    (cfg.AutoExecute = false → (Evaluate cfg now safety offchain token).Action ≠ "buy") ∧
    (cfg.AutoExecute = true → (Evaluate cfg now safety offchain token).Action ≠ "list") := by
  rw [Evaluate_Action, Evaluate_WinProbability, Evaluate_Confidence]
  by_cases hTop : calculateWinProbability cfg safety offchain token ≥
      cfg.WinProbabilityThreshold ∧
      determineConfidence cfg safety offchain
        (calculateWinProbability cfg safety offchain token) ≠ "low"
  · rw [if_pos hTop]
    refine ⟨fun _ => ⟨fun h => by simp [h], fun h => by simp [h]⟩,
      fun h => absurd hTop h, fun h => by simp [h], fun h => by simp [h]⟩
  · rw [if_neg hTop]
    by_cases hMon : calculateWinProbability cfg safety offchain token ≥ 60 / 100
    · rw [if_pos hMon]
      exact ⟨fun h => absurd h hTop, fun _ => ⟨fun _ => rfl, fun h => absurd hMon h⟩,
        fun _ => by decide, fun _ => by decide⟩
    · rw [if_neg hMon]
      exact ⟨fun h => absurd h hTop, fun _ => ⟨fun h => absurd h hMon, fun _ => rfl⟩,
        fun _ => by decide, fun _ => by decide⟩

/-- C21 at the clean token: the action is list under the default
configuration, which does not execute automatically. -/
theorem action_of_decision_witness :
    (Evaluate defaultConfig 7 cleanSafety sampleMetrics sampleToken).Action = "list" :=
  ((action_of_decision defaultConfig 7 cleanSafety sampleMetrics sampleToken).1
    ⟨by
        rw [Evaluate_WinProbability]
        norm_num [calculateWinProbability, clampProbability, winProbabilityScore,
          cleanSafety, sampleMetrics, sampleToken, defaultConfig, totalMentions_twitter,
          liquidityImbalance],
      by
        have hc : (Evaluate defaultConfig 7 cleanSafety sampleMetrics sampleToken).Confidence
            = "high" := by
          rw [Evaluate_Confidence]
          norm_num [determineConfidence, calculateWinProbability, clampProbability,
            winProbabilityScore, cleanSafety, sampleMetrics, sampleToken, defaultConfig,
            totalMentions_twitter, liquidityImbalance]
        rw [hc]
        decide⟩).2 rfl

theorem Evaluate_SuggestedAmountUSD_max (cfg : Config) (now : Time) (safety : SafetyReport)
    (offchain : OffChainMetrics) (token : PreFilteredToken) :
    (Evaluate cfg now safety offchain token).SuggestedAmountUSD =
      mathRound
        (max 100 (cfg.AccountBalance * cfg.SinglePositionPct *
          confidenceMultiplier (Evaluate cfg now safety offchain token).Confidence) * 100)
        / 100 := by
  rw [Evaluate_SuggestedAmountUSD]
  have hm : (if (Evaluate cfg now safety offchain token).Confidence = "high" then (1 : ℚ)
      else if (Evaluate cfg now safety offchain token).Confidence = "medium" then 7 / 10
      else if (Evaluate cfg now safety offchain token).Confidence = "low" then 4 / 10
      else 1) = confidenceMultiplier (Evaluate cfg now safety offchain token).Confidence := by
    unfold confidenceMultiplier
    rcases Evaluate_Confidence_cases cfg now safety offchain token with h | h | h <;>
      rw [h] <;> simp
  rw [hm]
  by_cases hlt : cfg.AccountBalance * cfg.SinglePositionPct *
      confidenceMultiplier (Evaluate cfg now safety offchain token).Confidence < 100
  · rw [if_pos hlt, max_eq_left (le_of_lt hlt)]
  · rw [if_neg hlt, max_eq_right (not_lt.mp hlt)]

/-! ## Off-chain gatherer: velocity -/

theorem wrapInt64_of_range (x : Int) (hlo : -(2 ^ 63) ≤ x) (hhi : x < 2 ^ 63) :
    wrapInt64 x = x := by
  unfold wrapInt64
  have e63 : (2 : Int) ^ 63 = 9223372036854775808 := by norm_num
  have e64 : (2 : Int) ^ 64 = 18446744073709551616 := by norm_num
  rw [e63] at hlo hhi ⊢
  rw [e64]
  omega

theorem foldl_wrap_exact (mentions : List (String × Int)) :
    ∀ acc : Int, 0 ≤ acc → (∀ kv ∈ mentions, 0 ≤ kv.2) →
      acc + (mentions.map (fun kv => kv.2)).sum < 2 ^ 63 →
      mentions.foldl (fun acc kv => wrapInt64 (acc + kv.2)) acc =
        acc + (mentions.map (fun kv => kv.2)).sum := by
  induction mentions with
  | nil => intro acc _ _ _; simp
  | cons kv rest ih =>
    intro acc hacc hnn hsum
    have hkv : 0 ≤ kv.2 := hnn kv (List.mem_cons_self _ _)
    have hrest : ∀ e ∈ rest, 0 ≤ e.2 := fun e he => hnn e (List.mem_cons_of_mem _ he)
    have hrs : 0 ≤ (rest.map (fun e => e.2)).sum := by
      apply List.sum_nonneg
      intro x hx
      obtain ⟨e, he, rfl⟩ := List.mem_map.mp hx
      exact hrest e he
    simp only [List.map_cons, List.sum_cons] at hsum
    have hw : wrapInt64 (acc + kv.2) = acc + kv.2 :=
      wrapInt64_of_range _ (by have : (0 : Int) ≤ 2 ^ 63 := by norm_num
                               linarith) (by linarith)
    simp only [List.foldl_cons, List.map_cons, List.sum_cons, hw]
    rw [ih (acc + kv.2) (by linarith) hrest (by linarith)]
    ring

theorem totalMentions_exact (mentions : List (String × Int))
    (hnn : ∀ kv ∈ mentions, 0 ≤ kv.2)
    (hsum : (mentions.map (fun kv => kv.2)).sum < 2 ^ 63) :
    totalMentions mentions = (mentions.map (fun kv => kv.2)).sum := by
  unfold totalMentions
  rw [foldl_wrap_exact mentions 0 (le_refl 0) hnn (by linarith)]
  ring

/-- C25: for every metrics record and configuration, `determineVelocity`
returns rising when the DEX volume plus the CEX volume exceeds twice the
minimum volume or the sum of all social mention counts exceeds 100; otherwise
stable when the two volumes exceed half the minimum volume; otherwise falling.
The sum of the counts is the 64-bit sum of the source, which is the exact sum
for non-negative counts whose sum fits in an `int64`. -/
theorem velocity_classes (cfg : Config) (metrics : OffChainMetrics) :
    ((metrics.Volume24hDEX + metrics.Volume24hCEX > 2 * cfg.MinVolumeDEX ∨
        totalMentions metrics.SocialMentions > 100) →
      determineVelocity cfg metrics = "rising") ∧
    (¬ (metrics.Volume24hDEX + metrics.Volume24hCEX > 2 * cfg.MinVolumeDEX ∨
        totalMentions metrics.SocialMentions > 100) →
      metrics.Volume24hDEX + metrics.Volume24hCEX > cfg.MinVolumeDEX / 2 →
      determineVelocity cfg metrics = "stable") ∧
    (¬ (metrics.Volume24hDEX + metrics.Volume24hCEX > 2 * cfg.MinVolumeDEX ∨
        totalMentions metrics.SocialMentions > 100) →
      ¬ metrics.Volume24hDEX + metrics.Volume24hCEX > cfg.MinVolumeDEX / 2 →
      determineVelocity cfg metrics = "falling") ∧
    ((∀ kv ∈ metrics.SocialMentions, 0 ≤ kv.2) →
      (metrics.SocialMentions.map (fun kv => kv.2)).sum < 2 ^ 63 →
      totalMentions metrics.SocialMentions =
        (metrics.SocialMentions.map (fun kv => kv.2)).sum) := by
  have hcomm : cfg.MinVolumeDEX * 2 = 2 * cfg.MinVolumeDEX := mul_comm _ _
  unfold determineVelocity
  simp only [hcomm]
  refine ⟨fun h => by rw [if_pos h], fun h1 h2 => by rw [if_neg h1, if_pos h2],
    fun h1 h2 => by rw [if_neg h1, if_neg h2],
    fun hnn hsum => totalMentions_exact _ hnn hsum⟩

/-- C25 at the sample metrics: 25000 exceeds twice the minimum of 10000. -/
theorem velocity_classes_witness : determineVelocity defaultConfig sampleMetrics = "rising" :=
  (velocity_classes defaultConfig sampleMetrics).1
    (Or.inl (by norm_num [sampleMetrics, defaultConfig]))

/-! ## Candidate listing: lemmas and claims -/

theorem mapLookup_mapStore_same {α : Type} (m : List (String × α)) (key : String)
    (value : α) : mapLookup (mapStore m key value) key = some value := by
  induction m with
  | nil => simp [mapStore, mapLookup]
  | cons entry rest ih =>
    obtain ⟨k, v⟩ := entry
    by_cases h : k = key
    · simp [mapStore, mapLookup, h]
    · simp [mapStore, mapLookup, h, ih]

theorem mapLookup_mapStore_other {α : Type} (m : List (String × α)) (key other : String)
    (value : α) (hne : other ≠ key) :
    mapLookup (mapStore m key value) other = mapLookup m other := by
  induction m with
  | nil => simp [mapStore, mapLookup, Ne.symm hne]
  | cons entry rest ih =>
    obtain ⟨k, v⟩ := entry
    by_cases h : k = key
    · have hko : ¬ k = other := fun e => hne (e ▸ h)
      simp [mapStore, mapLookup, h, Ne.symm hne]
    · by_cases h2 : k = other
      · subst h2
        simp [mapStore, mapLookup, h]
      · simp [mapStore, mapLookup, h, h2, ih]

theorem length_mapStore_new {α : Type} (m : List (String × α)) (key : String) (value : α)
    (hnew : mapLookup m key = none) : (mapStore m key value).length = m.length + 1 := by
  induction m with
  | nil => simp [mapStore]
  | cons entry rest ih =>
    obtain ⟨k, v⟩ := entry
    by_cases h : k = key
    · simp [mapLookup, h] at hnew
    · simp only [mapLookup, h, if_false] at hnew
      simp [mapStore, h, ih hnew]

theorem length_mapStore_old {α : Type} (m : List (String × α)) (key : String) (value : α)
    (hold : mapLookup m key ≠ none) : (mapStore m key value).length = m.length := by
  induction m with
  | nil => simp [mapLookup] at hold
  | cons entry rest ih =>
    obtain ⟨k, v⟩ := entry
    by_cases h : k = key
    · simp [mapStore, h]
    · simp only [mapLookup, h, if_false] at hold
      simp [mapStore, h, ih hold]

theorem AddCandidate_candidates (c : CandidateListingAgent) (now : Time) (token : TokenFound)
    (safety : SafetyReport) (offchain : OffChainMetrics) (decision : StrategyDecision) :
    (AddCandidate c now token safety offchain decision).1.candidates =
      mapStore c.candidates token.TokenAddress
        { Token := token, SafetyReport := safety, OffChainMetrics := offchain,
          StrategyDecision := decision, ListedAt := now, Status := "pending" } := by
  unfold AddCandidate
  simp only []
  split_ifs <;> rfl

/-- C26: for every listing (whatever its queue holds) and all arguments, after
`AddCandidate` the address of the token is registered with a pending candidate
made of exactly the given token, report, metrics and decision, whatever was
registered under it before; the candidate count grows by 1 when the address
was new and is unchanged otherwise; every other address keeps its
candidate. -/
theorem addCandidate_registers (c : CandidateListingAgent) (now : Time) (token : TokenFound)
    (safety : SafetyReport) (offchain : OffChainMetrics) (decision : StrategyDecision) :
    GetCandidate (AddCandidate c now token safety offchain decision).1 token.TokenAddress =
      some { Token := token, SafetyReport := safety, OffChainMetrics := offchain,
             StrategyDecision := decision, ListedAt := now, Status := "pending" } ∧
    (AddCandidate c now token safety offchain decision).2 =
      { Token := token, SafetyReport := safety, OffChainMetrics := offchain,
        StrategyDecision := decision, ListedAt := now, Status := "pending" } ∧
    (GetCandidate c token.TokenAddress = none →
      GetCandidateCount (AddCandidate c now token safety offchain decision).1 =
        GetCandidateCount c + 1) ∧
    (GetCandidate c token.TokenAddress ≠ none →
      GetCandidateCount (AddCandidate c now token safety offchain decision).1 =
        GetCandidateCount c) ∧
    (∀ other : String, other ≠ token.TokenAddress →
      GetCandidate (AddCandidate c now token safety offchain decision).1 other =
        GetCandidate c other) := by
  unfold GetCandidate GetCandidateCount
  rw [AddCandidate_candidates]
  refine ⟨mapLookup_mapStore_same _ _ _, rfl, ?_, ?_, ?_⟩
  · intro hnew
    rw [length_mapStore_new _ _ _ hnew]
    push_cast
    rfl
  · intro hold
    rw [length_mapStore_old _ _ _ hold]
  · intro other hne
    exact mapLookup_mapStore_other _ _ _ _ hne

/-- C26 at a listing that holds an executed candidate under the same
address: the count stays 1 and the candidate is pending again. -/
theorem addCandidate_registers_witness :
    GetCandidateCount
      (AddCandidate executedListing 9 (tokenAt "0xabc" "0xdef" 20000 []) cleanSafety
        sampleMetrics (decisionOf 100)).1 = GetCandidateCount executedListing :=
  (addCandidate_registers executedListing 9 (tokenAt "0xabc" "0xdef" 20000 []) cleanSafety
    sampleMetrics (decisionOf 100)).2.2.2.1 (by simp [GetCandidate, executedListing, mapLookup, tokenAt])

theorem storedStatus_AddCandidate_other (c : CandidateListingAgent) (now : Time)
    (token : TokenFound) (safety : SafetyReport) (offchain : OffChainMetrics)
    (decision : StrategyDecision) (address : String) (hne : token.TokenAddress ≠ address) :
    storedStatus (AddCandidate c now token safety offchain decision).1 address =
      storedStatus c address := by
  unfold storedStatus GetCandidate
  rw [AddCandidate_candidates, mapLookup_mapStore_other _ _ _ _ (Ne.symm hne)]

theorem storedStatus_UpdateStatus_other (c : CandidateListingAgent)
    (tokenAddress status address : String) (hne : tokenAddress ≠ address) :
    storedStatus (UpdateStatus c tokenAddress status) address = storedStatus c address := by
  unfold storedStatus GetCandidate UpdateStatus
  cases hl : mapLookup c.candidates tokenAddress with
  | none => rfl
  | some candidate =>
    simp only []
    rw [mapLookup_mapStore_other _ _ _ _ (Ne.symm hne)]

theorem storedStatus_UpdateStatus_same (c : CandidateListingAgent)
    (address status : String) (hreg : storedStatus c address ≠ none) :
    storedStatus (UpdateStatus c address status) address = some status := by
  unfold storedStatus GetCandidate UpdateStatus at *
  cases hl : mapLookup c.candidates address with
  | none => simp [hl] at hreg
  | some candidate =>
    simp only []
    rw [mapLookup_mapStore_same]
    rfl

theorem step_keeps_settled (c : CandidateListingAgent) (op : ListingOp) (address : String)
    (hset : ∃ st, storedStatus c address = some st ∧ st ≠ "pending")
    (hop : op.keepsSettled address) :
    ∃ st, storedStatus (op.step c) address = some st ∧ st ≠ "pending" := by
  obtain ⟨st, hst, hne⟩ := hset
  cases op with
  | addCandidate now token safety offchain decision =>
    exact ⟨st, by
      simp only [ListingOp.step]
      rw [storedStatus_AddCandidate_other c now token safety offchain decision address hop]
      exact hst, hne⟩
  | updateStatus tokenAddress status =>
    by_cases hsame : tokenAddress = address
    · subst hsame
      have hs : status ≠ "pending" := by
        rcases hop with h | h
        · exact absurd rfl h
        · exact h
      exact ⟨status, by
        simp only [ListingOp.step]
        exact storedStatus_UpdateStatus_same c tokenAddress status (by rw [hst]; simp), hs⟩
    · exact ⟨st, by
        simp only [ListingOp.step]
        rw [storedStatus_UpdateStatus_other c tokenAddress status address hsame]
        exact hst, hne⟩

theorem runListing_keeps_settled (ops : List ListingOp) (address : String) :
    ∀ c : CandidateListingAgent,
      (∃ st, storedStatus c address = some st ∧ st ≠ "pending") →
      (∀ op ∈ ops, op.keepsSettled address) →
      ∃ st, storedStatus (runListing c ops) address = some st ∧ st ≠ "pending" := by
  induction ops with
  | nil => intro c h _; simpa [runListing] using h
  | cons op ops ih =>
    intro c h hops
    simp only [runListing]
    exact ih (op.step c) (step_keeps_settled c op address h (hops op (List.mem_cons_self _ _)))
      (fun o ho => hops o (List.mem_cons_of_mem _ ho))

/-- C27 as stated fails: a candidate stored as executed is pending again
after the same address is added once more, and also after `UpdateStatus`
writes pending to it. -/
theorem status_returns_to_pending :
    storedStatus executedListing "0xabc" = some "executed" ∧
    storedStatus
      (runListing executedListing
        [ListingOp.addCandidate 9 (tokenAt "0xabc" "0xdef" 20000 []) cleanSafety sampleMetrics
          (decisionOf 100)]) "0xabc" = some "pending" ∧
    storedStatus
      (runListing executedListing [ListingOp.updateStatus "0xabc" "pending"]) "0xabc"
      = some "pending" := by
  refine ⟨?_, ?_, ?_⟩
  · simp [storedStatus, GetCandidate, executedListing, mapLookup, candidateOf]
  · simp only [runListing, ListingOp.step, storedStatus, GetCandidate]
    rw [AddCandidate_candidates]
    have ha : (tokenAt "0xabc" "0xdef" 20000 []).TokenAddress = "0xabc" := rfl
    rw [ha, mapLookup_mapStore_same]
    rfl
  · simp only [runListing, ListingOp.step]
    exact storedStatus_UpdateStatus_same executedListing "0xabc" "pending"
      (by simp [storedStatus, GetCandidate, executedListing, mapLookup])

/-- C27, amended: for every sequence of `AddCandidate` and `UpdateStatus`
calls that neither adds a candidate under the address again nor writes the
status pending to it (all other arguments are arbitrary), once the candidate
stored under the address has a status other than pending, the status stored
under that address is never pending again. -/
theorem settled_status_stays_settled (c : CandidateListingAgent) (ops : List ListingOp)
    (address : String)
    (hset : ∃ st, storedStatus c address = some st ∧ st ≠ "pending")
    (hops : ∀ op ∈ ops, op.keepsSettled address) :
    ∃ st, storedStatus (runListing c ops) address = some st ∧ st ≠ "pending" :=
  runListing_keeps_settled ops address c hset hops

/-- C27, amended, at the executed candidate and a run that adds another
address, marks the candidate failed and updates an unknown address. -/
theorem settled_status_stays_settled_witness :
    ∃ st, storedStatus (runListing executedListing settledRun) "0xabc" = some st ∧
      st ≠ "pending" :=
  settled_status_stays_settled executedListing settledRun "0xabc"
    ⟨"executed", by simp [storedStatus, GetCandidate, executedListing, mapLookup, candidateOf],
      by decide⟩
    (by
      intro op hop
      simp only [settledRun, List.mem_cons, List.mem_singleton, List.not_mem_nil,
        or_false] at hop
      rcases hop with h | h | h <;> subst h
      · show (tokenAt "0xnew" "0xdef" 20000 []).TokenAddress ≠ "0xabc"
        decide
      · exact Or.inr (by decide)
      · exact Or.inl (by decide))

/-! ## Telemetry: claims -/

theorem tdiv_two_ne_self (s : Int) (h : s ≠ 0) : Int.tdiv s 2 ≠ s := by
  rcases le_or_lt 0 s with hs | hs
  · rw [Int.tdiv_eq_ediv hs (by decide)]
    omega
  · intro heq
    have h2 : Int.tdiv (-s) 2 = (-s) / 2 := Int.tdiv_eq_ediv (by omega) (by decide)
    rw [Int.neg_tdiv, heq] at h2
    omega

/-- C28: `RecordDecisionLatency` replaces the average decision latency by the
previous average plus the sample, halved in `int64` nanoseconds with a
division that truncates toward zero, and `RecordExecutionTime` does the same
to the average execution time; every other field is unchanged.  The first
sample recorded on the zero metrics yields half the sample, which differs from
the sample unless it is zero. -/
theorem moving_average (m : Metrics) (sample : Int) :
    TelemetryAgent.RecordDecisionLatency m sample =
      { m with AvgDecisionLatency := Int.tdiv (wrapInt64 (m.AvgDecisionLatency + sample)) 2 } ∧
    TelemetryAgent.RecordExecutionTime m sample =
      { m with AvgExecutionTime := Int.tdiv (wrapInt64 (m.AvgExecutionTime + sample)) 2 } ∧
    (-(2 ^ 63) ≤ m.AvgDecisionLatency + sample → m.AvgDecisionLatency + sample < 2 ^ 63 →
      (TelemetryAgent.RecordDecisionLatency m sample).AvgDecisionLatency =
        Int.tdiv (m.AvgDecisionLatency + sample) 2) ∧
    (-(2 ^ 63) ≤ m.AvgExecutionTime + sample → m.AvgExecutionTime + sample < 2 ^ 63 →
      (TelemetryAgent.RecordExecutionTime m sample).AvgExecutionTime =
        Int.tdiv (m.AvgExecutionTime + sample) 2) ∧
    (-(2 ^ 63) ≤ sample → sample < 2 ^ 63 →
      (TelemetryAgent.RecordDecisionLatency NewTelemetryAgent sample).AvgDecisionLatency =
        Int.tdiv sample 2 ∧
      (TelemetryAgent.RecordExecutionTime NewTelemetryAgent sample).AvgExecutionTime =
        Int.tdiv sample 2 ∧
      (sample ≠ 0 → Int.tdiv sample 2 ≠ sample)) := by
  refine ⟨rfl, rfl, ?_, ?_, ?_⟩
  · intro hlo hhi
    show Int.tdiv (wrapInt64 (m.AvgDecisionLatency + sample)) 2 = _
    rw [wrapInt64_of_range _ hlo hhi]
  · intro hlo hhi
    show Int.tdiv (wrapInt64 (m.AvgExecutionTime + sample)) 2 = _
    rw [wrapInt64_of_range _ hlo hhi]
  · intro hlo hhi
    have hz : (0 : Int) + sample = sample := zero_add _
    refine ⟨?_, ?_, ?_⟩
    · show Int.tdiv (wrapInt64 (0 + sample)) 2 = _
      rw [hz, wrapInt64_of_range _ hlo hhi]
    · show Int.tdiv (wrapInt64 (0 + sample)) 2 = _
      rw [hz, wrapInt64_of_range _ hlo hhi]
    · exact tdiv_two_ne_self sample

/-- C28 at a first sample of 10 nanoseconds: the average becomes 5. -/
theorem moving_average_witness :
    (TelemetryAgent.RecordDecisionLatency NewTelemetryAgent 10).AvgDecisionLatency = 5 :=
  ((moving_average NewTelemetryAgent 10).2.2.2.2 (by decide) (by decide)).1

theorem increment_ge (counter : Int) (h : counter < maxInt64) : counter ≤ increment counter := by
  unfold increment wrapInt64
  unfold maxInt64 at h
  have e63 : (2 : Int) ^ 63 = 9223372036854775808 := by norm_num
  have e64 : (2 : Int) ^ 64 = 18446744073709551616 := by norm_num
  rw [e63] at h ⊢
  rw [e64]
  omega

/-! ## Executor: claims -/

/-- C30: in dry-run mode, for every candidate, `Execute` returns a result (no
error, no panic) with status confirmed, a transaction hash made of DRY_RUN_TX_
followed by the token address, the suggested amount of the decision, and the
token address and chain of the candidate; nothing of a chain path (gas,
slippage, slice of the address) enters the result. -/
theorem execute_dry_run (cfg : Config) (now : Time) (candidate : CandidateToken)
    (hdry : cfg.DryRun = true) :
    Execute cfg now candidate =
      some { TokenAddress := candidate.Token.TokenAddress
             Chain := candidate.Token.Chain
             TxHash := goBytes ("DRY_RUN_TX_" ++ candidate.Token.TokenAddress)
             Status := "confirmed"
             GasUsed := 0
             SlippageActual := 0
             AmountUSD := candidate.StrategyDecision.SuggestedAmountUSD
             Timestamp := now
             Error := "" } := by
  unfold Execute
  simp [hdry]

/-- C30 at a candidate on an unsupported chain with a three-byte address. -/
theorem execute_dry_run_witness :
    Execute defaultConfig 9 (candidateOf foreignToken (decisionOf 100) "pending") =
      some { TokenAddress := "abc"
             Chain := "dogecoin"
             TxHash := goBytes "DRY_RUN_TX_abc"
             Status := "confirmed"
             GasUsed := 0
             SlippageActual := 0
             AmountUSD := 100
             Timestamp := 9
             Error := "" } :=
  execute_dry_run defaultConfig 9 (candidateOf foreignToken (decisionOf 100) "pending") rfl

/-! ## Executor: unsupported chains and address slices -/

/-- C31 as stated fails: in dry-run mode a candidate on a chain that is
neither Solana nor Base gets a confirmed result with no error text. -/
theorem unsupported_chain_confirmed_in_dry_run :
    defaultConfig.DryRun = true ∧
    (candidateOf foreignToken (decisionOf 100) "pending").Token.Chain ≠ "base" ∧
    (candidateOf foreignToken (decisionOf 100) "pending").Token.Chain ≠ "solana" ∧
    (Execute defaultConfig 9 (candidateOf foreignToken (decisionOf 100) "pending")).map
      (fun result => (result.Status, result.Error)) = some ("confirmed", "") := by
  refine ⟨rfl, by decide, by decide, rfl⟩

/-- C31, amended: outside dry-run mode, for every candidate whose chain is
neither Solana nor Base, `Execute` returns a result with status failed and the
error text unsupported chain. -/
theorem execute_unsupported_chain (cfg : Config) (now : Time) (candidate : CandidateToken)
    (hlive : cfg.DryRun = false)
    (hBase : candidate.Token.Chain ≠ "base") (hSolana : candidate.Token.Chain ≠ "solana") :
    Execute cfg now candidate =
      some { TokenAddress := candidate.Token.TokenAddress
             Chain := candidate.Token.Chain
             TxHash := goBytes ""
             Status := "failed"
             GasUsed := 0
             SlippageActual := 0
             AmountUSD := candidate.StrategyDecision.SuggestedAmountUSD
             Timestamp := now
             Error := "unsupported chain" } := by
  unfold Execute
  simp [hlive, hBase, hSolana]

/-- C31, amended, at a candidate on an unsupported chain. -/
theorem execute_unsupported_chain_witness :
    (Execute liveConfig 9 (candidateOf foreignToken (decisionOf 100) "pending")).map
      (fun result => (result.Status, result.Error)) = some ("failed", "unsupported chain") := by
  rw [execute_unsupported_chain liveConfig 9
    (candidateOf foreignToken (decisionOf 100) "pending") rfl (by decide) (by decide)]
  rfl

theorem uint32_le_iff (ch : Char) (bound : Nat) (proof : bound < UInt32.size) :
    ch.val ≤ UInt32.ofNatCore bound proof ↔ ch.toNat < bound + 1 := by
  rw [UInt32.le_def]
  show ch.val.val.val ≤ bound ↔ ch.val.val.val < bound + 1
  omega

theorem utf8Bytes_length (ch : Char) : (utf8Bytes ch).length = ch.utf8Size := by
  unfold utf8Bytes Char.utf8Size
  simp only [uint32_le_iff]
  split_ifs <;> rfl

theorem flatMap_utf8Bytes_length (chars : List Char) :
    (chars.flatMap utf8Bytes).length = String.utf8ByteSize.go chars := by
  induction chars with
  | nil => rfl
  | cons ch rest ih =>
    simp only [List.flatMap_cons, List.length_append, String.utf8ByteSize.go, utf8Bytes_length,
      ih]
    omega

theorem goBytes_length (s : String) : (goBytes s).length = s.utf8ByteSize :=
  flatMap_utf8Bytes_length s.data

theorem slicePrefix_isSome (s : String) (n : Nat) :
    (slicePrefix s n).isSome = true ↔ n ≤ s.utf8ByteSize := by
  unfold slicePrefix
  rw [goBytes_length]
  split_ifs with h
  · simp
    omega
  · simp
    omega

theorem slicePrefix_spec (s : String) (n : Nat) (head : List Nat)
    (h : slicePrefix s n = some head) :
    head = (goBytes s).take n ∧ head.length = n := by
  unfold slicePrefix at h
  split_ifs at h with hlt
  have hh : head = (goBytes s).take n := (Option.some.inj h).symm
  subst hh
  refine ⟨rfl, ?_⟩
  rw [List.length_take]
  omega

/-- C39: outside dry-run mode, `Execute` returns a result for a Base
candidate if and only if its token address has at least 40 bytes, and for a
Solana candidate if and only if it has at least 44 bytes (otherwise the slice
of the address panics); a returned result is confirmed and its transaction
hash is the two bytes of 0x followed by the first 40 bytes of the address on
Base, and the first 44 bytes of the address on Solana, exactly that many
bytes also when the cut falls inside a character.  The bytes of a string are
its UTF-8 encoding, whose length is the byte size of the string. -/
theorem execute_slices_address (cfg : Config) (now : Time) (candidate : CandidateToken)
    (hlive : cfg.DryRun = false) :
    (goBytes candidate.Token.TokenAddress).length =
      candidate.Token.TokenAddress.utf8ByteSize ∧
    (candidate.Token.Chain = "base" →
      ((Execute cfg now candidate).isSome = true ↔
        40 ≤ candidate.Token.TokenAddress.utf8ByteSize) ∧
      ∀ result, Execute cfg now candidate = some result →
        result.Status = "confirmed" ∧
        result.TxHash = goBytes "0x" ++ (goBytes candidate.Token.TokenAddress).take 40 ∧
        ((goBytes candidate.Token.TokenAddress).take 40).length = 40) ∧
    (candidate.Token.Chain = "solana" →
      ((Execute cfg now candidate).isSome = true ↔
        44 ≤ candidate.Token.TokenAddress.utf8ByteSize) ∧
      ∀ result, Execute cfg now candidate = some result →
        result.Status = "confirmed" ∧
        result.TxHash = (goBytes candidate.Token.TokenAddress).take 44 ∧
        ((goBytes candidate.Token.TokenAddress).take 44).length = 44) := by
  refine ⟨goBytes_length _, ?_, ?_⟩
  · intro hchain
    have hE : Execute cfg now candidate =
        executeEVM candidate
          { TokenAddress := candidate.Token.TokenAddress, Chain := candidate.Token.Chain,
            TxHash := goBytes "", Status := "pending", GasUsed := 0, SlippageActual := 0,
            AmountUSD := candidate.StrategyDecision.SuggestedAmountUSD, Timestamp := now,
            Error := "" } := by
      unfold Execute
      simp [hlive, hchain]
    rw [hE]
    unfold executeEVM
    cases hs : slicePrefix candidate.Token.TokenAddress 40 with
    | none =>
      have := slicePrefix_isSome candidate.Token.TokenAddress 40
      rw [hs] at this
      exact ⟨by simpa using this, fun result hr => by simp at hr⟩
    | some head =>
      have := slicePrefix_isSome candidate.Token.TokenAddress 40
      rw [hs] at this
      refine ⟨by simpa using this, fun result hr => ?_⟩
      simp only [Option.some.injEq] at hr
      subst hr
      have hspec := slicePrefix_spec _ _ _ hs
      exact ⟨rfl, by rw [← hspec.1], by rw [← hspec.1]; exact hspec.2⟩
  · intro hchain
    have hnb : ¬ candidate.Token.Chain = "base" := by rw [hchain]; decide
    have hE : Execute cfg now candidate =
        executeSolana candidate
          { TokenAddress := candidate.Token.TokenAddress, Chain := candidate.Token.Chain,
            TxHash := goBytes "", Status := "pending", GasUsed := 0, SlippageActual := 0,
            AmountUSD := candidate.StrategyDecision.SuggestedAmountUSD, Timestamp := now,
            Error := "" } := by
      unfold Execute
      simp [hlive, hchain]
    rw [hE]
    unfold executeSolana
    cases hs : slicePrefix candidate.Token.TokenAddress 44 with
    | none =>
      have := slicePrefix_isSome candidate.Token.TokenAddress 44
      rw [hs] at this
      exact ⟨by simpa using this, fun result hr => by simp at hr⟩
    | some head =>
      have := slicePrefix_isSome candidate.Token.TokenAddress 44
      rw [hs] at this
      refine ⟨by simpa using this, fun result hr => ?_⟩
      simp only [Option.some.injEq] at hr
      subst hr
      have hspec := slicePrefix_spec _ _ _ hs
      exact ⟨rfl, by rw [← hspec.1], by rw [← hspec.1]; exact hspec.2⟩

/-- C39 at three Base candidates: with a 42-byte address the call
returns; with an address whose bytes 40 and 41 are one character the hash is
0x followed by exactly 40 bytes, the last of them the first byte of that
character; with a three-byte address the call does not return. -/
theorem execute_slices_address_witness :
    (Execute liveConfig 9 baseCandidate).isSome = true ∧
    (Execute liveConfig 9 accentedCandidate).map (fun result => result.TxHash) =
      some (goBytes "0x0x1234567890abcdef1234567890abcdef12345" ++ [195]) ∧
    (Execute liveConfig 9
      (candidateOf (tokenAt "abc" "0xdef" 20000 []) (decisionOf 100) "pending")).isSome
      = false :=
  ⟨((execute_slices_address liveConfig 9 baseCandidate rfl).2.1 rfl).1.mpr (by decide),
    by decide,
    by
      have h := ((execute_slices_address liveConfig 9
        (candidateOf (tokenAt "abc" "0xdef" 20000 []) (decisionOf 100) "pending") rfl).2.1
        rfl).1
      cases hx : (Execute liveConfig 9
        (candidateOf (tokenAt "abc" "0xdef" 20000 []) (decisionOf 100) "pending")).isSome with
      | false => rfl
      | true =>
        rw [hx] at h
        exact absurd (h.mp rfl) (by decide)⟩

/-! ## Strategy evaluator: small accounts -/

/-- C37: for every configuration whose balance times single position share is
below 100 and every decision returned by `Evaluate` under it, the suggested
amount is 100, and `CanExecute` on a risk manager of the same configuration
that is not halted returns (false, exceeds_single_position_limit). -/
theorem small_account_never_trades (cfg : Config) (now : Time) (safety : SafetyReport)
    (offchain : OffChainMetrics) (token : PreFilteredToken)
    (hsmall : cfg.AccountBalance * cfg.SinglePositionPct < 100) :
    (Evaluate cfg now safety offchain token).SuggestedAmountUSD = 100 ∧
    ∀ r : RiskManagerAgent, r.config = cfg → r.control.TradingHalted = false →
      (CanExecute r (Evaluate cfg now safety offchain token)).2 =
        (false, "exceeds_single_position_limit") := by
  have hmult : cfg.AccountBalance * cfg.SinglePositionPct *
      confidenceMultiplier (Evaluate cfg now safety offchain token).Confidence ≤ 100 := by
    have hm : 0 < confidenceMultiplier (Evaluate cfg now safety offchain token).Confidence ∧
        confidenceMultiplier (Evaluate cfg now safety offchain token).Confidence ≤ 1 := by
      unfold confidenceMultiplier
      split_ifs <;> constructor <;> norm_num
    by_cases hneg : cfg.AccountBalance * cfg.SinglePositionPct < 0
    · have := mul_neg_of_neg_of_pos hneg hm.1
      linarith
    · have := mul_le_of_le_one_right (not_lt.mp hneg) hm.2
      linarith
  have hamt : (Evaluate cfg now safety offchain token).SuggestedAmountUSD = 100 := by
    rw [Evaluate_SuggestedAmountUSD_max, max_eq_left hmult]
    have e : (100 : ℚ) * 100 = 10000 := by norm_num
    rw [e, mathRound_tenThousand]
    norm_num
  refine ⟨hamt, fun r hcfg hrun => ?_⟩
  unfold CanExecute
  have hgt : (Evaluate cfg now safety offchain token).SuggestedAmountUSD >
      r.config.AccountBalance * r.config.SinglePositionPct := by
    rw [hamt, hcfg]
    exact hsmall
  simp [hrun, hgt]

/-- C37 at an account of 5000 USD with a single position share of 0.01. -/
theorem small_account_never_trades_witness :
    (Evaluate smallAccountConfig 7 cleanSafety sampleMetrics sampleToken).SuggestedAmountUSD
      = 100 ∧
    (CanExecute (NewRiskManagerAgent smallAccountConfig 0)
      (Evaluate smallAccountConfig 7 cleanSafety sampleMetrics sampleToken)).2 =
        (false, "exceeds_single_position_limit") :=
  ⟨(small_account_never_trades smallAccountConfig 7 cleanSafety sampleMetrics sampleToken
      (by norm_num [smallAccountConfig, defaultConfig])).1,
    (small_account_never_trades smallAccountConfig 7 cleanSafety sampleMetrics sampleToken
      (by norm_num [smallAccountConfig, defaultConfig])).2
      (NewRiskManagerAgent smallAccountConfig 0) rfl rfl⟩

/-! ## Configuration loading: claims -/

/-- C35: for every key whose variable is unset or empty, `getEnv`,
`getEnvInt`, `getEnvFloat` and `getEnvBool` return exactly the supplied
default; the last three also return the default when the value of the
variable does not parse; `LoadConfig` with MAX_HONEYPOT_SCORE unset yields a
honeypot bound of 0.2. -/
theorem env_defaults (parsers : GoParsers) (env : Environment) (key : String)
    (defaultString : String) (defaultInt : Int) (defaultFloat : ℚ) (defaultBool : Bool) :
    (env key = "" →
      getEnv env key defaultString = defaultString ∧
      getEnvInt parsers env key defaultInt = defaultInt ∧
      getEnvFloat parsers env key defaultFloat = defaultFloat ∧
      getEnvBool parsers env key defaultBool = defaultBool) ∧
    (parsers.Atoi (env key) = none → getEnvInt parsers env key defaultInt = defaultInt) ∧
    (parsers.ParseFloat (env key) = none →
      getEnvFloat parsers env key defaultFloat = defaultFloat) ∧
    (parsers.ParseBool (env key) = none →
      getEnvBool parsers env key defaultBool = defaultBool) ∧
    (env "MAX_HONEYPOT_SCORE" = "" → (LoadConfig parsers env).MaxHoneypotScore = 2 / 10) := by
  refine ⟨?_, ?_, ?_, ?_, ?_⟩
  · intro h
    simp [getEnv, getEnvInt, getEnvFloat, getEnvBool, h]
  · intro h
    unfold getEnvInt
    rw [h]
    split_ifs <;> rfl
  · intro h
    unfold getEnvFloat
    rw [h]
    split_ifs <;> rfl
  · intro h
    unfold getEnvBool
    rw [h]
    split_ifs <;> rfl
  · intro h
    simp [LoadConfig, getEnvFloat, h]

/-- C35 at the values of the test: with no variable set the four helpers
return default_value, 42, 3.14 and true. -/
theorem env_defaults_witness :
    getEnv emptyEnvironment "NONEXISTENT_VAR" "default_value" = "default_value" ∧
    getEnvInt strictParsers emptyEnvironment "NONEXISTENT_VAR" 42 = 42 ∧
    getEnvFloat strictParsers emptyEnvironment "NONEXISTENT_VAR" (314 / 100) = 314 / 100 ∧
    getEnvBool strictParsers emptyEnvironment "NONEXISTENT_VAR" true = true :=
  (env_defaults strictParsers emptyEnvironment "NONEXISTENT_VAR" "default_value" 42
    (314 / 100) true).1 rfl

/-! ## Risk manager: the daily-loss check, exposure cap -/

theorem CanExecute_denies_of_loss (r : RiskManagerAgent) (decision : StrategyDecision)
    (hloss : r.control.DailyLoss ≥ r.config.DailyLossLimit) :
    (CanExecute r decision).2.1 = false ∧
    (CanExecute r decision).1.control.DailyLoss ≥ (CanExecute r decision).1.config.DailyLossLimit
    := by
  have hframe := CanExecute_control_frame r decision
  refine ⟨?_, by rw [hframe.1, hframe.2.2]; exact hloss⟩
  unfold CanExecute
  simp only []
  split_ifs <;> rfl

theorem CanExecute_fails_limits (r : RiskManagerAgent) (decision : StrategyDecision)
    (hrun : r.control.TradingHalted = false) (hfail : ¬ passesLimits r decision) :
    (CanExecute r decision).1 = r := by
  unfold passesLimits at hfail
  unfold CanExecute
  simp only [hrun, Bool.false_eq_true, if_false]
  by_cases h1 : decision.SuggestedAmountUSD >
      r.config.AccountBalance * r.config.SinglePositionPct
  · rw [if_pos h1]
  · rw [if_neg h1]
    by_cases h2 : r.control.CurrentExposure + decision.SuggestedAmountUSD >
        r.config.AccountBalance * r.config.TotalExposurePct
    · rw [if_pos h2]
    · exact absurd ⟨h1, h2⟩ hfail

theorem CanExecute_approves_within_cap (r : RiskManagerAgent) (decision : StrategyDecision)
    (h : (CanExecute r decision).2.1 = true) :
    r.control.CurrentExposure + decision.SuggestedAmountUSD ≤
      r.config.AccountBalance * r.config.TotalExposurePct := by
  by_contra hgt
  have hgt2 : r.control.CurrentExposure + decision.SuggestedAmountUSD >
      r.config.AccountBalance * r.config.TotalExposurePct := not_le.mp hgt
  have hf : (CanExecute r decision).2.1 = false := by
    unfold CanExecute
    simp only []
    split_ifs <;> rfl
  rw [hf] at h
  exact absurd h (by decide)

theorem step_config (r : RiskManagerAgent) (op : RiskOp) : (op.step r).config = r.config := by
  cases op with
  | canExecute decision => exact (CanExecute_control_frame r decision).1
  | recordExecution result =>
    simp only [RiskOp.step, RecordExecution]
    split_ifs <;> rfl
  | recordProfit tokenAddress profitLoss =>
    simp only [RiskOp.step, RecordProfit, haltTrading]
    split_ifs <;> rfl
  | releaseExposure amount =>
    simp only [RiskOp.step, ReleaseExposure]
    split_ifs <;> rfl
  | resumeTrading => rfl
  | resetDaily now => rfl
  | checkDailyReset now resetNow =>
    simp only [RiskOp.step, CheckDailyReset, ResetDaily]
    split_ifs <;> rfl
  | getStatus => rfl

theorem step_within_cap (r : RiskManagerAgent) (op : RiskOp) (previous : Option ℚ)
    (hcap : 0 ≤ r.config.AccountBalance * r.config.TotalExposurePct)
    (hexp : r.control.CurrentExposure ≤ r.config.AccountBalance * r.config.TotalExposurePct)
    (hprev : ∀ amount, previous = some amount →
      r.control.CurrentExposure + amount ≤ r.config.AccountBalance * r.config.TotalExposurePct)
    (hop : op.guardedBy previous) :
    (op.step r).control.CurrentExposure ≤
      r.config.AccountBalance * r.config.TotalExposurePct ∧
    (∀ amount, op.approval r = some amount →
      (op.step r).control.CurrentExposure + amount ≤
        r.config.AccountBalance * r.config.TotalExposurePct) := by
  cases op with
  | canExecute decision =>
    have hframe := (CanExecute_control_frame r decision).2.1
    refine ⟨by simp only [RiskOp.step]; rw [hframe]; exact hexp, ?_⟩
    intro amount happ
    simp only [RiskOp.approval] at happ
    split_ifs at happ with hok
    have hamt : decision.SuggestedAmountUSD = amount := Option.some.inj happ
    simp only [RiskOp.step]
    rw [hframe, ← hamt]
    exact CanExecute_approves_within_cap r decision hok
  | recordExecution result =>
    refine ⟨?_, fun amount h => by simp [RiskOp.approval] at h⟩
    simp only [RiskOp.step, RecordExecution]
    split_ifs with hs
    · exact hprev result.AmountUSD (hop hs).1
    · exact hexp
  | recordProfit tokenAddress profitLoss =>
    refine ⟨?_, fun amount h => by simp [RiskOp.approval] at h⟩
    simp only [RiskOp.step, RecordProfit, haltTrading]
    split_ifs <;> exact hexp
  | releaseExposure amount =>
    refine ⟨?_, fun a h => by simp [RiskOp.approval] at h⟩
    have ha : 0 ≤ amount := hop
    simp only [RiskOp.step, ReleaseExposure]
    split_ifs
    · exact hcap
    · show r.control.CurrentExposure - amount ≤ _
      linarith
  | resumeTrading =>
    exact ⟨hexp, fun amount h => by simp [RiskOp.approval] at h⟩
  | resetDaily now =>
    exact ⟨hexp, fun amount h => by simp [RiskOp.approval] at h⟩
  | checkDailyReset now resetNow =>
    refine ⟨?_, fun amount h => by simp [RiskOp.approval] at h⟩
    simp only [RiskOp.step, CheckDailyReset, ResetDaily]
    split_ifs <;> exact hexp
  | getStatus =>
    exact ⟨hexp, fun amount h => by simp [RiskOp.approval] at h⟩

theorem guardedRun_within_cap (ops : List RiskOp) :
    ∀ (r : RiskManagerAgent) (previous : Option ℚ),
      0 ≤ r.config.AccountBalance * r.config.TotalExposurePct →
      r.control.CurrentExposure ≤ r.config.AccountBalance * r.config.TotalExposurePct →
      (∀ amount, previous = some amount →
        r.control.CurrentExposure + amount ≤
          r.config.AccountBalance * r.config.TotalExposurePct) →
      guardedRun r previous ops →
      ∀ k : Nat, (runOps r (ops.take k)).control.CurrentExposure ≤
        r.config.AccountBalance * r.config.TotalExposurePct := by
  induction ops with
  | nil => intro r previous _ hexp _ _ k; simpa [runOps] using hexp
  | cons op ops ih =>
    intro r previous hcap hexp hprev hguard k
    cases k with
    | zero => simpa [runOps] using hexp
    | succ k =>
      have hstep := step_within_cap r op previous hcap hexp hprev hguard.1
      have hcfg := step_config r op
      simp only [List.take_succ_cons, runOps]
      have := ih (op.step r) (op.approval r) (by rw [hcfg]; exact hcap)
        (by rw [hcfg]; exact hstep.1) (by rw [hcfg]; exact hstep.2) hguard.2 k
      rw [hcfg] at this
      exact this

/-- C38: starting from a current exposure of 0, in every sequential run of
risk manager calls in which each confirmed `RecordExecution` comes right after
a `CanExecute` call that approved a decision suggesting exactly its amount,
that amount being non-negative, and every released amount is non-negative, the
current exposure never exceeds balance times total exposure share, provided
that product is non-negative. -/
theorem exposure_within_cap (r : RiskManagerAgent) (ops : List RiskOp)
    (hzero : r.control.CurrentExposure = 0)
    (hcap : 0 ≤ r.config.AccountBalance * r.config.TotalExposurePct)
    (hguard : guardedRun r none ops) :
    ∀ k : Nat, (runOps r (ops.take k)).control.CurrentExposure ≤
      r.config.AccountBalance * r.config.TotalExposurePct :=
  guardedRun_within_cap ops r none hcap (by rw [hzero]; exact hcap)
    (fun amount h => by simp at h) hguard

/-- C38 at the initial risk manager and a run that approves and records 100
USD, releases 30 USD and is then refused a position of 200 USD: the exposure
after the first two calls of the run is within the cap. -/
theorem exposure_within_cap_witness :
    (runOps (NewRiskManagerAgent defaultConfig 0) (cappedRun.take 2)).control.CurrentExposure
      ≤ defaultConfig.AccountBalance * defaultConfig.TotalExposurePct :=
  exposure_within_cap (NewRiskManagerAgent defaultConfig 0) cappedRun rfl
    (by norm_num [NewRiskManagerAgent, defaultConfig])
    (by
      have hok : (CanExecute (NewRiskManagerAgent defaultConfig 0) (decisionOf 100)).2.1
          = true := by
        norm_num [CanExecute, NewRiskManagerAgent, defaultConfig, decisionOf]
      refine ⟨trivial, ?_, ?_, trivial, trivial⟩
      · intro _
        refine ⟨?_, by norm_num [resultOf]⟩
        simp only [RiskOp.approval, hok, if_true]
        rfl
      · show (0 : ℚ) ≤ 30
        norm_num) 2

/-! ## Orchestrator: lemmas and claims -/

theorem CheckDailyReset_exposure (r : RiskManagerAgent) (now resetNow : Time) :
    (CheckDailyReset r now resetNow).control.CurrentExposure = r.control.CurrentExposure := by
  unfold CheckDailyReset ResetDaily
  simp only []
  split_ifs <;> rfl

theorem checked_exposure (r : RiskManagerAgent) (now resetNow : Time)
    (decision : StrategyDecision) :
    (CanExecute (CheckDailyReset r now resetNow) decision).1.control.CurrentExposure =
      r.control.CurrentExposure := by
  rw [(CanExecute_control_frame _ decision).2.1, CheckDailyReset_exposure]

theorem increment_eq (counter : Int) (hlo : -(2 ^ 63) ≤ counter) (hhi : counter < maxInt64) :
    increment counter = counter + 1 := by
  unfold increment
  unfold maxInt64 at hhi
  apply wrapInt64_of_range
  · have e63 : (2 : Int) ^ 63 = 9223372036854775808 := by norm_num
    rw [e63] at hlo ⊢
    omega
  · omega

theorem execute_unsupported_chain_result (cfg : Config) (now : Time)
    (candidate : CandidateToken) (hlive : cfg.DryRun = false)
    (hBase : candidate.Token.Chain ≠ "base") (hSolana : candidate.Token.Chain ≠ "solana") :
    Execute cfg now candidate =
      some { TokenAddress := candidate.Token.TokenAddress
             Chain := candidate.Token.Chain
             TxHash := goBytes ""
             Status := "failed"
             GasUsed := 0
             SlippageActual := 0
             AmountUSD := candidate.StrategyDecision.SuggestedAmountUSD
             Timestamp := now
             Error := "unsupported chain" } := by
  unfold Execute
  simp [hlive, hBase, hSolana]

theorem executeCandidate_denied (o : Orchestrator) (clock : ExecuteClock)
    (candidate : CandidateToken)
    (hdeny : (CanExecute (CheckDailyReset o.risk clock.checkNow clock.resetNow)
      candidate.StrategyDecision).2.1 = false) :
    executeCandidate o clock candidate =
      some { o with
        risk := (CanExecute (CheckDailyReset o.risk clock.checkNow clock.resetNow)
          candidate.StrategyDecision).1
        listing := UpdateStatus o.listing candidate.Token.TokenAddress "rejected" } := by
  unfold executeCandidate
  simp [hdeny]

theorem executeCandidate_trades (o : Orchestrator) (clock : ExecuteClock)
    (candidate : CandidateToken)
    (hok : (CanExecute (CheckDailyReset o.risk clock.checkNow clock.resetNow)
      candidate.StrategyDecision).2.1 = true) :
    executeCandidate o clock candidate =
      executeTrade
        { o with
          risk := (CanExecute (CheckDailyReset o.risk clock.checkNow clock.resetNow)
            candidate.StrategyDecision).1 } clock candidate := by
  unfold executeCandidate Simulate
  simp only [hok, Bool.not_true, Bool.false_eq_true, if_false]
  cases o.config.DryRun <;> simp

theorem executeTrade_confirmed (o : Orchestrator) (clock : ExecuteClock)
    (candidate : CandidateToken) (result : ExecutionResult)
    (hexec : Execute o.config clock.executeNow candidate = some result)
    (hconf : result.Status = "confirmed") :
    executeTrade o clock candidate =
      some { o with
        telemetry :=
          TelemetryAgent.RecordExecution
            (TelemetryAgent.RecordExecutionTime o.telemetry
              (timeSince clock.endNow clock.startTime)) true result.AmountUSD
        risk := RecordExecution o.risk result
        listing := UpdateStatus o.listing candidate.Token.TokenAddress "executed" } := by
  unfold executeTrade
  rw [hexec]
  simp [hconf]

theorem executeTrade_failed (o : Orchestrator) (clock : ExecuteClock)
    (candidate : CandidateToken) (result : ExecutionResult)
    (hexec : Execute o.config clock.executeNow candidate = some result)
    (hfail : result.Status ≠ "confirmed") :
    executeTrade o clock candidate =
      some { o with
        telemetry :=
          TelemetryAgent.RecordExecution
            (TelemetryAgent.RecordExecutionTime o.telemetry
              (timeSince clock.endNow clock.startTime)) false 0
        listing := UpdateStatus o.listing candidate.Token.TokenAddress "failed" } := by
  unfold executeTrade
  rw [hexec]
  simp [hfail]

theorem executeTrade_panics (o : Orchestrator) (clock : ExecuteClock)
    (candidate : CandidateToken)
    (hexec : Execute o.config clock.executeNow candidate = none) :
    executeTrade o clock candidate = none := by
  unfold executeTrade
  rw [hexec]

theorem executeTrade_simulationFailed (o : Orchestrator) (clock : ExecuteClock)
    (candidate : CandidateToken) (after : Orchestrator)
    (h : executeTrade o clock candidate = some after) :
    after.telemetry.SimulationFailed = o.telemetry.SimulationFailed := by
  cases hexec : Execute o.config clock.executeNow candidate with
  | none =>
    rw [executeTrade_panics o clock candidate hexec] at h
    simp at h
  | some result =>
    by_cases hconf : result.Status = "confirmed"
    · rw [executeTrade_confirmed o clock candidate result hexec hconf] at h
      simp only [Option.some.injEq] at h
      subst h
      rfl
    · rw [executeTrade_failed o clock candidate result hexec hconf] at h
      simp only [Option.some.injEq] at h
      subst h
      rfl

theorem Execute_status (cfg : Config) (now : Time) (candidate : CandidateToken)
    (result : ExecutionResult) (h : Execute cfg now candidate = some result) :
    (result.Status = "confirmed" ∧ result.Error = "") ∨
      (result.Status = "failed" ∧ result.Error = "unsupported chain" ∧ cfg.DryRun = false ∧
        candidate.Token.Chain ≠ "base" ∧ candidate.Token.Chain ≠ "solana") := by
  unfold Execute at h
  simp only [] at h
  split_ifs at h with hdry hbase hsolana
  · simp only [Option.some.injEq] at h
    subst h
    exact Or.inl ⟨rfl, rfl⟩
  · unfold executeEVM at h
    cases hs : slicePrefix candidate.Token.TokenAddress 40 with
    | none => rw [hs] at h; simp at h
    | some head =>
      rw [hs] at h
      simp only [Option.some.injEq] at h
      subst h
      exact Or.inl ⟨rfl, rfl⟩
  · unfold executeSolana at h
    cases hs : slicePrefix candidate.Token.TokenAddress 44 with
    | none => rw [hs] at h; simp at h
    | some head =>
      rw [hs] at h
      simp only [Option.some.injEq] at h
      subst h
      exact Or.inl ⟨rfl, rfl⟩
  · simp only [Option.some.injEq] at h
    subst h
    exact Or.inr ⟨rfl, rfl, by simpa using hdry, hbase, hsolana⟩

theorem executeCandidate_cases (o : Orchestrator) (clock : ExecuteClock)
    (candidate : CandidateToken)
    (hlisted : storedStatus o.listing candidate.Token.TokenAddress ≠ none) :
    ((CanExecute (CheckDailyReset o.risk clock.checkNow clock.resetNow)
        candidate.StrategyDecision).2.1 = false →
      ∃ after, executeCandidate o clock candidate = some after ∧
        storedStatus after.listing candidate.Token.TokenAddress = some "rejected" ∧
        after.risk.control.CurrentExposure = o.risk.control.CurrentExposure ∧
        after.telemetry = o.telemetry) ∧
    ((CanExecute (CheckDailyReset o.risk clock.checkNow clock.resetNow)
        candidate.StrategyDecision).2.1 = true →
      (Execute o.config clock.executeNow candidate = none →
        executeCandidate o clock candidate = none) ∧
      ∀ result : ExecutionResult, Execute o.config clock.executeNow candidate = some result →
        (result.Status = "confirmed" →
          ∃ after, executeCandidate o clock candidate = some after ∧
            storedStatus after.listing candidate.Token.TokenAddress = some "executed" ∧
            after.risk.control.CurrentExposure =
              o.risk.control.CurrentExposure + result.AmountUSD) ∧
        (result.Status ≠ "confirmed" →
          ∃ after, executeCandidate o clock candidate = some after ∧
            storedStatus after.listing candidate.Token.TokenAddress = some "failed" ∧
            after.risk.control.CurrentExposure = o.risk.control.CurrentExposure)) := by
  have hexp := checked_exposure o.risk clock.checkNow clock.resetNow candidate.StrategyDecision
  refine ⟨?_, ?_⟩
  · intro hdeny
    exact ⟨_, executeCandidate_denied o clock candidate hdeny,
      storedStatus_UpdateStatus_same _ _ _ hlisted, hexp, rfl⟩
  · intro hok
    refine ⟨fun hpanic => (executeCandidate_trades o clock candidate hok).trans
      (executeTrade_panics _ clock candidate hpanic), ?_⟩
    intro result hexec
    constructor
    · intro hconf
      refine ⟨_, (executeCandidate_trades o clock candidate hok).trans
        (executeTrade_confirmed _ clock candidate result hexec hconf),
        storedStatus_UpdateStatus_same _ _ _ hlisted, ?_⟩
      show (RecordExecution _ result).control.CurrentExposure = _
      unfold RecordExecution
      rw [if_pos hconf]
      show _ + result.AmountUSD = _
      rw [hexp]
    · intro hfail
      exact ⟨_, (executeCandidate_trades o clock candidate hok).trans
        (executeTrade_failed _ clock candidate result hexec hfail),
        storedStatus_UpdateStatus_same _ _ _ hlisted, hexp⟩

theorem solana_approved_live :
    (CanExecute (CheckDailyReset (NewRiskManagerAgent liveConfig 0) 0 0)
      solanaCandidate.StrategyDecision).2.1 = true := by
  norm_num [CanExecute, CheckDailyReset, ResetDaily, NewRiskManagerAgent, liveConfig,
    defaultConfig, solanaCandidate, candidateOf, decisionOf, timeSince]

theorem foreign_approved_live :
    (CanExecute (CheckDailyReset (NewRiskManagerAgent liveConfig 0) 0 0)
      foreignCandidate.StrategyDecision).2.1 = true := by
  norm_num [CanExecute, CheckDailyReset, ResetDaily, NewRiskManagerAgent, liveConfig,
    defaultConfig, foreignCandidate, candidateOf, decisionOf, timeSince]

/-- C32 at its failing input: outside dry-run mode the listing holds a
pending Solana candidate whose address is the 43-byte mint of wrapped SOL;
`CanExecute` approves it and the simulation passes, `Execute` panics on the
slice of 44 bytes, and `executeCandidate` ends with the panic: no status is
written and no execution is recorded. -/
theorem executeCandidate_panics_on_short_address :
    liveOrchestrator.config.DryRun = false ∧
    solanaCandidate.Token.Chain = "solana" ∧
    solanaCandidate.Token.TokenAddress.utf8ByteSize = 43 ∧
    storedStatus liveOrchestrator.listing solanaCandidate.Token.TokenAddress =
      some "pending" ∧
    (CanExecute (CheckDailyReset liveOrchestrator.risk stillClock.checkNow stillClock.resetNow)
      solanaCandidate.StrategyDecision).2.1 = true ∧
    Simulate liveOrchestrator.config solanaCandidate = (true, none) ∧
    Execute liveOrchestrator.config stillClock.executeNow solanaCandidate = none ∧
    executeCandidate liveOrchestrator stillClock solanaCandidate = none := by
  have hexec : Execute liveOrchestrator.config stillClock.executeNow solanaCandidate = none := by
    decide
  exact ⟨rfl, rfl, by decide, by decide, solana_approved_live, rfl, hexec,
    (executeCandidate_trades liveOrchestrator stillClock solanaCandidate
      solana_approved_live).trans (executeTrade_panics _ stillClock solanaCandidate hexec)⟩

/-! ## Orchestrator: failures of the simulation and of the execution -/

/-- C33, for a listed candidate that `CanExecute` approves.  The
simulation of the execution agent returns `true, nil` for every candidate, so
that no call of `executeCandidate` meets a failed simulation and the counter
of failed simulations is never written.  `Execute` returns no Go error; the
chain execution reports an error as a result that is not confirmed, which
then has the status failed and the error text unsupported chain and is
returned exactly outside dry-run mode for a chain that is neither Base nor
Solana.  On such a result `executeCandidate` sets the status of the candidate
to failed and increments the counter of failed executions (by exactly one
below the largest `int64`). -/
theorem execution_failure_handling (o : Orchestrator) (clock : ExecuteClock)
    (candidate : CandidateToken)
    (hlisted : storedStatus o.listing candidate.Token.TokenAddress ≠ none)
    (hok : (CanExecute (CheckDailyReset o.risk clock.checkNow clock.resetNow)
      candidate.StrategyDecision).2.1 = true) :
    Simulate o.config candidate = (true, none) ∧
    (∀ after, executeCandidate o clock candidate = some after →
      after.telemetry.SimulationFailed = o.telemetry.SimulationFailed) ∧
    (∀ result : ExecutionResult, Execute o.config clock.executeNow candidate = some result →
      result.Status ≠ "confirmed" →
      (result.Status = "failed" ∧ result.Error = "unsupported chain") ∧
      ∃ after, executeCandidate o clock candidate = some after ∧
        storedStatus after.listing candidate.Token.TokenAddress = some "failed" ∧
        after.telemetry.ExecutionFailed = increment o.telemetry.ExecutionFailed ∧
        (-(2 ^ 63) ≤ o.telemetry.ExecutionFailed → o.telemetry.ExecutionFailed < maxInt64 →
          after.telemetry.ExecutionFailed = o.telemetry.ExecutionFailed + 1)) ∧
    (o.config.DryRun = false → candidate.Token.Chain ≠ "base" →
      candidate.Token.Chain ≠ "solana" →
      ∃ result, Execute o.config clock.executeNow candidate = some result ∧
        result.Status = "failed" ∧ result.Error = "unsupported chain" ∧
        ∃ after, executeCandidate o clock candidate = some after ∧
          storedStatus after.listing candidate.Token.TokenAddress = some "failed" ∧
          after.telemetry.ExecutionFailed = increment o.telemetry.ExecutionFailed) := by
  have htrade := executeCandidate_trades o clock candidate hok
  have hfailed : ∀ result : ExecutionResult,
      Execute o.config clock.executeNow candidate = some result →
      result.Status ≠ "confirmed" →
      ∃ after, executeCandidate o clock candidate = some after ∧
        storedStatus after.listing candidate.Token.TokenAddress = some "failed" ∧
        after.telemetry.ExecutionFailed = increment o.telemetry.ExecutionFailed := by
    intro result hexec hfail
    exact ⟨_, htrade.trans (executeTrade_failed _ clock candidate result hexec hfail),
      storedStatus_UpdateStatus_same _ _ _ hlisted, rfl⟩
  refine ⟨rfl, ?_, ?_, ?_⟩
  · intro after hafter
    rw [htrade] at hafter
    have hsame := executeTrade_simulationFailed _ clock candidate after hafter
    exact hsame
  · intro result hexec hfail
    have hstatus : result.Status = "failed" ∧ result.Error = "unsupported chain" := by
      rcases Execute_status o.config clock.executeNow candidate result hexec with h | h
      · exact absurd h.1 hfail
      · exact ⟨h.1, h.2.1⟩
    obtain ⟨after, hafter, hstored, hcount⟩ := hfailed result hexec hfail
    refine ⟨hstatus, after, hafter, hstored, hcount, ?_⟩
    intro hlo hhi
    rw [hcount]
    exact increment_eq _ hlo hhi
  · intro hlive hbase hsolana
    have hexec := execute_unsupported_chain_result o.config clock.executeNow candidate hlive
      hbase hsolana
    refine ⟨_, hexec, rfl, rfl, ?_⟩
    have hne : ("failed" : String) ≠ "confirmed" := by decide
    exact hfailed _ hexec hne

/-- C33 at a listed candidate on the chain dogecoin, outside dry-run
mode: the status becomes failed and the counter of failed executions goes
from 0 to 1. -/
theorem execution_failure_handling_witness :
    storedStatus foreignOrchestrator.listing foreignCandidate.Token.TokenAddress =
      some "pending" ∧
    ∃ result, Execute foreignOrchestrator.config stillClock.executeNow foreignCandidate =
        some result ∧
      result.Status = "failed" ∧ result.Error = "unsupported chain" ∧
      ∃ after, executeCandidate foreignOrchestrator stillClock foreignCandidate = some after ∧
        storedStatus after.listing foreignCandidate.Token.TokenAddress = some "failed" ∧
        after.telemetry.ExecutionFailed =
          increment foreignOrchestrator.telemetry.ExecutionFailed :=
  ⟨by decide,
    (execution_failure_handling foreignOrchestrator stillClock foreignCandidate (by decide)
      foreign_approved_live).2.2.2 rfl (by decide) (by decide)⟩

/-! ## Orchestrator: the gates of `processToken` -/

theorem CanTrade_iff (cfg : Config) (report : SafetyReport) :
    CanTrade cfg report = true ↔
      report.CanBuy = true ∧ report.CanSell = true ∧
        report.HoneypotScore < cfg.MaxHoneypotScore ∧
        report.SimulatedSell.Slippage < cfg.MaxSlippage := by
  unfold CanTrade
  simp only [Bool.and_eq_true, decide_eq_true_eq]
  tauto

theorem gates_keep_listed (m : Metrics) (dropped isHoneypot isSafe : Bool) :
    (TelemetryAgent.RecordTokenFiltered (TelemetryAgent.RecordTokenFound m)
        dropped).CandidatesListed = m.CandidatesListed ∧
    (TelemetryAgent.RecordSafetyCheck
        (TelemetryAgent.RecordTokenFiltered (TelemetryAgent.RecordTokenFound m) dropped)
        isHoneypot isSafe).CandidatesListed = m.CandidatesListed ∧
    ∀ duration : Int,
      (TelemetryAgent.RecordDecisionLatency
        (TelemetryAgent.RecordEvaluation
          (TelemetryAgent.RecordSafetyCheck
            (TelemetryAgent.RecordTokenFiltered (TelemetryAgent.RecordTokenFound m) dropped)
            isHoneypot isSafe)) duration).CandidatesListed = m.CandidatesListed := by
  cases dropped <;> cases isHoneypot <;> cases isSafe <;> exact ⟨rfl, rfl, fun _ => rfl⟩

/-- C34: `processToken` calls `AddCandidate` exactly when the prefilter did
not drop the token, the safety report satisfies `CanTrade` (it can be bought
and sold, its honeypot score is below the maximum and the slippage of the
simulated sell is below the maximum) and the action of the decision is list
or buy: then the listing is the one `AddCandidate` returns and the counter of
listed candidates is incremented, otherwise both are unchanged.  For a dropped
token only the two prefilter counters are written, and a decision to skip or
to monitor leaves the listing unchanged. -/
theorem processToken_gating (lib : GoStrings) (o : Orchestrator) (clock : ProcessClock)
    (token : TokenFound) :
    (CanTrade o.config
        (OnChainSafetyAgent.Evaluate clock.safetyNow (Filter lib o.config token)) = true ↔
      (OnChainSafetyAgent.Evaluate clock.safetyNow (Filter lib o.config token)).CanBuy = true ∧
      (OnChainSafetyAgent.Evaluate clock.safetyNow (Filter lib o.config token)).CanSell = true ∧
      (OnChainSafetyAgent.Evaluate clock.safetyNow (Filter lib o.config token)).HoneypotScore
        < o.config.MaxHoneypotScore ∧
      (OnChainSafetyAgent.Evaluate clock.safetyNow
        (Filter lib o.config token)).SimulatedSell.Slippage < o.config.MaxSlippage) ∧
    (((Filter lib o.config token).Dropped = false ∧
        CanTrade o.config
          (OnChainSafetyAgent.Evaluate clock.safetyNow (Filter lib o.config token)) = true ∧
        ((Evaluate o.config clock.strategyNow
            (OnChainSafetyAgent.Evaluate clock.safetyNow (Filter lib o.config token))
            (Gather o.config clock.gatherNow (Filter lib o.config token))
            (Filter lib o.config token)).Action = "list" ∨
          (Evaluate o.config clock.strategyNow
            (OnChainSafetyAgent.Evaluate clock.safetyNow (Filter lib o.config token))
            (Gather o.config clock.gatherNow (Filter lib o.config token))
            (Filter lib o.config token)).Action = "buy")) →
      (processToken lib o clock token).listing =
        (AddCandidate o.listing clock.listedNow token
          (OnChainSafetyAgent.Evaluate clock.safetyNow (Filter lib o.config token))
          (Gather o.config clock.gatherNow (Filter lib o.config token))
          (Evaluate o.config clock.strategyNow
            (OnChainSafetyAgent.Evaluate clock.safetyNow (Filter lib o.config token))
            (Gather o.config clock.gatherNow (Filter lib o.config token))
            (Filter lib o.config token))).1 ∧
      storedStatus (processToken lib o clock token).listing token.TokenAddress =
        some "pending" ∧
      (processToken lib o clock token).telemetry.CandidatesListed =
        increment o.telemetry.CandidatesListed) ∧
    (¬ ((Filter lib o.config token).Dropped = false ∧
        CanTrade o.config
          (OnChainSafetyAgent.Evaluate clock.safetyNow (Filter lib o.config token)) = true ∧
        ((Evaluate o.config clock.strategyNow
            (OnChainSafetyAgent.Evaluate clock.safetyNow (Filter lib o.config token))
            (Gather o.config clock.gatherNow (Filter lib o.config token))
            (Filter lib o.config token)).Action = "list" ∨
          (Evaluate o.config clock.strategyNow
            (OnChainSafetyAgent.Evaluate clock.safetyNow (Filter lib o.config token))
            (Gather o.config clock.gatherNow (Filter lib o.config token))
            (Filter lib o.config token)).Action = "buy")) →
      (processToken lib o clock token).listing = o.listing ∧
      (processToken lib o clock token).telemetry.CandidatesListed =
        o.telemetry.CandidatesListed) ∧
    ((Filter lib o.config token).Dropped = true →
      processToken lib o clock token =
        { o with
          telemetry :=
            TelemetryAgent.RecordTokenFiltered (TelemetryAgent.RecordTokenFound o.telemetry)
              true } ∧
      (processToken lib o clock token).telemetry.SafetyChecks = o.telemetry.SafetyChecks ∧
      (processToken lib o clock token).telemetry.Evaluations = o.telemetry.Evaluations) ∧
    (((Evaluate o.config clock.strategyNow
          (OnChainSafetyAgent.Evaluate clock.safetyNow (Filter lib o.config token))
          (Gather o.config clock.gatherNow (Filter lib o.config token))
          (Filter lib o.config token)).Action = "skip" ∨
        (Evaluate o.config clock.strategyNow
          (OnChainSafetyAgent.Evaluate clock.safetyNow (Filter lib o.config token))
          (Gather o.config clock.gatherNow (Filter lib o.config token))
          (Filter lib o.config token)).Action = "monitor") →
      (processToken lib o clock token).listing = o.listing) := by
  have hskip : ∀ action : String, action = "skip" ∨ action = "monitor" →
      ¬ (action = "list" ∨ action = "buy") := by
    intro action h
    rcases h with h | h <;> subst h <;> decide
  refine ⟨CanTrade_iff _ _, ?_, ?_, ?_, ?_⟩
  · rintro ⟨hdrop, hsafe, hact⟩
    have hlist : (processToken lib o clock token).listing =
        (AddCandidate o.listing clock.listedNow token
          (OnChainSafetyAgent.Evaluate clock.safetyNow (Filter lib o.config token))
          (Gather o.config clock.gatherNow (Filter lib o.config token))
          (Evaluate o.config clock.strategyNow
            (OnChainSafetyAgent.Evaluate clock.safetyNow (Filter lib o.config token))
            (Gather o.config clock.gatherNow (Filter lib o.config token))
            (Filter lib o.config token))).1 := by
      unfold processToken
      simp only [hdrop, hsafe, Bool.false_eq_true, if_false, Bool.not_true]
      rw [if_pos hact]
    refine ⟨hlist, ?_, ?_⟩
    · rw [hlist]
      unfold storedStatus GetCandidate
      rw [AddCandidate_candidates, mapLookup_mapStore_same]
      rfl
    · unfold processToken
      simp only [hdrop, hsafe, Bool.false_eq_true, if_false, Bool.not_true]
      rw [if_pos hact]
      show increment (TelemetryAgent.RecordDecisionLatency _ _).CandidatesListed = _
      rw [(gates_keep_listed o.telemetry false _ true).2.2]
  · intro hnot
    unfold processToken
    simp only []
    split_ifs with h1 h2 h3
    · exact ⟨rfl, (gates_keep_listed o.telemetry _ false false).1⟩
    · exact ⟨rfl, (gates_keep_listed o.telemetry _ _ _).2.1⟩
    · exfalso
      apply hnot
      refine ⟨by simpa using h1, by simpa using h2, h3⟩
    · exact ⟨rfl, (gates_keep_listed o.telemetry _ _ _).2.2 _⟩
  · intro hdrop
    have heq : processToken lib o clock token =
        { o with
          telemetry :=
            TelemetryAgent.RecordTokenFiltered (TelemetryAgent.RecordTokenFound o.telemetry)
              true } := by
      unfold processToken
      simp only [hdrop, if_true]
    refine ⟨heq, ?_, ?_⟩
    · rw [heq]
      unfold TelemetryAgent.RecordTokenFiltered TelemetryAgent.RecordTokenFound
      simp
    · rw [heq]
      unfold TelemetryAgent.RecordTokenFiltered TelemetryAgent.RecordTokenFound
      simp
  · intro hact
    have hno := hskip _ hact
    unfold processToken
    simp only []
    split_ifs <;> rfl

theorem abc_filtered :
    Filter asciiStrings eagerConfig (tokenAt "0xabc" "0xdef" 20000 []) =
      { Token := tokenAt "0xabc" "0xdef" 20000 [], Priority := "medium", Dropped := false,
        Reasons := [] } := by
  rfl

theorem abc_tradable :
    CanTrade eagerConfig
      (OnChainSafetyAgent.Evaluate 0
        (Filter asciiStrings eagerConfig (tokenAt "0xabc" "0xdef" 20000 []))) = true := by
  rw [abc_filtered]
  norm_num [CanTrade, OnChainSafetyAgent.Evaluate, evaluateEVM, calculateHoneypotScore, tokenAt,
    eagerConfig, defaultConfig]

theorem abc_bought :
    (Evaluate eagerConfig 0
      (OnChainSafetyAgent.Evaluate 0
        (Filter asciiStrings eagerConfig (tokenAt "0xabc" "0xdef" 20000 [])))
      (Gather eagerConfig 0 (Filter asciiStrings eagerConfig (tokenAt "0xabc" "0xdef" 20000 [])))
      (Filter asciiStrings eagerConfig (tokenAt "0xabc" "0xdef" 20000 []))).Action = "buy" := by
  rw [abc_filtered, Evaluate_Action]
  have h1 : ¬ "medium" = "high" := by decide
  have h2 : ¬ "medium" = "low" := by decide
  have h3 : ¬ "falling" = "rising" := by decide
  norm_num [h1, h2, h3, calculateWinProbability, winProbabilityScore, clampProbability,
    determineConfidence, liquidityImbalance, OnChainSafetyAgent.Evaluate, evaluateEVM,
    calculateHoneypotScore, Gather, determineVelocity, totalMentions, wrapInt64, tokenAt,
    eagerConfig, defaultConfig]

/-- C34 at a fresh orchestrator with the eager configuration and a token on
Base that passes every gate: the token is registered as pending and the
counter of listed candidates is incremented. -/
theorem processToken_gating_witness :
    storedStatus
        (processToken asciiStrings (NewOrchestrator eagerConfig 0) stillProcessClock
          (tokenAt "0xabc" "0xdef" 20000 [])).listing "0xabc" = some "pending" ∧
      (processToken asciiStrings (NewOrchestrator eagerConfig 0) stillProcessClock
          (tokenAt "0xabc" "0xdef" 20000 [])).telemetry.CandidatesListed =
        increment (NewOrchestrator eagerConfig 0).telemetry.CandidatesListed :=
  ((processToken_gating asciiStrings (NewOrchestrator eagerConfig 0) stillProcessClock
    (tokenAt "0xabc" "0xdef" 20000 [])).2.1 ⟨by decide, abc_tradable, Or.inr abc_bought⟩).2

/-! ## float64 arithmetic: lemmas -/

theorem bitsBelow_lower (level : Nat) :
    ∀ n : Nat, 0 < Float64.bitsBelow level n → 2 ^ (Float64.bitsBelow level n - 1) ≤ n := by
  induction level with
  | zero =>
    intro n h
    unfold Float64.bitsBelow at h ⊢
    by_cases h0 : n = 0
    · simp [h0] at h
    · simp only [h0, if_false]
      exact Nat.one_le_iff_ne_zero.mpr h0
  | succ level ih =>
    intro n h
    unfold Float64.bitsBelow at h ⊢
    by_cases hb : 2 ^ 2 ^ level ≤ n
    · simp only [hb, if_true] at h ⊢
      have hpos : 0 < 2 ^ 2 ^ level := Nat.pow_pos (by norm_num)
      by_cases hr : 0 < Float64.bitsBelow level (n / 2 ^ 2 ^ level)
      · have h1 := ih _ hr
        have h2 : 2 ^ 2 ^ level * 2 ^ (Float64.bitsBelow level (n / 2 ^ 2 ^ level) - 1) ≤ n :=
          le_trans (Nat.mul_le_mul_left _ h1) (Nat.mul_div_le n _)
        have e : 2 ^ level + Float64.bitsBelow level (n / 2 ^ 2 ^ level) - 1 =
            2 ^ level + (Float64.bitsBelow level (n / 2 ^ 2 ^ level) - 1) := by omega
        rw [e, pow_add]
        exact h2
      · have hz : Float64.bitsBelow level (n / 2 ^ 2 ^ level) = 0 := by omega
        rw [hz, Nat.add_zero]
        exact le_trans (Nat.pow_le_pow_right (by norm_num) (Nat.sub_le _ _)) hb
    · simp only [hb, if_false] at h ⊢
      exact ih n h

theorem excessBits_lower (q : Nat) (h : 0 < Float64.excessBits q) :
    2 ^ 52 ≤ q / 2 ^ Float64.excessBits q := by
  unfold Float64.excessBits at h ⊢
  have hb : 0 < Float64.bitLength q := by omega
  have hl : 2 ^ (Float64.bitLength q - 1) ≤ q := bitsBelow_lower _ q hb
  have e : Float64.bitLength q - 1 = 52 + (Float64.bitLength q - 53) := by omega
  rw [e, pow_add] at hl
  exact (Nat.le_div_iff_mul_le (Nat.pow_pos (by norm_num))).mpr hl

theorem nearestEven_ge (num den : Nat) : num / den ≤ Float64.nearestEven num den := by
  unfold Float64.nearestEven
  split_ifs <;> omega

theorem roundMagnitude_ge (T num den : Nat) (hden : 0 < den) (hT : Float64.Representable T)
    (h : T * den ≤ num) : T ≤ Float64.roundMagnitude num den := by
  have hq : T ≤ num / den := (Nat.le_div_iff_mul_le hden).mpr h
  unfold Float64.roundMagnitude
  have hpos : 0 < 2 ^ Float64.excessBits (num / den) := Nat.pow_pos (by norm_num)
  have hfloor : num / den / 2 ^ Float64.excessBits (num / den) * 2 ^ Float64.excessBits (num / den)
      ≤ Float64.nearestEven num (den * 2 ^ Float64.excessBits (num / den)) *
        2 ^ Float64.excessBits (num / den) := by
    apply Nat.mul_le_mul_right
    rw [Nat.div_div_eq_div_mul]
    exact nearestEven_ge _ _
  refine le_trans ?_ hfloor
  by_cases hs : 0 < Float64.excessBits (num / den)
  · have hlow := excessBits_lower _ hs
    obtain ⟨m, j, hm, rfl⟩ := hT
    by_cases hj : Float64.excessBits (num / den) ≤ j
    · have e : m * 2 ^ j = m * 2 ^ (j - Float64.excessBits (num / den)) *
          2 ^ Float64.excessBits (num / den) := by
        rw [Nat.mul_assoc, ← pow_add, Nat.sub_add_cancel hj]
      rw [e] at hq ⊢
      apply Nat.mul_le_mul_right
      exact (Nat.le_div_iff_mul_le hpos).mpr hq
    · have hj2 : j + 1 ≤ Float64.excessBits (num / den) := by omega
      have h1 : m * 2 ^ j ≤ 2 ^ 53 * 2 ^ j := Nat.mul_le_mul_right _ (le_of_lt hm)
      have h2 : 2 ^ 53 * 2 ^ j = 2 ^ 52 * 2 ^ (j + 1) := by
        rw [pow_succ]
        ring
      have h3 : 2 ^ 52 * 2 ^ (j + 1) ≤ 2 ^ 52 * 2 ^ Float64.excessBits (num / den) :=
        Nat.mul_le_mul_left _ (Nat.pow_le_pow_right (by norm_num) hj2)
      have h4 : 2 ^ 52 * 2 ^ Float64.excessBits (num / den) ≤
          num / den / 2 ^ Float64.excessBits (num / den) *
            2 ^ Float64.excessBits (num / den) := Nat.mul_le_mul_right _ hlow
      omega
  · have hz : Float64.excessBits (num / den) = 0 := by omega
    rw [hz]
    simpa using hq

theorem round_ge (T num den : Nat) (hden : 0 < den) (hT : Float64.Representable T)
    (h : T * den ≤ num) :
    Float64.le (Float64.finite false T) (Float64.round false num den) = true := by
  unfold Float64.round
  split_ifs
  · have := roundMagnitude_ge T num den hden hT h
    simp only [Float64.le, Float64.signed, Bool.false_eq_true, if_false, decide_eq_true_eq]
    exact_mod_cast this
  · rfl

/-! ## Safety evaluator: the honeypot score in float64 -/

theorem ofRat_honeypot_weights :
    Float64.ofRat (50 / 100) = 0.5 ∧ Float64.ofRat (30 / 100) = 0.3 ∧
    Float64.ofRat (20 / 100) = 0.2 ∧ Float64.ofRat (10 / 100) = 0.1 ∧
    Float64.ofRat (15 / 100) = 0.15 ∧ Float64.ofRat (5 / 100) = 0.05 := by
  decide!

theorem honeypot_tests_bound :
    ∀ t1 t2 t3 t4 t5 t6 t7 t8 : Bool,
      (0 : Float64) ≤ IEEE.capOne (IEEE.sumInOrder 0.0 (IEEE.floatRows
        [(t1, 50 / 100), (t2, 30 / 100), (t3, 20 / 100), (t4, 10 / 100), (t5, 15 / 100),
          (t6, 10 / 100), (t7, 10 / 100), (t8, 5 / 100)])) ∧
      IEEE.capOne (IEEE.sumInOrder 0.0 (IEEE.floatRows
        [(t1, 50 / 100), (t2, 30 / 100), (t3, 20 / 100), (t4, 10 / 100), (t5, 15 / 100),
          (t6, 10 / 100), (t7, 10 / 100), (t8, 5 / 100)])) ≤ 1 ∧
      |(IEEE.capOne (IEEE.sumInOrder 0.0 (IEEE.floatRows
        [(t1, 50 / 100), (t2, 30 / 100), (t3, 20 / 100), (t4, 10 / 100), (t5, 15 / 100),
          (t6, 10 / 100), (t7, 10 / 100), (t8, 5 / 100)]))).toRat -
        min 1 (sumOfHolding
          [(t1, 50 / 100), (t2, 30 / 100), (t3, 20 / 100), (t4, 10 / 100), (t5, 15 / 100),
            (t6, 10 / 100), (t7, 10 / 100), (t8, 5 / 100)])| ≤ 1 / 2 ^ 52 := by
  decide!

theorem calculateHoneypotScore_eq (report : IEEE.SafetyReport) :
    IEEE.calculateHoneypotScore report =
      IEEE.capOne (IEEE.sumInOrder 0.0 (IEEE.floatRows (IEEE.honeypotWeights report))) := by
  obtain ⟨h1, h2, h3, h4, h5, h6⟩ := ofRat_honeypot_weights
  unfold IEEE.floatRows IEEE.honeypotWeights
  simp only [List.map, h1, h2, h3, h4, h5, h6]
  rfl

/-- C16 as stated fails: for a report that cannot be sold, with a slippage of
one half, an owner that has not renounced, a transfer hook and a tax of one
fifth, the weights of the conditions that hold are 0.50, 0.20, 0.10, 0.10
and 0.10, whose sum is 1, and `calculateHoneypotScore` returns
0.9999999999999999. -/
theorem honeypot_score_below_weight_sum :
    sumOfHolding (IEEE.honeypotWeights IEEE.trappedSafety) = 1 ∧
    IEEE.calculateHoneypotScore IEEE.trappedSafety = 0.9999999999999999 ∧
    (IEEE.calculateHoneypotScore IEEE.trappedSafety).toRat <
      min 1 (sumOfHolding (IEEE.honeypotWeights IEEE.trappedSafety)) := by
  decide!

/-- C16, amended: for every safety report, `calculateHoneypotScore` returns
the float64 sum, accumulated from 0 in the order of the list, of the weights
of the conditions that hold, replaced by 1 when it is above 1; the score lies
in [0, 1] and differs from min(1, sum of the weights) by at most 2^-52. -/
theorem honeypotScore_float_sum (report : IEEE.SafetyReport) :
    IEEE.calculateHoneypotScore report =
      IEEE.capOne (IEEE.sumInOrder 0.0 (IEEE.floatRows (IEEE.honeypotWeights report))) ∧
    (0 : Float64) ≤ IEEE.calculateHoneypotScore report ∧
    IEEE.calculateHoneypotScore report ≤ 1 ∧
    |(IEEE.calculateHoneypotScore report).toRat -
      min 1 (sumOfHolding (IEEE.honeypotWeights report))| ≤ 1 / 2 ^ 52 := by
  rw [calculateHoneypotScore_eq]
  exact ⟨rfl, honeypot_tests_bound _ _ _ _ _ _ _ _⟩

/-! ## Strategy evaluator: the position size in float64 -/

theorem Float64.one_eq : Float64.one = 2 ^ 1074 := by
  delta Float64.one
  rfl

theorem Float64.one_pos : 0 < Float64.one := by
  decide!

theorem Float64.hundred_eq : (100 : Float64) = Float64.finite false (100 * Float64.one) := by
  decide!

theorem Float64.le_finite_cases (T : Nat) (hT : 0 < T) (x : Float64)
    (h : Float64.le (Float64.finite false T) x = true) :
    x = Float64.inf false ∨ ∃ k, x = Float64.finite false k ∧ T ≤ k := by
  cases x with
  | nan => simp [Float64.le] at h
  | inf b =>
    cases b with
    | false => exact Or.inl rfl
    | true => simp [Float64.le] at h
  | finite s k =>
    cases s with
    | false =>
      refine Or.inr ⟨k, rfl, ?_⟩
      simp only [Float64.le, Float64.signed, Bool.false_eq_true, if_false,
        decide_eq_true_eq] at h
      exact_mod_cast h
    | true =>
      simp only [Float64.le, Float64.signed, Bool.false_eq_true, if_false, if_true,
        decide_eq_true_eq] at h
      have h1 : (0 : Int) ≤ (k : Int) := Int.ofNat_nonneg k
      have h2 : (0 : Int) < (T : Int) := by exact_mod_cast hT
      omega

theorem Float64.representable_scaled (c : Nat) (hc : c < 2 ^ 53) :
    Float64.Representable (c * Float64.one) :=
  ⟨c, 1074, hc, by rw [Float64.one_eq]⟩

/-- From 100 on, `math.Round(x*100)/100` stays at 100 or above. -/
theorem roundCents_ge_hundred (m : Nat) (hm : 100 * Float64.one ≤ m) :
    Float64.le 100
      (Float64.mathRound (Float64.finite false m * 100) / 100) = true := by
  have hone := Float64.one_pos
  have hmul : Float64.finite false m * 100 =
      Float64.round false (m * (100 * Float64.one)) Float64.one := by
    rw [Float64.hundred_eq]
    rfl
  have h1 : Float64.le (Float64.finite false (10000 * Float64.one))
      (Float64.round false (m * (100 * Float64.one)) Float64.one) = true := by
    apply round_ge _ _ _ hone (Float64.representable_scaled 10000 (by norm_num))
    calc 10000 * Float64.one * Float64.one = 100 * Float64.one * (100 * Float64.one) := by ring
      _ ≤ m * (100 * Float64.one) := Nat.mul_le_mul_right _ hm
  rw [hmul]
  rcases Float64.le_finite_cases _ (by omega) _ h1 with hinf | ⟨k, hk, hle⟩
  · rw [hinf, Float64.hundred_eq]
    rfl
  · rw [hk]
    have hround : Float64.mathRound (Float64.finite false k) =
        Float64.finite false ((k + Float64.one / 2) / Float64.one * Float64.one) := rfl
    have hk2 : 10000 * Float64.one ≤ (k + Float64.one / 2) / Float64.one * Float64.one := by
      apply Nat.mul_le_mul_right
      apply (Nat.le_div_iff_mul_le hone).mpr
      omega
    rw [hround]
    have hdiv : Float64.finite false ((k + Float64.one / 2) / Float64.one * Float64.one) / 100 =
        Float64.round false ((k + Float64.one / 2) / Float64.one * Float64.one * Float64.one)
          (100 * Float64.one) := by
      rw [Float64.hundred_eq]
      show Float64.div _ _ = _
      unfold Float64.div
      have hne : 100 * Float64.one ≠ 0 := by omega
      simp only [hne, if_false]
      rfl
    rw [hdiv, Float64.hundred_eq]
    apply round_ge _ _ _ (by omega) (Float64.representable_scaled 100 (by norm_num))
    calc 100 * Float64.one * (100 * Float64.one) = 10000 * Float64.one * Float64.one := by ring
      _ ≤ (k + Float64.one / 2) / Float64.one * Float64.one * Float64.one :=
        Nat.mul_le_mul_right _ hk2

theorem amount_ge_hundred (p : Float64) (hp : p ≠ Float64.nan) :
    Float64.le 100 (Float64.mathRound (IEEE.atLeastHundred p * 100) / 100) = true := by
  have hconst : Float64.le 100 (Float64.mathRound ((100 : Float64) * 100) / 100) = true := by
    decide!
  unfold IEEE.atLeastHundred
  cases hlt : p.lt 100 with
  | true =>
    simp only [if_true]
    exact hconst
  | false =>
    simp only [Bool.false_eq_true, if_false]
    cases p with
    | nan => exact absurd rfl hp
    | inf b =>
      cases b with
      | true =>
        rw [Float64.hundred_eq] at hlt
        simp [Float64.lt] at hlt
      | false =>
        rw [Float64.hundred_eq]
        have hne : 100 * Float64.one ≠ 0 := by
          have := Float64.one_pos
          omega
        show Float64.le _ (Float64.div (Float64.mathRound (Float64.mul _ _)) _) = true
        unfold Float64.mul
        simp only [hne, if_false]
        rfl
    | finite s m =>
      rw [Float64.hundred_eq] at hlt
      simp only [Float64.lt, Float64.signed, Bool.false_eq_true, if_false,
        decide_eq_false_iff_not, not_lt] at hlt
      cases s with
      | true =>
        simp only [if_true] at hlt
        have h1 : (0 : Int) ≤ (m : Int) := Int.ofNat_nonneg m
        have h2 : (0 : Int) < ((100 * Float64.one : Nat) : Int) := by
          have := Float64.one_pos
          exact_mod_cast (by omega : 0 < 100 * Float64.one)
        omega
      | false =>
        simp only [Bool.false_eq_true, if_false] at hlt
        exact roundCents_ge_hundred m (by exact_mod_cast hlt)

theorem IEEE_determineConfidence_cases (cfg : IEEE.Config) (safety : IEEE.SafetyReport)
    (offchain : IEEE.OffChainMetrics) (winProb : Float64) :
    IEEE.determineConfidence cfg safety offchain winProb = "high" ∨
    IEEE.determineConfidence cfg safety offchain winProb = "medium" ∨
    IEEE.determineConfidence cfg safety offchain winProb = "low" := by
  unfold IEEE.determineConfidence
  split_ifs
  · exact Or.inl rfl
  · exact Or.inr (Or.inl rfl)
  · exact Or.inr (Or.inr rfl)

theorem IEEE_Evaluate_Confidence (cfg : IEEE.Config) (now : Time) (safety : IEEE.SafetyReport)
    (offchain : IEEE.OffChainMetrics) (token : IEEE.PreFilteredToken) :
    (IEEE.Evaluate cfg now safety offchain token).Confidence =
      IEEE.determineConfidence cfg safety offchain
        (IEEE.calculateWinProbability cfg safety offchain token) := rfl

theorem IEEE_positionSize_of_confidence (cfg : IEEE.Config) (decision : IEEE.StrategyDecision)
    (h : decision.Confidence = "high" ∨ decision.Confidence = "medium" ∨
      decision.Confidence = "low") :
    IEEE.calculatePositionSize cfg decision =
      Float64.mathRound
        (IEEE.atLeastHundred
          (cfg.AccountBalance * cfg.SinglePositionPct *
            IEEE.confidenceMultiplier decision.Confidence) * 100) / 100 := by
  unfold IEEE.calculatePositionSize IEEE.confidenceMultiplier IEEE.atLeastHundred
  rcases h with h | h | h <;> rw [h] <;> rfl

/-- C22 as stated fails: with a balance of 10251.3, a share of 0.05 and high
confidence the maximum is 512.565, which rounds to 512.57, and `Evaluate`
suggests 512.56; and with a balance that is NaN the suggested amount is NaN,
which is not at least 100. -/
theorem suggestedAmount_not_decimal_rounding :
    (IEEE.Evaluate IEEE.tieConfig 7 IEEE.cleanSafety IEEE.sampleMetrics
      IEEE.sampleToken).Confidence = "high" ∧
    max (100 : ℚ) (102513 / 10 * (5 / 100) * 1) = 512565 / 1000 ∧
    (IEEE.Evaluate IEEE.tieConfig 7 IEEE.cleanSafety IEEE.sampleMetrics
      IEEE.sampleToken).SuggestedAmountUSD = 512.56 ∧
    (IEEE.Evaluate IEEE.tieConfig 7 IEEE.cleanSafety IEEE.sampleMetrics
      IEEE.sampleToken).SuggestedAmountUSD ≠ 512.57 ∧
    (IEEE.Evaluate IEEE.nanConfig 7 IEEE.cleanSafety IEEE.sampleMetrics
      IEEE.sampleToken).SuggestedAmountUSD = Float64.nan ∧
    ¬ (100 : Float64) ≤ (IEEE.Evaluate IEEE.nanConfig 7 IEEE.cleanSafety IEEE.sampleMetrics
      IEEE.sampleToken).SuggestedAmountUSD := by
  decide!

/-- C22, amended: for every decision returned by `Evaluate`, the confidence
is high, medium or low and the suggested amount is
`math.Round(a*100)/100` in float64, where `a` is the float64 product
balance * share * mult (mult = 1.0 for high, 0.7 for medium, 0.4 for low)
when that product is not below 100, and 100 when it is; hence the suggested
amount is at least 100 for every configuration for which the product is not
NaN, and it is NaN when the product is. -/
theorem suggestedAmount_float (cfg : IEEE.Config) (now : Time) (safety : IEEE.SafetyReport)
    (offchain : IEEE.OffChainMetrics) (token : IEEE.PreFilteredToken) :
    ((IEEE.Evaluate cfg now safety offchain token).Confidence = "high" ∨
      (IEEE.Evaluate cfg now safety offchain token).Confidence = "medium" ∨
      (IEEE.Evaluate cfg now safety offchain token).Confidence = "low") ∧
    (IEEE.Evaluate cfg now safety offchain token).SuggestedAmountUSD =
      Float64.mathRound
        (IEEE.atLeastHundred
          (cfg.AccountBalance * cfg.SinglePositionPct *
            IEEE.confidenceMultiplier
              (IEEE.Evaluate cfg now safety offchain token).Confidence) * 100) / 100 ∧
    (cfg.AccountBalance * cfg.SinglePositionPct *
        IEEE.confidenceMultiplier (IEEE.Evaluate cfg now safety offchain token).Confidence
        ≠ Float64.nan →
      (100 : Float64) ≤ (IEEE.Evaluate cfg now safety offchain token).SuggestedAmountUSD) ∧
    (cfg.AccountBalance * cfg.SinglePositionPct *
        IEEE.confidenceMultiplier (IEEE.Evaluate cfg now safety offchain token).Confidence
        = Float64.nan →
      (IEEE.Evaluate cfg now safety offchain token).SuggestedAmountUSD = Float64.nan) := by
  have hconf := IEEE_determineConfidence_cases cfg safety offchain
    (IEEE.calculateWinProbability cfg safety offchain token)
  rw [← IEEE_Evaluate_Confidence cfg now] at hconf
  have hsize : (IEEE.Evaluate cfg now safety offchain token).SuggestedAmountUSD =
      Float64.mathRound
        (IEEE.atLeastHundred
          (cfg.AccountBalance * cfg.SinglePositionPct *
            IEEE.confidenceMultiplier
              (IEEE.Evaluate cfg now safety offchain token).Confidence) * 100) / 100 :=
    IEEE_positionSize_of_confidence cfg _ hconf
  refine ⟨hconf, hsize, ?_, ?_⟩
  · intro hp
    rw [hsize]
    exact amount_ge_hundred _ hp
  · intro hp
    rw [hsize, hp]
    decide!

/-- C22 at the default configuration and a clean, active token: the product
is 100 and the suggested amount is 100. -/
theorem suggestedAmount_float_witness :
    (IEEE.Evaluate IEEE.defaultConfig 7 IEEE.cleanSafety IEEE.sampleMetrics
      IEEE.sampleToken).SuggestedAmountUSD = 100 ∧
    (100 : Float64) ≤ (IEEE.Evaluate IEEE.defaultConfig 7 IEEE.cleanSafety IEEE.sampleMetrics
      IEEE.sampleToken).SuggestedAmountUSD :=
  ⟨by decide!,
    (suggestedAmount_float IEEE.defaultConfig 7 IEEE.cleanSafety IEEE.sampleMetrics
      IEEE.sampleToken).2.2.1 (by decide!)⟩

/-! ## Strategy evaluator: expected return and take profit in float64 -/

theorem IEEE_Evaluate_ExpectedROI (cfg : IEEE.Config) (now : Time) (safety : IEEE.SafetyReport)
    (offchain : IEEE.OffChainMetrics) (token : IEEE.PreFilteredToken) :
    (IEEE.Evaluate cfg now safety offchain token).ExpectedROI =
      (IEEE.calculateExpectedROI cfg safety offchain token).1 := rfl

theorem IEEE_Evaluate_TakeProfitPct (cfg : IEEE.Config) (now : Time)
    (safety : IEEE.SafetyReport) (offchain : IEEE.OffChainMetrics)
    (token : IEEE.PreFilteredToken) :
    (IEEE.Evaluate cfg now safety offchain token).TakeProfitPct =
      Float64.mathRound
        (IEEE.clampTakeProfit ((IEEE.calculateExpectedROI cfg safety offchain token).1 * 1.5)
          * 100) / 100 := rfl

theorem roi_tests_table :
    ∀ v l r : Bool,
      (v = false → l = false → r = false →
        (IEEE.sumInOrder 0.15 [(v, 0.10), (l, 0.08), (r, 0.12)] = 0.15 ∧
          Float64.mathRound (IEEE.clampTakeProfit
            (IEEE.sumInOrder 0.15 [(v, 0.10), (l, 0.08), (r, 0.12)] * 1.5) * 100) / 100
            = 0.22)) ∧
      (0.20 : Float64) ≤ Float64.mathRound (IEEE.clampTakeProfit
          (IEEE.sumInOrder 0.15 [(v, 0.10), (l, 0.08), (r, 0.12)] * 1.5) * 100) / 100 ∧
      Float64.mathRound (IEEE.clampTakeProfit
          (IEEE.sumInOrder 0.15 [(v, 0.10), (l, 0.08), (r, 0.12)] * 1.5) * 100) / 100
        ≤ (1.00 : Float64) ∧
      Float64.mathRound (IEEE.clampTakeProfit
          (IEEE.sumInOrder 0.15 [(v, 0.10), (l, 0.08), (r, 0.12)] * 1.5) * 100) / 100 ∈
        ([0.22, 0.41, 0.35, 0.52, 0.38, 0.55, 0.5, 0.68] : List Float64) := by
  decide!

/-- C23 as stated fails: on the path where no bonus applies the expected
return is 0.15, its float64 product with 1.5 is 0.22499999999999998, which
the clamp leaves as it is, and the take profit is 0.22: neither the clamped
product nor 0.225. -/
theorem takeProfit_not_the_clamped_product :
    (IEEE.Evaluate IEEE.defaultConfig 7 IEEE.cleanSafety IEEE.quietMetrics
      IEEE.smallToken).ExpectedROI = 0.15 ∧
    IEEE.clampTakeProfit ((0.15 : Float64) * 1.5) = 0.22499999999999998 ∧
    (IEEE.Evaluate IEEE.defaultConfig 7 IEEE.cleanSafety IEEE.quietMetrics
      IEEE.smallToken).TakeProfitPct = 0.22 ∧
    (IEEE.Evaluate IEEE.defaultConfig 7 IEEE.cleanSafety IEEE.quietMetrics
      IEEE.smallToken).TakeProfitPct ≠ IEEE.clampTakeProfit ((0.15 : Float64) * 1.5) ∧
    (IEEE.Evaluate IEEE.defaultConfig 7 IEEE.cleanSafety IEEE.quietMetrics
      IEEE.smallToken).TakeProfitPct ≠ 0.225 := by
  decide!

/-- C23, amended: for every decision returned by `Evaluate`, the take profit
is the float64 product of the expected return and 1.5, clamped to
[0.20, 1.00] and then rounded by `math.Round(x*100)/100`, all in float64.  The
expected return is the float64 sum 0.15 (+ 0.10) (+ 0.08) (+ 0.12) of the
bonuses that apply, so the take profit is one of 0.22, 0.41, 0.35, 0.52,
0.38, 0.55, 0.50 and 0.68, it lies in [0.20, 1.00], and for an expected
return of 0.15 it is 0.22. -/
theorem takeProfit_float (cfg : IEEE.Config) (now : Time) (safety : IEEE.SafetyReport)
    (offchain : IEEE.OffChainMetrics) (token : IEEE.PreFilteredToken) :
    (IEEE.Evaluate cfg now safety offchain token).TakeProfitPct =
      Float64.mathRound
        (IEEE.clampTakeProfit ((IEEE.Evaluate cfg now safety offchain token).ExpectedROI * 1.5)
          * 100) / 100 ∧
    (IEEE.Evaluate cfg now safety offchain token).ExpectedROI =
      IEEE.sumInOrder 0.15
        [ (offchain.Volume24hDEX.gt (cfg.MinVolumeDEX * 2), 0.10),
          (token.Token.InitialLiquidity.ReserveNative.gt (cfg.MinLiquidity * 2), 0.08),
          (offchain.Velocity == "rising", 0.12) ] ∧
    ((IEEE.Evaluate cfg now safety offchain token).ExpectedROI = 0.15 →
      (IEEE.Evaluate cfg now safety offchain token).TakeProfitPct = 0.22) ∧
    (0.20 : Float64) ≤ (IEEE.Evaluate cfg now safety offchain token).TakeProfitPct ∧
    (IEEE.Evaluate cfg now safety offchain token).TakeProfitPct ≤ (1.00 : Float64) ∧
    (IEEE.Evaluate cfg now safety offchain token).TakeProfitPct ∈
      ([0.22, 0.41, 0.35, 0.52, 0.38, 0.55, 0.5, 0.68] : List Float64) := by
  have hroi : (IEEE.calculateExpectedROI cfg safety offchain token).1 =
      IEEE.sumInOrder 0.15
        [ (offchain.Volume24hDEX.gt (cfg.MinVolumeDEX * 2), 0.10),
          (token.Token.InitialLiquidity.ReserveNative.gt (cfg.MinLiquidity * 2), 0.08),
          (offchain.Velocity == "rising", 0.12) ] := rfl
  rw [IEEE_Evaluate_TakeProfitPct, IEEE_Evaluate_ExpectedROI, hroi]
  have key := roi_tests_table (offchain.Volume24hDEX.gt (cfg.MinVolumeDEX * 2))
    (token.Token.InitialLiquidity.ReserveNative.gt (cfg.MinLiquidity * 2))
    (offchain.Velocity == "rising")
  refine ⟨rfl, rfl, ?_, key.2.1, key.2.2.1, key.2.2.2⟩
  intro h
  have h22 : Float64.mathRound (IEEE.clampTakeProfit ((0.15 : Float64) * 1.5) * 100) / 100
      = 0.22 := by decide!
  rw [h]
  exact h22

/-! ## Strategy evaluator: the win probability in float64 -/

theorem ofRat_deltas :
    Float64.ofRat (15 / 100) = 0.15 ∧ Float64.ofRat (10 / 100) = 0.10 ∧
    Float64.ofRat (-(20 / 100)) = -0.20 ∧ Float64.ofRat (8 / 100) = 0.08 ∧
    Float64.ofRat (7 / 100) = 0.07 ∧ Float64.ofRat (5 / 100) = 0.05 ∧
    Float64.ofRat (-(10 / 100)) = -0.10 ∧ Float64.ofRat (-(5 / 100)) = -0.05 := by
  decide!

theorem winProbabilityScore_eq (cfg : IEEE.Config) (safety : IEEE.SafetyReport)
    (offchain : IEEE.OffChainMetrics) (token : IEEE.PreFilteredToken) :
    IEEE.winProbabilityScore cfg safety offchain token =
      IEEE.sumInOrder 0.5 (IEEE.floatRows (IEEE.exclusiveDeltas cfg safety offchain token)) := by
  obtain ⟨h1, h2, h3, h4, h5, h6, h7, h8⟩ := ofRat_deltas
  unfold IEEE.floatRows IEEE.exclusiveDeltas
  simp only [List.map, h1, h2, h3, h4, h5, h6, h7, h8]
  unfold IEEE.winProbabilityScore IEEE.sumInOrder
  cases safety.HoneypotScore.lt 0.1 <;> cases (offchain.Velocity == "rising") <;>
    cases (token.Priority == "high") <;> rfl

theorem IEEE_Evaluate_WinProbability (cfg : IEEE.Config) (now : Time)
    (safety : IEEE.SafetyReport) (offchain : IEEE.OffChainMetrics)
    (token : IEEE.PreFilteredToken) :
    (IEEE.Evaluate cfg now safety offchain token).WinProbability =
      IEEE.calculateWinProbability cfg safety offchain token := rfl

/-- C18 as stated fails twice.  For a tradable token whose owner has
renounced and which has more than 50 mentions, and no other row that applies,
the decimal sum 0.65 + 0.07 + 0.08 is 0.80 and `Evaluate` returns
0.7999999999999999.
With a honeypot bound of 0.02 and a honeypot score of 0.05 both honeypot
rows hold, and `Evaluate` applies the first one only: it returns a value
above 0.9 where the independent rows give 0.75. -/
theorem winProbability_not_the_decimal_sum :
    clampUnit (65 / 100 + sumOfHolding
      (IEEE.independentDeltas IEEE.defaultConfig IEEE.renouncedSafety IEEE.socialMetrics
        IEEE.smallToken)) = 80 / 100 ∧
    (IEEE.Evaluate IEEE.defaultConfig 7 IEEE.renouncedSafety IEEE.socialMetrics
      IEEE.smallToken).WinProbability = 0.7999999999999999 ∧
    (IEEE.Evaluate IEEE.defaultConfig 7 IEEE.renouncedSafety IEEE.socialMetrics
      IEEE.smallToken).WinProbability.toRat < 80 / 100 ∧
    clampUnit (65 / 100 + sumOfHolding
      (IEEE.independentDeltas IEEE.strictConfig IEEE.cleanSafety IEEE.quietMetrics
        IEEE.smallToken)) = 75 / 100 ∧
    (IEEE.Evaluate IEEE.strictConfig 7 IEEE.cleanSafety IEEE.quietMetrics
      IEEE.smallToken).WinProbability.toRat > 90 / 100 := by
  decide!

/-- C18, amended: for every input with canBuy and canSell both true, the win
probability is the float64 value obtained from 0.5 by adding 0.15 and then,
in the order of the table and with every addition rounded to float64, the
delta of every row that applies (each delta being the float64 nearest to the
decimal constant of the table), clamped to [0, 1]; the second row of the
honeypot pair, of the velocity pair and of the priority pair applies only
when the first row of its pair does not. -/
theorem winProbability_float_table (cfg : IEEE.Config) (now : Time)
    (safety : IEEE.SafetyReport) (offchain : IEEE.OffChainMetrics)
    (token : IEEE.PreFilteredToken)
    (hBuy : safety.CanBuy = true) (hSell : safety.CanSell = true) :
    (IEEE.Evaluate cfg now safety offchain token).WinProbability =
      IEEE.clampProbability
        (IEEE.sumInOrder 0.5
          (IEEE.floatRows (IEEE.exclusiveDeltas cfg safety offchain token))) := by
  rw [IEEE_Evaluate_WinProbability]
  unfold IEEE.calculateWinProbability IEEE.calculateWinProbabilityRun
  rw [hBuy, hSell, winProbabilityScore_eq]
  rfl

/-- C18, amended, at the tradable token whose owner has renounced and which
has more than 50 mentions: the rows that apply are 0.15, 0.07 and 0.08, and
the float64 sum is 0.7999999999999999. -/
theorem winProbability_float_table_witness :
    (IEEE.Evaluate IEEE.defaultConfig 7 IEEE.renouncedSafety IEEE.socialMetrics
      IEEE.smallToken).WinProbability =
      IEEE.clampProbability
        (IEEE.sumInOrder 0.5
          (IEEE.floatRows
            (IEEE.exclusiveDeltas IEEE.defaultConfig IEEE.renouncedSafety IEEE.socialMetrics
              IEEE.smallToken))) ∧
    ((IEEE.exclusiveDeltas IEEE.defaultConfig IEEE.renouncedSafety IEEE.socialMetrics
      IEEE.smallToken).filter (fun row => row.1)).map (fun row => row.2) =
      [15 / 100, 7 / 100, 8 / 100] :=
  ⟨winProbability_float_table IEEE.defaultConfig 7 IEEE.renouncedSafety IEEE.socialMetrics
    IEEE.smallToken rfl rfl, by decide!⟩

/-! ## Strategy evaluator: determinism and the scoring tags -/

theorem wrapInt64_add_wrap (a b : Int) : wrapInt64 (wrapInt64 a + b) = wrapInt64 (a + b) := by
  unfold wrapInt64
  have e63 : (2 : Int) ^ 63 = 9223372036854775808 := by norm_num
  have e64 : (2 : Int) ^ 64 = 18446744073709551616 := by norm_num
  rw [e63, e64]
  omega

theorem foldl_wrap_sum (mentions : List (String × Int)) :
    ∀ acc : Int,
      mentions.foldl (fun acc kv => wrapInt64 (acc + kv.2)) (wrapInt64 acc) =
        wrapInt64 (acc + (mentions.map (fun kv => kv.2)).sum) := by
  induction mentions with
  | nil => intro acc; simp
  | cons kv rest ih =>
    intro acc
    simp only [List.foldl_cons, List.map_cons, List.sum_cons]
    rw [wrapInt64_add_wrap, ih (acc + kv.2)]
    congr 1
    ring

theorem totalMentions_eq_wrap_sum (mentions : List (String × Int)) :
    totalMentions mentions = wrapInt64 ((mentions.map (fun kv => kv.2)).sum) := by
  unfold totalMentions
  have h0 : wrapInt64 0 = 0 := by decide
  have h := foldl_wrap_sum mentions 0
  rw [h0] at h
  rw [h]
  congr 1
  ring

theorem totalMentions_perm (first second : List (String × Int)) (h : first.Perm second) :
    totalMentions first = totalMentions second := by
  rw [totalMentions_eq_wrap_sum, totalMentions_eq_wrap_sum,
    (h.map (fun kv => kv.2)).sum_eq]

theorem calculateWinProbability_mentions (cfg : IEEE.Config) (safety : IEEE.SafetyReport)
    (offchain : IEEE.OffChainMetrics) (token : IEEE.PreFilteredToken)
    (mentions : List (String × Int))
    (h : totalMentions mentions = totalMentions offchain.SocialMentions) :
    IEEE.calculateWinProbability cfg safety { offchain with SocialMentions := mentions } token =
      IEEE.calculateWinProbability cfg safety offchain token := by
  unfold IEEE.calculateWinProbability IEEE.calculateWinProbabilityRun
  have hs : IEEE.winProbabilityScore cfg safety { offchain with SocialMentions := mentions }
      token = IEEE.winProbabilityScore cfg safety offchain token := by
    rw [winProbabilityScore_eq, winProbabilityScore_eq]
    unfold IEEE.exclusiveDeltas
    rw [show ({ offchain with SocialMentions := mentions } : IEEE.OffChainMetrics).SocialMentions
      = mentions from rfl, h]
  rw [hs]
  split_ifs <;> rfl

theorem IEEE_Evaluate_mentions (cfg : IEEE.Config) (now : Time) (safety : IEEE.SafetyReport)
    (offchain : IEEE.OffChainMetrics) (token : IEEE.PreFilteredToken)
    (mentions : List (String × Int))
    (h : totalMentions mentions = totalMentions offchain.SocialMentions) :
    IEEE.Evaluate cfg now safety { offchain with SocialMentions := mentions } token =
      IEEE.Evaluate cfg now safety offchain token := by
  have hw := calculateWinProbability_mentions cfg safety offchain token mentions h
  unfold IEEE.Evaluate
  rw [hw]
  rfl

/-- C24 as stated fails: two calls of `Evaluate` with the same
configuration, safety report, metrics and token, made at the clock readings
1 and 2, return decisions that differ (in `EvaluatedAt`). -/
theorem evaluate_depends_on_clock_reading :
    IEEE.Evaluate IEEE.defaultConfig 1 IEEE.cleanSafety IEEE.sampleMetrics IEEE.sampleToken ≠
      IEEE.Evaluate IEEE.defaultConfig 2 IEEE.cleanSafety IEEE.sampleMetrics IEEE.sampleToken := by
  intro h
  have h2 := congrArg IEEE.StrategyDecision.EvaluatedAt h
  exact absurd h2 (by decide)

/-- C24, amended: two calls of `Evaluate` with the same configuration,
safety report, token and metrics, whose mention map is visited by `range` in
any two orders (`mentions` is a permutation of the entries), made at the
clock readings `now` and `later`, return decisions that are equal in every
field except `EvaluatedAt`, which is the clock reading of each call. -/
theorem evaluate_deterministic_up_to_clock_reading (cfg : IEEE.Config) (now later : Time)
    (safety : IEEE.SafetyReport) (offchain : IEEE.OffChainMetrics)
    (token : IEEE.PreFilteredToken) (mentions : List (String × Int))
    (hperm : mentions.Perm offchain.SocialMentions) :
    IEEE.Evaluate cfg later safety { offchain with SocialMentions := mentions } token =
        { IEEE.Evaluate cfg now safety offchain token with EvaluatedAt := later } ∧
      (IEEE.Evaluate cfg now safety offchain token).EvaluatedAt = now ∧
      (IEEE.Evaluate cfg later safety { offchain with SocialMentions := mentions }
        token).EvaluatedAt = later := by
  refine ⟨?_, rfl, rfl⟩
  rw [IEEE_Evaluate_mentions cfg later safety offchain token mentions
    (totalMentions_perm _ _ hperm)]
  rfl

/-- C24, amended, at metrics with two mention sources visited in the two
possible orders, at the clock readings 1 and 2. -/
theorem evaluate_deterministic_up_to_clock_reading_witness :
    [("telegram", (30 : Int)), ("twitter", 40)].Perm IEEE.twoSourceMetrics.SocialMentions ∧
      IEEE.Evaluate IEEE.defaultConfig 2 IEEE.cleanSafety
          { IEEE.twoSourceMetrics with SocialMentions := [("telegram", 30), ("twitter", 40)] }
          IEEE.sampleToken =
        { IEEE.Evaluate IEEE.defaultConfig 1 IEEE.cleanSafety IEEE.twoSourceMetrics
            IEEE.sampleToken with EvaluatedAt := 2 } :=
  ⟨List.Perm.swap _ _ _,
    (evaluate_deterministic_up_to_clock_reading IEEE.defaultConfig 1 2 IEEE.cleanSafety
      IEEE.twoSourceMetrics IEEE.sampleToken [("telegram", 30), ("twitter", 40)]
      (List.Perm.swap _ _ _)).1⟩

theorem appendHolding_eq (rows : List (Bool × String)) :
    ∀ reasons : List String,
      rows.foldl (fun acc row => if row.1 then acc ++ [row.2] else acc) reasons =
        reasons ++ tagsOfHolding rows := by
  induction rows with
  | nil => intro reasons; simp [tagsOfHolding]
  | cons row rest ih =>
    intro reasons
    rw [List.foldl_cons, ih]
    cases h : row.1 <;> simp [tagsOfHolding, h]

theorem winProbabilityReasons_eq (cfg : IEEE.Config) (safety : IEEE.SafetyReport)
    (offchain : IEEE.OffChainMetrics) (token : IEEE.PreFilteredToken) :
    IEEE.winProbabilityReasons cfg safety offchain token =
      token.Reasons ++ tagsOfHolding (IEEE.scoringTags cfg safety offchain token) := by
  rw [← appendHolding_eq]
  unfold IEEE.winProbabilityReasons IEEE.scoringTags
  cases safety.HoneypotScore.lt 0.1 <;> rfl

/-- C40: the decision `Evaluate` returns has an empty rationale for every
input.  The scoring tags are appended to the copy of the token that
`calculateWinProbability` received by value: when that method returns for a
tradable token, its copy holds the reasons of the argument followed by the
tags of the rows that applied, in the order of the appends (for a token
that cannot be traded it returns before any append); the caller's token and
the decision do not see them, and `Evaluate` returns the same decision
whatever reasons the token arrives with. -/
theorem evaluate_rationale_empty (cfg : IEEE.Config) (now : Time) (safety : IEEE.SafetyReport)
    (offchain : IEEE.OffChainMetrics) (token : IEEE.PreFilteredToken) :
    (IEEE.Evaluate cfg now safety offchain token).Rationale = [] ∧
      (safety.CanBuy = true → safety.CanSell = true →
        (IEEE.calculateWinProbabilityRun cfg safety offchain token).2.Reasons =
          token.Reasons ++ tagsOfHolding (IEEE.scoringTags cfg safety offchain token)) ∧
      ((safety.CanBuy && safety.CanSell) = false →
        (IEEE.calculateWinProbabilityRun cfg safety offchain token).2 = token) ∧
      (∀ reasons : List String,
        IEEE.Evaluate cfg now safety offchain { token with Reasons := reasons } =
          IEEE.Evaluate cfg now safety offchain token) := by
  refine ⟨rfl, ?_, ?_, ?_⟩
  · intro hb hs
    unfold IEEE.calculateWinProbabilityRun
    rw [hb, hs]
    exact winProbabilityReasons_eq cfg safety offchain token
  · intro h
    unfold IEEE.calculateWinProbabilityRun
    rw [h]
    rfl
  · intro reasons
    unfold IEEE.Evaluate IEEE.calculateWinProbability IEEE.calculateWinProbabilityRun
    cases (safety.CanBuy && safety.CanSell) <;> rfl

/-! ## Telemetry: monotonicity with float64 accumulators -/

theorem Float64.add_ge (a b : Float64) (ha : IEEE.NonNegative a)
    (hb : (Float64.finite false 0).le b = true) : a.le (a + b) = true := by
  show a.le (Float64.add a b) = true
  cases a with
  | nan => exact absurd ha (by simp [IEEE.NonNegative])
  | inf negative =>
    have hn : negative = false := ha
    subst hn
    cases b with
    | nan => simp [Float64.le] at hb
    | inf sign =>
      have hs : sign = false := by simpa [Float64.le] using hb
      subst hs
      rfl
    | finite sign magnitude => rfl
  | finite negative m =>
    obtain ⟨hn, hrep⟩ := ha
    subst hn
    cases b with
    | nan => simp [Float64.le] at hb
    | inf sign =>
      have hs : sign = false := by simpa [Float64.le] using hb
      subst hs
      rfl
    | finite sign n =>
      cases sign with
      | false =>
        show (Float64.finite false m).le (Float64.round false (m + n) 1) = true
        exact round_ge m (m + n) 1 (by norm_num) hrep (by omega)
      | true =>
        have hz : n = 0 := by
          simp only [Float64.le, Float64.signed, Bool.false_eq_true, if_false, if_true,
            decide_eq_true_eq] at hb
          omega
        subst hz
        by_cases hm : 0 < m
        · have e : Float64.add (Float64.finite false m) (Float64.finite true 0) =
              Float64.round false (m - 0) 1 := by
            simp [Float64.add, hm]
          rw [e]
          exact round_ge m (m - 0) 1 (by norm_num) hrep (by omega)
        · have hm0 : m = 0 := by omega
          subst hm0
          decide

theorem Float64.nonneg_of_pos (p : Float64) (h : p.gt (Float64.finite false 0) = true) :
    (Float64.finite false 0).le p = true := by
  cases p with
  | nan => simp [Float64.gt, Float64.lt] at h
  | inf sign => simpa [Float64.gt, Float64.lt, Float64.le] using h
  | finite sign n =>
    simp only [Float64.gt, Float64.lt, Float64.le, decide_eq_true_eq] at h ⊢
    omega

theorem Float64.neg_nonneg_of_not_pos (p : Float64) (hp : p ≠ Float64.nan)
    (h : ¬ p.gt (Float64.finite false 0) = true) :
    (Float64.finite false 0).le (-p) = true := by
  show (Float64.finite false 0).le (Float64.neg p) = true
  cases p with
  | nan => exact absurd rfl hp
  | inf sign =>
    cases sign with
    | false => exact absurd rfl h
    | true => rfl
  | finite sign n =>
    simp only [Float64.gt, Float64.lt, decide_eq_true_eq] at h
    simp only [Float64.neg, Float64.le, decide_eq_true_eq]
    cases sign with
    | false =>
      simp only [Float64.signed, Bool.false_eq_true, if_false, Bool.not_false, if_true] at h ⊢
      omega
    | true =>
      simp only [Float64.signed, Bool.false_eq_true, if_false, Bool.not_true, if_true] at h ⊢
      omega

theorem Float64.le_self (a : Float64) (ha : IEEE.NonNegative a) : a.le a = true := by
  cases a with
  | nan => exact absurd ha (by simp [IEEE.NonNegative])
  | inf negative =>
    have hn : negative = false := ha
    subst hn
    rfl
  | finite negative m => simp [Float64.le]

theorem IEEE_step_counters_nonDecreasing (m : IEEE.Metrics) (op : IEEE.TelemetryOp)
    (hbelow : IEEE.countersBelowMax m) (hacc : IEEE.accumulatorsNonNegative m)
    (hop : op.plainAmount) :
    IEEE.countersNonDecreasing m (op.step m) := by
  obtain ⟨h1, h2, h3, h4, h5, h6, h7, h8, h9, h10, h11, h12, h13⟩ := hbelow
  obtain ⟨a1, a2, a3⟩ := hacc
  have f1 := Float64.le_self _ a1
  have f2 := Float64.le_self _ a2
  have f3 := Float64.le_self _ a3
  have i1 := increment_ge _ h1
  have i2 := increment_ge _ h2
  have i3 := increment_ge _ h3
  have i4 := increment_ge _ h4
  have i5 := increment_ge _ h5
  have i6 := increment_ge _ h6
  have i7 := increment_ge _ h7
  have i8 := increment_ge _ h8
  have i9 := increment_ge _ h9
  have i10 := increment_ge _ h10
  have i11 := increment_ge _ h11
  have i12 := increment_ge _ h12
  have i13 := increment_ge _ h13
  cases op with
  | recordTokenScanned =>
    exact ⟨i1, le_refl _, le_refl _, le_refl _, le_refl _, le_refl _, le_refl _, le_refl _,
      le_refl _, le_refl _, le_refl _, le_refl _, le_refl _, f1, f2, f3⟩
  | recordTokenFound =>
    exact ⟨le_refl _, i2, le_refl _, le_refl _, le_refl _, le_refl _, le_refl _, le_refl _,
      le_refl _, le_refl _, le_refl _, le_refl _, le_refl _, f1, f2, f3⟩
  | recordTokenFiltered dropped =>
    cases dropped
    · exact ⟨le_refl _, le_refl _, i3, le_refl _, le_refl _, le_refl _, le_refl _, le_refl _,
        le_refl _, le_refl _, le_refl _, le_refl _, le_refl _, f1, f2, f3⟩
    · exact ⟨le_refl _, le_refl _, i3, i4, le_refl _, le_refl _, le_refl _, le_refl _,
        le_refl _, le_refl _, le_refl _, le_refl _, le_refl _, f1, f2, f3⟩
  | recordSafetyCheck isHoneypot isSafe =>
    cases isHoneypot <;> cases isSafe
    · exact ⟨le_refl _, le_refl _, le_refl _, le_refl _, i5, le_refl _, le_refl _, le_refl _,
        le_refl _, le_refl _, le_refl _, le_refl _, le_refl _, f1, f2, f3⟩
    · exact ⟨le_refl _, le_refl _, le_refl _, le_refl _, i5, le_refl _, i7, le_refl _,
        le_refl _, le_refl _, le_refl _, le_refl _, le_refl _, f1, f2, f3⟩
    · exact ⟨le_refl _, le_refl _, le_refl _, le_refl _, i5, i6, le_refl _, le_refl _,
        le_refl _, le_refl _, le_refl _, le_refl _, le_refl _, f1, f2, f3⟩
    · exact ⟨le_refl _, le_refl _, le_refl _, le_refl _, i5, i6, i7, le_refl _,
        le_refl _, le_refl _, le_refl _, le_refl _, le_refl _, f1, f2, f3⟩
  | recordEvaluation =>
    exact ⟨le_refl _, le_refl _, le_refl _, le_refl _, le_refl _, le_refl _, le_refl _, i8,
      le_refl _, le_refl _, le_refl _, le_refl _, le_refl _, f1, f2, f3⟩
  | recordCandidateListed =>
    exact ⟨le_refl _, le_refl _, le_refl _, le_refl _, le_refl _, le_refl _, le_refl _,
      le_refl _, i9, le_refl _, le_refl _, le_refl _, le_refl _, f1, f2, f3⟩
  | recordExecution success amount =>
    cases success
    · exact ⟨le_refl _, le_refl _, le_refl _, le_refl _, le_refl _, le_refl _, le_refl _,
        le_refl _, le_refl _, i10, le_refl _, i12, le_refl _, f1, f2, f3⟩
    · have ha : (Float64.finite false 0).le amount = true := hop rfl
      exact ⟨le_refl _, le_refl _, le_refl _, le_refl _, le_refl _, le_refl _, le_refl _,
        le_refl _, le_refl _, i10, i11, le_refl _, le_refl _,
        Float64.add_ge _ _ a1 ha, f2, f3⟩
  | recordSimulationFailure =>
    exact ⟨le_refl _, le_refl _, le_refl _, le_refl _, le_refl _, le_refl _, le_refl _,
      le_refl _, le_refl _, le_refl _, le_refl _, le_refl _, i13, f1, f2, f3⟩
  | recordProfit profitLoss =>
    have hp : profitLoss ≠ Float64.nan := hop
    by_cases hpos : profitLoss.gt (Float64.finite false 0) = true
    · have hs : IEEE.TelemetryOp.step m (IEEE.TelemetryOp.recordProfit profitLoss) =
          { m with TotalProfit := m.TotalProfit + profitLoss } := by
        simp [IEEE.TelemetryOp.step, IEEE.RecordProfit, hpos]
      rw [hs]
      exact ⟨le_refl _, le_refl _, le_refl _, le_refl _, le_refl _, le_refl _, le_refl _,
        le_refl _, le_refl _, le_refl _, le_refl _, le_refl _, le_refl _, f1,
        Float64.add_ge _ _ a2 (Float64.nonneg_of_pos _ hpos), f3⟩
    · have hs : IEEE.TelemetryOp.step m (IEEE.TelemetryOp.recordProfit profitLoss) =
          { m with TotalLoss := m.TotalLoss + -profitLoss } := by
        simp [IEEE.TelemetryOp.step, IEEE.RecordProfit, hpos]
      rw [hs]
      exact ⟨le_refl _, le_refl _, le_refl _, le_refl _, le_refl _, le_refl _, le_refl _,
        le_refl _, le_refl _, le_refl _, le_refl _, le_refl _, le_refl _, f1, f2,
        Float64.add_ge _ _ a3 (Float64.neg_nonneg_of_not_pos _ hp hpos)⟩
  | recordDecisionLatency duration =>
    exact ⟨le_refl _, le_refl _, le_refl _, le_refl _, le_refl _, le_refl _, le_refl _,
      le_refl _, le_refl _, le_refl _, le_refl _, le_refl _, le_refl _, f1, f2, f3⟩
  | recordExecutionTime duration =>
    exact ⟨le_refl _, le_refl _, le_refl _, le_refl _, le_refl _, le_refl _, le_refl _,
      le_refl _, le_refl _, le_refl _, le_refl _, le_refl _, le_refl _, f1, f2, f3⟩

/-- C29 as stated fails: a successful execution recorded with the
amount -50 lowers the invested total; a profit recorded as NaN makes the
total loss a NaN, which is not at least its value before; and a counter that
has reached the largest `int64` wraps to the smallest one when it is
incremented. -/
theorem telemetry_value_decreases :
    (IEEE.RecordExecution IEEE.NewTelemetryAgent true (-50)).TotalInvested.lt
      IEEE.NewTelemetryAgent.TotalInvested = true ∧
    (IEEE.RecordProfit IEEE.NewTelemetryAgent Float64.nan).TotalLoss = Float64.nan ∧
    IEEE.NewTelemetryAgent.TotalLoss.le
      (IEEE.RecordProfit IEEE.NewTelemetryAgent Float64.nan).TotalLoss = false ∧
    (IEEE.RecordTokenScanned IEEE.saturatedMetrics).TokensScanned <
      IEEE.saturatedMetrics.TokensScanned := by
  decide!

/-- C29, amended: for every `Record` call whose float64 argument is not a
NaN and in which a successful execution carries an amount that is zero or
positive, made on metrics none of whose counters has reached the largest
`int64` and whose accumulators hold values that are zero or positive (not a
NaN), every counter and accumulator of the bank is afterwards at least its
value before the call, the accumulators being added in float64. -/
theorem telemetry_monotone (m : IEEE.Metrics) (op : IEEE.TelemetryOp)
    (hbelow : IEEE.countersBelowMax m) (hacc : IEEE.accumulatorsNonNegative m)
    (hop : op.plainAmount) :
    IEEE.countersNonDecreasing m (op.step m) :=
  IEEE_step_counters_nonDecreasing m op hbelow hacc hop

/-- C29, amended, at the zero metrics and a successful execution of 100
USD. -/
theorem telemetry_monotone_witness :
    IEEE.countersNonDecreasing IEEE.NewTelemetryAgent
      (IEEE.TelemetryOp.step IEEE.NewTelemetryAgent
        (IEEE.TelemetryOp.recordExecution true 100)) :=
  telemetry_monotone IEEE.NewTelemetryAgent (IEEE.TelemetryOp.recordExecution true 100)
    (by unfold IEEE.countersBelowMax; decide)
    ⟨⟨rfl, 0, 0, by norm_num, rfl⟩, ⟨rfl, 0, 0, by norm_num, rfl⟩, ⟨rfl, 0, 0, by norm_num, rfl⟩⟩
    (fun _ => by decide!)

theorem sameDayRun_state :
    runOps (ResumeTrading (riskWith 0 600 true)) sameDayRun = riskWith 70 600 false := by
  have hearly : ¬ timeSince oneHour 0 > twentyFourHours := by decide
  have hearly2 : ¬ timeSince oneHour
      (ResumeTrading (riskWith 0 600 true)).control.LastResetTime > twentyFourHours := hearly
  simp only [sameDayRun, runOps, RiskOp.step, CheckDailyReset, if_neg hearly2]
  norm_num [CanExecute, RecordExecution, ReleaseExposure, ResumeTrading, riskWith,
    defaultConfig, decisionOf, resultOf, timeSince, oneHour, twentyFourHours, maxDuration,
    minDuration]

theorem sameDayRun_passes :
    passesLimits (runOps (ResumeTrading (riskWith 0 600 true)) sameDayRun) (decisionOf 100) := by
  rw [sameDayRun_state]
  unfold passesLimits
  norm_num [riskWith, defaultConfig, decisionOf]

theorem sameDayRun_quiet : quietRun (ResumeTrading (riskWith 0 600 true)) sameDayRun := by
  have hearly : ¬ timeSince oneHour 0 > twentyFourHours := by decide
  simp only [sameDayRun, quietRun, RiskOp.quiet, RiskOp.step, and_true]
  refine ⟨hearly, ?_, ?_⟩
  · unfold passesLimits
    norm_num [ResumeTrading, riskWith, defaultConfig, decisionOf, CheckDailyReset, timeSince,
      oneHour, twentyFourHours, maxDuration, minDuration]
  · norm_num [CanExecute, RecordExecution, ReleaseExposure, ResumeTrading, riskWith,
      defaultConfig, decisionOf, resultOf, CheckDailyReset, timeSince, oneHour,
      twentyFourHours, maxDuration, minDuration]

/-! ## Risk manager: resuming after a daily-loss halt -/

theorem step_keeps_loss (r : RiskManagerAgent) (op : RiskOp) (hop : op.keepsLoss r)
    (hloss : r.control.DailyLoss ≥ r.config.DailyLossLimit) :
    (op.step r).control.DailyLoss ≥ (op.step r).config.DailyLossLimit := by
  rw [step_config]
  cases op with
  | canExecute decision =>
    simp only [RiskOp.step, (CanExecute_control_frame r decision).2.2]
    exact hloss
  | recordExecution result =>
    simp only [RiskOp.step, RecordExecution]
    split_ifs <;> exact hloss
  | recordProfit tokenAddress profitLoss =>
    have hl : r.config.DailyLossLimit ≤ r.control.DailyLoss := hloss
    simp only [RiskOp.step, RecordProfit, haltTrading]
    split_ifs with hp <;> (try simp only []) <;> (try simp only [ge_iff_le]) <;> linarith
  | releaseExposure amount =>
    simp only [RiskOp.step, ReleaseExposure]
    split_ifs <;> exact hloss
  | resumeTrading => exact hloss
  | resetDaily now => exact absurd hop (by simp [RiskOp.keepsLoss])
  | checkDailyReset now resetNow =>
    have hnot : ¬ timeSince now r.control.LastResetTime > twentyFourHours := hop
    simp only [RiskOp.step, CheckDailyReset, if_neg hnot]
    exact hloss
  | getStatus => exact hloss

theorem canExecuteAnswers_deny_while_loss_kept (ops : List RiskOp) :
    ∀ r : RiskManagerAgent, r.control.DailyLoss ≥ r.config.DailyLossLimit → lossKept r ops →
      ∀ a ∈ canExecuteAnswers r ops, a.1 = false := by
  induction ops with
  | nil => intro r _ _ a ha; simp [canExecuteAnswers] at ha
  | cons op ops ih =>
    intro r hloss hkept a ha
    have hnext := step_keeps_loss r op hkept.1 hloss
    cases op with
    | canExecute decision =>
      simp only [canExecuteAnswers, RiskOp.answer, List.mem_cons] at ha
      rcases ha with ha | ha
      · rw [ha]
        exact (CanExecute_denies_of_loss r decision hloss).1
      · exact ih _ hnext hkept.2 a ha
    | recordExecution result => exact ih _ hnext hkept.2 a ha
    | recordProfit tokenAddress profitLoss => exact ih _ hnext hkept.2 a ha
    | releaseExposure amount => exact ih _ hnext hkept.2 a ha
    | resumeTrading => exact ih _ hnext hkept.2 a ha
    | resetDaily now => exact ih _ hnext hkept.2 a ha
    | checkDailyReset now resetNow => exact ih _ hnext hkept.2 a ha
    | getStatus => exact ih _ hnext hkept.2 a ha

theorem quiet_keepsLoss (r : RiskManagerAgent) (op : RiskOp) (hop : op.quiet r) :
    op.keepsLoss r := by
  cases op <;> first | exact hop | trivial

theorem step_quiet_running (r : RiskManagerAgent) (op : RiskOp) (hop : op.quiet r)
    (hrun : r.control.TradingHalted = false) :
    (op.step r).control.TradingHalted = false := by
  cases op with
  | canExecute decision =>
    simp only [RiskOp.step, CanExecute_fails_limits r decision hrun hop]
    exact hrun
  | recordExecution result =>
    simp only [RiskOp.step, RecordExecution]
    split_ifs <;> exact hrun
  | recordProfit tokenAddress profitLoss =>
    have hp : ¬ profitLoss < 0 := hop
    simp only [RiskOp.step, RecordProfit, if_neg hp]
    exact hrun
  | releaseExposure amount =>
    simp only [RiskOp.step, ReleaseExposure]
    split_ifs <;> exact hrun
  | resumeTrading => rfl
  | resetDaily now => exact hrun
  | checkDailyReset now resetNow =>
    simp only [RiskOp.step, CheckDailyReset, ResetDaily]
    split_ifs <;> exact hrun
  | getStatus => exact hrun

theorem quietRun_state (ops : List RiskOp) :
    ∀ r : RiskManagerAgent, r.control.DailyLoss ≥ r.config.DailyLossLimit →
      r.control.TradingHalted = false → quietRun r ops →
      (runOps r ops).control.DailyLoss ≥ (runOps r ops).config.DailyLossLimit ∧
        (runOps r ops).control.TradingHalted = false := by
  induction ops with
  | nil => intro r hloss hrun _; exact ⟨hloss, hrun⟩
  | cons op ops ih =>
    intro r hloss hrun hquiet
    exact ih _ (step_keeps_loss r op (quiet_keepsLoss r op hquiet.1) hloss)
      (step_quiet_running r op hquiet.1 hrun) hquiet.2

/-- C36 as stated fails: from a halted risk manager with a daily loss
of 600 against a limit of 500 and a last reset at instant 0, after
`ResumeTrading` the two calls `executeCandidate` makes 25 hours later
(`CheckDailyReset`, then `CanExecute` with a decision of 100 USD) end in an
approval: a `CanExecute` call made after `ResumeTrading` returns true. -/
theorem resumed_manager_approves_next_day :
    (riskWith 0 600 true).control.DailyLoss ≥ (riskWith 0 600 true).config.DailyLossLimit ∧
    canExecuteAnswers (ResumeTrading (riskWith 0 600 true)) nextDayRun = [(true, "")] := by
  constructor
  · norm_num [riskWith, defaultConfig]
  · have hdue : timeSince twentyFiveHours 0 > twentyFourHours := by decide
    have hdue2 : timeSince twentyFiveHours
        (ResumeTrading (riskWith 0 600 true)).control.LastResetTime > twentyFourHours := hdue
    simp only [nextDayRun, canExecuteAnswers, RiskOp.answer, RiskOp.step, CheckDailyReset,
      if_pos hdue2]
    norm_num [CanExecute, ResetDaily, ResumeTrading, riskWith, defaultConfig, decisionOf]

/-- C36, amended: from any state whose daily loss has reached the limit,
`ResumeTrading` clears the circuit breaker and leaves the daily loss and the
current exposure unchanged; every `CanExecute` call made afterwards and
before the daily loss is reset (no `ResetDaily`, and no `CheckDailyReset` more
than 24 hours after the last reset), whatever other calls are made in
between, still returns false; and the first `CanExecute` call whose decision
passes the single-position and the total-exposure check (the calls before it
being `CanExecute` calls that fail a limit check and calls that neither reset
the daily loss nor record a loss) returns (false, daily_loss_limit_reached)
and sets the circuit breaker again. -/
theorem resume_does_not_reenable_before_reset (r : RiskManagerAgent)
    (hloss : r.control.DailyLoss ≥ r.config.DailyLossLimit) :
    (ResumeTrading r).control.DailyLoss = r.control.DailyLoss ∧
    (ResumeTrading r).control.CurrentExposure = r.control.CurrentExposure ∧
    (ResumeTrading r).control.TradingHalted = false ∧
    (∀ ops : List RiskOp, lossKept (ResumeTrading r) ops →
      ∀ a ∈ canExecuteAnswers (ResumeTrading r) ops, a.1 = false) ∧
    (∀ (earlier : List RiskOp) (decision : StrategyDecision),
      quietRun (ResumeTrading r) earlier →
      passesLimits (runOps (ResumeTrading r) earlier) decision →
      (CanExecute (runOps (ResumeTrading r) earlier) decision).2 =
        (false, "daily_loss_limit_reached") ∧
      (CanExecute (runOps (ResumeTrading r) earlier) decision).1.control.TradingHalted =
        true) := by
  refine ⟨rfl, rfl, rfl,
    fun ops hkept => canExecuteAnswers_deny_while_loss_kept ops _ hloss hkept, ?_⟩
  intro earlier decision hquiet hpass
  obtain ⟨hl, hh⟩ := quietRun_state earlier (ResumeTrading r) hloss rfl hquiet
  unfold passesLimits at hpass
  unfold CanExecute
  simp only [hh, Bool.false_eq_true, if_false, if_neg hpass.1, if_neg hpass.2, if_pos hl]
  exact ⟨trivial, rfl⟩

/-- C36, amended, at a halted risk manager with a daily loss of 600
against a limit of 500: after `ResumeTrading` and the calls of `sameDayRun`,
a decision of 100 USD that passes both limits is refused with
daily_loss_limit_reached and the circuit breaker is set again. -/
theorem resume_does_not_reenable_before_reset_witness :
    (CanExecute (runOps (ResumeTrading (riskWith 0 600 true)) sameDayRun) (decisionOf 100)).2 =
      (false, "daily_loss_limit_reached") ∧
    (CanExecute (runOps (ResumeTrading (riskWith 0 600 true)) sameDayRun)
      (decisionOf 100)).1.control.TradingHalted = true :=
  (resume_does_not_reenable_before_reset (riskWith 0 600 true)
    (by norm_num [riskWith, defaultConfig])).2.2.2.2 sameDayRun (decisionOf 100)
    sameDayRun_quiet sameDayRun_passes

end MemeBot
